import Mathlib

/-!
# InspIRCd `core_message`: PRIVMSG / NOTICE dispatch

A shallow embedding of `src/coremods/core_message.cpp` and the properties of its
CTCP decoder and of `CommandMessage::Handle` / `CommandMessage::GetRouting`.

Conventions of the embedding

* A `std::string` is a list of characters (`Str`); one `Char` stands for one byte.
* `size_t` values are natural numbers; the unsigned subtractions of the source
  are taken modulo `2 ^ 64` (`size_t_sub`).
* `std::string::npos` results are `none`.
* A C++ exception (`std::out_of_range` from `assign`) is the result `none`.
* Collaborators that live outside `core_message.cpp` (user and channel look-ups,
  glob matching, module hooks, constants) are fields of the records the code
  reads them from.
-/

namespace CoreMessage

/-- A byte string (`std::string`). -/
abbrev Str := List Char

/-- The CTCP delimiter, byte `0x01`. -/
def SOH : Char := Char.ofNat 1

/-- The NUL byte that terminates a C string. -/
def NUL : Char := Char.ofNat 0

/-- Subtraction of two `size_t` values (64-bit unsigned, wrapping). -/
def size_t_sub (a b : Nat) : Nat := (a + 2 ^ 64 - b) % 2 ^ 64

namespace StdString

/-- The call `text.find(c, pos)`: the index of the first `c` at a position `≥ pos`,
or `none` for `npos`. -/
def find (text : Str) (c : Char) (pos : Nat) : Option Nat :=
  let rest := text.drop pos
  let i := rest.findIdx (fun x => x == c)
  if i < rest.length then some (pos + i) else none

/-- The call `text.find_first_not_of(c, pos)`: the index of the first byte other
than `c` at a position `≥ pos`, or `none` for `npos`. -/
def find_first_not_of (text : Str) (c : Char) (pos : Nat) : Option Nat :=
  let rest := text.drop pos
  let i := rest.findIdx (fun x => x != c)
  if i < rest.length then some (pos + i) else none

/-- The call `dst.assign(str, subpos, sublen)`: the new value of `dst`, namely the
`sublen` bytes of `str` from `subpos` (fewer when `str` ends first); `none` when
`subpos > str.size()`, where the library throws `std::out_of_range`. -/
def assign (str : Str) (subpos sublen : Nat) : Option Str :=
  if subpos > str.length then none else some ((str.drop subpos).take sublen)

end StdString

namespace MessageDetailsImpl

open StdString

/-- The nullary overload `MessageDetailsImpl::IsCTCP()` on the field `text`. -/
def IsCTCP (text : Str) : Bool :=
  decide (text.length ≥ 2) && (text[0]? == some SOH) && (text[1]? != some SOH)
    && (text[1]? != some ' ')

/-- The overload `MessageDetailsImpl::IsCTCP(std::string& name, std::string& body)`.
The arguments `name` and `body` are the values of the two references on entry; the
result is the returned boolean with the values of the two references on exit. -/
def IsCTCP_name_body (text name body : Str) : Option (Bool × Str × Str) :=
  if !IsCTCP text then
    some (false, name, body)
  else
    let end_of_name := find text ' ' 2
    let end_of_ctcp := if text.getLast? = some SOH then 1 else 0
    match end_of_name with
    | none =>
      -- The CTCP only contains a name.
      match assign text 1 (size_t_sub (size_t_sub text.length 1) end_of_ctcp) with
      | none => none
      | some name1 => some (true, name1, [])
    | some end_of_name =>
      -- The CTCP contains a name and a body.
      match assign text 1 (size_t_sub end_of_name 1) with
      | none => none
      | some name1 =>
        match find_first_not_of text ' ' (end_of_name + 1) with
        | none =>
          -- The CTCP body is provided but empty.
          some (true, name1, [])
        | some start_of_body =>
          -- The CTCP body provided was non-empty.
          match assign text start_of_body
              (size_t_sub (size_t_sub text.length start_of_body) end_of_ctcp) with
          | none => none
          | some body1 => some (true, name1, body1)

/-- The overload `MessageDetailsImpl::IsCTCP(std::string& name)`: the returned
boolean with the value of `name` on exit. -/
def IsCTCP_name (text name : Str) : Option (Bool × Str) :=
  if !IsCTCP text then
    some (false, name)
  else
    let end_of_name := find text ' ' 2
    match end_of_name with
    | none =>
      -- The CTCP only contains a name.
      let end_of_ctcp := if text.getLast? = some SOH then 1 else 0
      match assign text 1 (size_t_sub (size_t_sub text.length 1) end_of_ctcp) with
      | none => none
      | some name1 => some (true, name1)
    | some end_of_name =>
      -- The CTCP contains a name and a body.
      match assign text 1 (size_t_sub end_of_name 1) with
      | none => none
      | some name1 => some (true, name1)

end MessageDetailsImpl

/-! ## Data model of the dispatcher -/

/-- The enumeration `MessageType`. -/
inductive MessageType where
  | MSG_PRIVMSG
  | MSG_NOTICE
  deriving DecidableEq, Repr

/-- The values of `CmdResult` that `CommandMessage::Handle` returns. -/
inductive CmdResult where
  | CMD_FAILURE
  | CMD_SUCCESS
  deriving DecidableEq, Repr

/-- Modelled from the spec: the result of a pre-message hook, `continue`
(`MOD_RES_PASSTHRU`) or `deny` (`MOD_RES_DENY`); the type is declared outside
`src/`. -/
inductive ModResult where
  | MOD_RES_PASSTHRU
  | MOD_RES_DENY
  deriving DecidableEq, Repr

/-- The ban policy `ServerConfig::BannedUserTreatment`. -/
inductive BannedUserTreatment where
  | BUT_NORMAL
  | BUT_RESTRICT_SILENT
  | BUT_RESTRICT_NOTIFY
  deriving DecidableEq, Repr

/-- The numerics `core_message.cpp` writes. -/
inductive NumericCode where
  | RPL_AWAY
  | ERR_NOSUCHNICK
  | ERR_NOSUCHCHANNEL
  | ERR_CANNOTSENDTOCHAN
  | ERR_NOTEXTTOSEND
  deriving DecidableEq, Repr

/-- The identity of a `User*` handle. -/
abbrev UserId := Nat

/-- The map `ClientProtocol::TagMap`. -/
abbrev TagMap := List (Str × Str)

/-- The set `CUList` of user handles. -/
abbrev CUList := List UserId

/-- The attributes of a `User` the dispatcher reads. `is_local` is the outcome of
`IS_LOCAL(user)`, `away` of `IsAway()`, `server` of `server->GetName()`, and
`HasPrivPermission` of the method of that name. The mutable `idle_lastmsg` is
kept in a separate map from handles to timestamps. -/
structure User where
  uid : UserId
  nick : Str
  is_local : Bool
  registered : Nat
  away : Bool
  awaymsg : Str
  server : Str
  HasPrivPermission : Str → Bool

/-- The methods of a `Channel` the dispatcher calls; modes are named as in the two
`ChanModeReference` members (`moderated`, `noextmsg`). -/
structure Channel where
  name : Str
  GetPrefixValue : UserId → Nat
  HasUser : UserId → Bool
  IsModeSet : Str → Bool
  IsBanned : UserId → Bool

/-- The variant `MessageTarget`. -/
inductive MessageTarget where
  | TYPE_USER (dest : User)
  | TYPE_CHANNEL (chan : Channel) (status : Char)
  | TYPE_SERVER (servername : Str)

/-- The fields of `MessageDetails`. -/
structure MessageDetails where
  type : MessageType
  text : Str
  tags_in : TagMap
  tags_out : TagMap
  exemptions : CUList
  deriving DecidableEq, Repr

/-- Modelled from the spec: the constructor of `MessageDetails` (declared outside
`src/`): the body and the client tags as received, `tags_out` initially empty, no
exemptions. -/
def MessageDetailsImpl.new (mt : MessageType) (msg : Str) (tags : TagMap) : MessageDetails :=
  { type := mt, text := msg, tags_in := tags, tags_out := [], exemptions := [] }

/-- Modelled from the spec: a registered module, by its pre-message hook
`(source, target, details) → {continue, deny}`, which may mutate `details`. The
three other hooks are informational and take `details` read-only; their firing is
recorded as an event. -/
structure Module where
  OnUserPreMessage : User → MessageTarget → MessageDetails → ModResult × MessageDetails

/-- The message `ClientProtocol::Messages::Privmsg` as built by the dispatcher;
`status` is `NUL` when the constructor is given none. -/
structure Privmsg where
  source : UserId
  target : Str
  text : Str
  type : MessageType
  status : Char
  tags : TagMap
  deriving DecidableEq, Repr

/-- The actions of one dispatch that are visible outside it, in program order. -/
inductive Event where
  | WriteNumeric (user : UserId) (numeric : NumericCode) (params : List Str)
  | OnUserPreMessage (source : UserId) (details : MessageDetails)
  | OnUserMessageBlocked (source : UserId) (details : MessageDetails)
  | OnUserMessage (source : UserId) (details : MessageDetails)
  | OnUserPostMessage (source : UserId) (details : MessageDetails)
  | Send (user : UserId) (msg : Privmsg)
  | ChannelWrite (chan : Str) (msg : Privmsg) (status : Char) (exemptions : CUList)
  deriving DecidableEq, Repr

/-- Whether the event is the firing of one of the four module hooks. -/
def Event.isHook : Event → Bool
  | .OnUserPreMessage _ _ => true
  | .OnUserMessageBlocked _ _ => true
  | .OnUserMessage _ _ => true
  | .OnUserPostMessage _ _ => true
  | _ => false

/-- Whether the event hands a message to a recipient: a send to one user or a
write to a channel. -/
def Event.isDelivery : Event → Bool
  | .Send _ _ => true
  | .ChannelWrite _ _ _ _ => true
  | _ => false

/-- Whether the event writes a numeric. -/
def Event.isNumeric : Event → Bool
  | .WriteNumeric _ _ _ => true
  | _ => false

/-- Whether the event writes the numeric `code`. -/
def Event.isNumericOf (code : NumericCode) : Event → Bool
  | .WriteNumeric _ numeric _ => numeric == code
  | _ => false

/-- The server state and collaborators reached through `ServerInstance`, with the
constants `VOICE_VALUE` and `REG_ALL` of the headers. `FindPrefix` gives the rank
of the prefix mode registered for a character, if any. -/
structure InspIRCd where
  ServerName : Str
  RestrictBannedUsers : BannedUserTreatment
  Time : Nat
  VOICE_VALUE : Nat
  REG_ALL : Nat
  FindPrefix : Char → Option Nat
  FindChan : Str → Option Channel
  FindNickOnly : Str → Option User
  FindNick : Str → Option User
  Match : Str → Str → Bool
  GetLocalUsers : List User
  modules : List Module

/-- The parameters of the command: `Command(parent, name, 2, 2)` makes the parser
hand over exactly two, with the client tags of `GetTags()`. -/
structure Params where
  p0 : Str
  p1 : Str
  tags : TagMap

/-- What a dispatch leaves behind: the returned `CmdResult`, the actions taken, and
the `idle_lastmsg` of every user. -/
structure Outcome where
  result : CmdResult
  events : List Event
  idle_lastmsg : UserId → Nat

/-- The C string `s.c_str()` as C functions read it: the bytes before the first NUL. -/
def c_str (s : Str) : Str := s.takeWhile (fun c => c != NUL)

/-- The byte `*p` at the head of a C string, NUL at its end. -/
def deref (p : Str) : Char := p.headD NUL

/-- The libc call `strchr(s, c)` for `c` other than NUL: the offset of the first
`c`, or `none` for a null pointer. -/
def strchr (s : Str) (c : Char) : Option Nat :=
  let i := s.findIdx (fun x => x == c)
  if i < s.length then some i else none

/-- The libc call `strcasecmp(a, b)` as a truth value: `true` when the result is
non-zero, that is when the two strings differ after ASCII lower-casing. -/
def strcasecmp (a b : Str) : Bool :=
  a.map Char.toLower != b.map Char.toLower

/-- Modelled from the spec: `Numerics::NoSuchChannel` (declared outside `src/`),
numeric `ERR_NOSUCHCHANNEL` carrying the target as given. -/
def Numerics.NoSuchChannel (user : User) (chan : Str) : Event :=
  Event.WriteNumeric user.uid NumericCode.ERR_NOSUCHCHANNEL [chan]

/-- Modelled from the spec: `Numerics::NoSuchNick` (declared outside `src/`), numeric
`ERR_NOSUCHNICK` carrying the target as given. -/
def Numerics.NoSuchNick (user : User) (nick : Str) : Event :=
  Event.WriteNumeric user.uid NumericCode.ERR_NOSUCHNICK [nick]

/-! ## The hooks -/

open MessageType CmdResult ModResult BannedUserTreatment NumericCode

/-- Modelled from the spec: the macro `FIRST_MOD_RESULT(OnUserPreMessage, ...)`
(declared outside `src/`). Modules fire in registration order, each sees the
mutations of the earlier ones, and the first module to return `deny` halts the
chain. A hook may change `text`, `tags_out` and `exemptions`; `type` and `tags_in`
are constant members. The result is the verdict with the details as mutated. -/
def FirstModResult_OnUserPreMessage :
    List Module → User → MessageTarget → MessageDetails → ModResult × MessageDetails
  | [], _, _, details => (MOD_RES_PASSTHRU, details)
  | m :: rest, source, target, details =>
    let r := m.OnUserPreMessage source target details
    let details1 : MessageDetails :=
      { details with text := r.2.text, tags_out := r.2.tags_out, exemptions := r.2.exemptions }
    if r.1 = MOD_RES_DENY then (MOD_RES_DENY, details1)
    else FirstModResult_OnUserPreMessage rest source target details1

/-- The function `FirePreEvents`: the returned boolean, `msgdetails` as the hooks
left it, and the actions taken. -/
def FirePreEvents (srv : InspIRCd) (source : User) (msgtarget : MessageTarget)
    (msgdetails : MessageDetails) : Bool × MessageDetails × List Event :=
  -- Inform modules that a message wants to be sent.
  let r := FirstModResult_OnUserPreMessage srv.modules source msgtarget msgdetails
  let fired := Event.OnUserPreMessage source.uid msgdetails
  if r.1 = MOD_RES_DENY then
    -- Inform modules that a module blocked the message.
    (false, r.2, [fired, Event.OnUserMessageBlocked source.uid r.2])
  else if r.2.text.isEmpty then
    -- Check whether a module zapped the message body.
    (false, r.2,
      [fired, Event.WriteNumeric source.uid ERR_NOTEXTTOSEND ["No text to send".toList]])
  else
    -- Inform modules that a message is about to be sent.
    (true, r.2, [fired, Event.OnUserMessage source.uid r.2])

/-- The function `FirePostEvent`: the returned `CmdResult`, the actions taken, and
the idle times afterwards. The `msgtarget` argument of the source is only passed
on to the hook, whose firing is recorded without it. -/
def FirePostEvent (srv : InspIRCd) (source : User) (msgdetails : MessageDetails)
    (idle : UserId → Nat) : Outcome :=
  -- If the source is local and was not sending a CTCP reply then update their idle time.
  let idle1 :=
    if source.is_local && (msgdetails.type != MSG_NOTICE || !MessageDetailsImpl.IsCTCP msgdetails.text)
    then Function.update idle source.uid srv.Time
    else idle
  -- Inform modules that a message was sent.
  { result := CMD_SUCCESS, events := [Event.OnUserPostMessage source.uid msgdetails],
    idle_lastmsg := idle1 }

namespace CommandMessage

/-- The function `CommandMessage::SendAll`: one `Send` of the `$*` message for every
local user that is fully registered and not exempt, in list order. -/
def SendAll (srv : InspIRCd) (source : User) (details : MessageDetails) : List Event :=
  let message : Privmsg :=
    { source := source.uid, target := "$*".toList, text := details.text, type := details.type,
      status := NUL, tags := details.tags_out }
  (srv.GetLocalUsers.filter
    (fun user => user.registered == srv.REG_ALL && !details.exemptions.contains user.uid)).map
    (fun user => Event.Send user.uid message)

/-- Modelled from the spec: the routing directives behind the macros
`ROUTE_LOCALONLY`, `ROUTE_BROADCAST` and `ROUTE_MESSAGE(dest)` (declared outside
`src/`): local-only, broadcast, and route-to-target. -/
inductive RouteDescriptor where
  | ROUTE_LOCALONLY
  | ROUTE_BROADCAST
  | ROUTE_MESSAGE (dest : Str)
  deriving DecidableEq, Repr

/-- The method `CommandMessage::GetRouting`. -/
def GetRouting (user : User) (parameters : Params) : RouteDescriptor :=
  if user.is_local then
    -- This is handled by the OnUserPostMessage hook to split the LoopCall pieces
    RouteDescriptor.ROUTE_LOCALONLY
  else
    RouteDescriptor.ROUTE_MESSAGE parameters.p0

/-- Lines 211-218 of `Handle`: the status character (NUL when there is none) and
the target behind it. On an empty target with a prefix mode registered for NUL the
source steps past the terminator; here the target stays empty. -/
def StripStatus (srv : InspIRCd) (p0 : Str) : Char × Str :=
  let target := c_str p0
  if (srv.FindPrefix (deref target)).isSome then (deref target, target.tail)
  else (NUL, target)

/-- Lines 225-248 of `Handle`, the send-permission checks on a channel: `none` when
the dispatch goes on, otherwise the numerics written before `CMD_FAILURE`. -/
def ChannelGate (srv : InspIRCd) (user : User) (chan : Channel) : Option (List Event) :=
  if user.is_local && decide (chan.GetPrefixValue user.uid < srv.VOICE_VALUE) then
    if chan.IsModeSet "noextmsg".toList && !chan.HasUser user.uid then
      some [Event.WriteNumeric user.uid ERR_CANNOTSENDTOCHAN
        [chan.name, "Cannot send to channel (no external messages)".toList]]
    else if chan.IsModeSet "moderated".toList then
      some [Event.WriteNumeric user.uid ERR_CANNOTSENDTOCHAN
        [chan.name, "Cannot send to channel (+m)".toList]]
    else if srv.RestrictBannedUsers ≠ BUT_NORMAL then
      if chan.IsBanned user.uid then
        if srv.RestrictBannedUsers = BUT_RESTRICT_NOTIFY then
          some [Event.WriteNumeric user.uid ERR_CANNOTSENDTOCHAN
            [chan.name, "Cannot send to channel (you're banned)".toList]]
        else some []
      else none
    else none
  else none

/-- Lines 270-293 of `Handle`, the look-up of a user target: `none` when the server
named after `@` is not the one of the user found (the dispatch ends there),
otherwise the value of `dest`, which may be null. -/
def FindDest (srv : InspIRCd) (user : User) (p0 : Str) : Option (Option User) :=
  let destnick := c_str p0
  if user.is_local then
    match strchr destnick '@' with
    | some targetserver =>
      let nickonly := destnick.take targetserver
      match srv.FindNickOnly nickonly with
      | some dest =>
        if strcasecmp (c_str dest.server) (destnick.drop (targetserver + 1)) then
          -- Incorrect server for user
          none
        else some (some dest)
      | none => some none
    | none => some (srv.FindNickOnly destnick)
  else
    some (srv.FindNick destnick)

/-- The body of `CommandMessage::Handle` below the `LoopCall` test (lines 193-330):
the dispatch of one target. -/
def HandleTarget (srv : InspIRCd) (msgtype : MessageType) (user : User) (parameters : Params)
    (idle : UserId → Nat) : Outcome :=
  if parameters.p0[0]? = some '$' then
    if !user.HasPrivPermission "users/mass-message".toList then
      { result := CMD_SUCCESS, events := [], idle_lastmsg := idle }
    else
      let servername := parameters.p0.drop 1
      let msgtarget := MessageTarget.TYPE_SERVER servername
      let msgdetails := MessageDetailsImpl.new msgtype parameters.p1 parameters.tags
      let pre := FirePreEvents srv user msgtarget msgdetails
      if !pre.1 then
        { result := CMD_FAILURE, events := pre.2.2, idle_lastmsg := idle }
      else
        let sent := if srv.Match srv.ServerName servername then SendAll srv user pre.2.1 else []
        let post := FirePostEvent srv user pre.2.1 idle
        { post with events := pre.2.2 ++ sent ++ post.events }
  else
    let st := StripStatus srv parameters.p0
    let status := st.1
    let target := st.2
    if deref target = '#' then
      match srv.FindChan target with
      | some chan =>
        match ChannelGate srv user chan with
        | some numerics => { result := CMD_FAILURE, events := numerics, idle_lastmsg := idle }
        | none =>
          let msgtarget := MessageTarget.TYPE_CHANNEL chan status
          let msgdetails0 := MessageDetailsImpl.new msgtype parameters.p1 parameters.tags
          let msgdetails : MessageDetails :=
            { msgdetails0 with exemptions := msgdetails0.exemptions.insert user.uid }
          let pre := FirePreEvents srv user msgtarget msgdetails
          if !pre.1 then
            { result := CMD_FAILURE, events := pre.2.2, idle_lastmsg := idle }
          else
            let privmsg : Privmsg :=
              { source := user.uid, target := chan.name, text := pre.2.1.text,
                type := pre.2.1.type, status := status, tags := pre.2.1.tags_out }
            let post := FirePostEvent srv user pre.2.1 idle
            { post with
              events := pre.2.2 ++
                [Event.ChannelWrite chan.name privmsg status pre.2.1.exemptions] ++ post.events }
      | none =>
        -- channel does not exist
        { result := CMD_FAILURE, events := [Numerics.NoSuchChannel user parameters.p0],
          idle_lastmsg := idle }
    else
      match FindDest srv user parameters.p0 with
      | none =>
        { result := CMD_FAILURE, events := [Numerics.NoSuchNick user parameters.p0],
          idle_lastmsg := idle }
      | some none =>
        -- no such nick/channel
        { result := CMD_FAILURE, events := [Numerics.NoSuchNick user parameters.p0],
          idle_lastmsg := idle }
      | some (some dest) =>
        if dest.registered = srv.REG_ALL then
          if parameters.p1.isEmpty then
            { result := CMD_FAILURE,
              events := [Event.WriteNumeric user.uid ERR_NOTEXTTOSEND ["No text to send".toList]],
              idle_lastmsg := idle }
          else
            -- auto respond with away message
            let away :=
              if dest.away && decide (msgtype = MSG_PRIVMSG) then
                [Event.WriteNumeric user.uid RPL_AWAY [dest.nick, dest.awaymsg]]
              else []
            let msgtarget := MessageTarget.TYPE_USER dest
            let msgdetails := MessageDetailsImpl.new msgtype parameters.p1 parameters.tags
            let pre := FirePreEvents srv user msgtarget msgdetails
            if !pre.1 then
              { result := CMD_FAILURE, events := away ++ pre.2.2, idle_lastmsg := idle }
            else
              let sent :=
                if dest.is_local then
                  -- direct write, same server
                  [Event.Send dest.uid
                    { source := user.uid, target := dest.nick, text := pre.2.1.text,
                      type := msgtype, status := NUL, tags := pre.2.1.tags_out }]
                else []
              let post := FirePostEvent srv user pre.2.1 idle
              { post with events := away ++ pre.2.2 ++ sent ++ post.events }
        else
          -- no such nick/channel
          { result := CMD_FAILURE, events := [Numerics.NoSuchNick user parameters.p0],
            idle_lastmsg := idle }

/-- Modelled from the spec: `CommandParser::LoopCall` (defined outside `src/`). When
the first argument is a comma-separated list of targets the dispatcher is invoked
once per target in order, a failure on one target not aborting the rest, and the
call reports `true` (here `some` of what the dispatches left behind); otherwise it
does nothing and reports `false` (`none`). -/
def LoopCall (srv : InspIRCd) (msgtype : MessageType) (user : User) (parameters : Params)
    (idle : UserId → Nat) : Option (List Event × (UserId → Nat)) :=
  if ',' ∈ parameters.p0 then
    some ((parameters.p0.splitOn ',').foldl
      (fun acc item =>
        let o := HandleTarget srv msgtype user { parameters with p0 := item } acc.2
        (acc.1 ++ o.events, o.idle_lastmsg))
      ([], idle))
  else none

/-- The method `CommandMessage::Handle` of the command built for `msgtype`. -/
def Handle (srv : InspIRCd) (msgtype : MessageType) (user : User) (parameters : Params)
    (idle : UserId → Nat) : Outcome :=
  match LoopCall srv msgtype user parameters idle with
  | some done => { result := CMD_SUCCESS, events := done.1, idle_lastmsg := done.2 }
  | none => HandleTarget srv msgtype user parameters idle

end CommandMessage

/-! ## The paths into the pre-message pass -/

/-- The three paths of `HandleTarget` that arrive at `FirePreEvents`, each with the
target and the details it hands over and the numerics it has written before:
a server mask from a privileged sender (line 201), a channel that exists and
whose permission checks let the sender through (line 253), and a fully registered
user with a non-empty body (line 311), the latter after the away numeric. -/
inductive ReachesPre (srv : InspIRCd) (msgtype : MessageType) (user : User)
    (parameters : Params) : MessageTarget → MessageDetails → List Event → Prop where
  | server_mask :
    parameters.p0[0]? = some '$' →
    user.HasPrivPermission "users/mass-message".toList = true →
    ReachesPre srv msgtype user parameters
      (MessageTarget.TYPE_SERVER (parameters.p0.drop 1))
      (MessageDetailsImpl.new msgtype parameters.p1 parameters.tags) []
  | channel (chan : Channel) :
    parameters.p0[0]? ≠ some '$' →
    deref (CommandMessage.StripStatus srv parameters.p0).2 = '#' →
    srv.FindChan (CommandMessage.StripStatus srv parameters.p0).2 = some chan →
    CommandMessage.ChannelGate srv user chan = none →
    ReachesPre srv msgtype user parameters
      (MessageTarget.TYPE_CHANNEL chan (CommandMessage.StripStatus srv parameters.p0).1)
      { MessageDetailsImpl.new msgtype parameters.p1 parameters.tags with
        exemptions := [user.uid] } []
  | user (dest : User) :
    parameters.p0[0]? ≠ some '$' →
    deref (CommandMessage.StripStatus srv parameters.p0).2 ≠ '#' →
    CommandMessage.FindDest srv user parameters.p0 = some (some dest) →
    dest.registered = srv.REG_ALL →
    parameters.p1 ≠ [] →
    ReachesPre srv msgtype user parameters
      (MessageTarget.TYPE_USER dest)
      (MessageDetailsImpl.new msgtype parameters.p1 parameters.tags)
      (if dest.away = true ∧ msgtype = MSG_PRIVMSG then
        [Event.WriteNumeric user.uid RPL_AWAY [dest.nick, dest.awaymsg]] else [])

/-- The delivery `HandleTarget` performs between a successful pre-message pass and the
post-message hook, by target: `SendAll` when the mask matches the server name
(lines 204-207), the write to the channel (lines 256-259), the send to a local
user (lines 314-322). -/
def FanOut (srv : InspIRCd) (msgtype : MessageType) (user : User) (details : MessageDetails) :
    MessageTarget → List Event
  | MessageTarget.TYPE_SERVER servername =>
    if srv.Match srv.ServerName servername then CommandMessage.SendAll srv user details else []
  | MessageTarget.TYPE_CHANNEL chan status =>
    [Event.ChannelWrite chan.name
      { source := user.uid, target := chan.name, text := details.text, type := details.type,
        status := status, tags := details.tags_out } status details.exemptions]
  | MessageTarget.TYPE_USER dest =>
    if dest.is_local then
      [Event.Send dest.uid
        { source := user.uid, target := dest.nick, text := details.text, type := msgtype,
          status := NUL, tags := details.tags_out }]
    else []

/-- The write to the channel `chan` of lines 256-259 of `Handle`, for the status
character `status` and the details `details` the pre-message pass left. -/
def ChannelWriteOf (user : User) (chan : Channel) (status : Char) (details : MessageDetails) :
    Event :=
  Event.ChannelWrite chan.name
    { source := user.uid, target := chan.name, text := details.text, type := details.type,
      status := status, tags := details.tags_out } status details.exemptions

/-- Modelled from the spec: the fan-out primitive `write_to_members(event, status,
exemptions)` (`Channel::Write`, defined outside `src/`), as the test whether it
delivers to the user `u`: it emits to each member whose prefix rank meets or
exceeds the rank of the status prefix, if there is one, and who is not exempt. -/
def WriteToMembers (srv : InspIRCd) (chan : Channel) (status : Char) (exemptions : CUList)
    (u : UserId) : Bool :=
  chan.HasUser u && !exemptions.contains u &&
    decide ((if status = NUL then 0 else (srv.FindPrefix status).getD 0) ≤ chan.GetPrefixValue u)

/-! ## Concrete scenarios -/

namespace Scenario

/-- A local, fully registered user without privileges. -/
def alice : User :=
  { uid := 1, nick := "alice".toList, is_local := true, registered := 7, away := false,
    awaymsg := [], server := "irc.example.org".toList, HasPrivPermission := fun _ => false }

/-- A local, fully registered user who is away. -/
def bob : User :=
  { uid := 2, nick := "bob".toList, is_local := true, registered := 7, away := true,
    awaymsg := "gone fishing".toList, server := "irc.example.org".toList,
    HasPrivPermission := fun _ => false }

/-- A user of another server, holding every privilege. -/
def carol : User :=
  { uid := 3, nick := "carol".toList, is_local := false, registered := 7, away := false,
    awaymsg := [], server := "hub.example.org".toList, HasPrivPermission := fun _ => true }

/-- A local operator holding every privilege. -/
def dave : User :=
  { uid := 4, nick := "dave".toList, is_local := true, registered := 7, away := false,
    awaymsg := [], server := "irc.example.org".toList, HasPrivPermission := fun _ => true }

/-- The channel `#room` with the given modes set, `alice` and `bob` as members
without a prefix, and no bans. -/
def room (modes : List Str) : Channel :=
  { name := "#room".toList, GetPrefixValue := fun _ => 0,
    HasUser := fun u => u == 1 || u == 2, IsModeSet := fun m => modes.contains m,
    IsBanned := fun _ => false }

/-- A server `irc.example.org` at time 1000 with the users above, one channel, the
given modules, the default ban policy, and the prefixes `@` and `+`. -/
def server (modules : List Module) (chan : Channel) : InspIRCd :=
  { ServerName := "irc.example.org".toList, RestrictBannedUsers := BUT_NORMAL, Time := 1000,
    VOICE_VALUE := 10000, REG_ALL := 7,
    FindPrefix := fun c => if c = '@' then some 30000 else if c = '+' then some 10000 else none,
    FindChan := fun n => if n = chan.name then some chan else none,
    FindNickOnly := fun n =>
      if n = alice.nick then some alice else if n = bob.nick then some bob
      else if n = dave.nick then some dave else none,
    FindNick := fun n =>
      if n = alice.nick then some alice else if n = bob.nick then some bob
      else if n = carol.nick then some carol else if n = dave.nick then some dave else none,
    Match := fun pattern mask => pattern == mask || mask == "*".toList,
    GetLocalUsers := [alice, bob, dave], modules := modules }

/-- Idle times before the dispatch: every user last spoke at time 5. -/
def idle0 : UserId → Nat := fun _ => 5

/-- A module whose pre-message hook denies every message. -/
def denyAll : Module := { OnUserPreMessage := fun _ _ d => (MOD_RES_DENY, d) }

/-- A module whose pre-message hook empties the body and lets the message pass. -/
def zap : Module :=
  { OnUserPreMessage := fun _ _ d => (MOD_RES_PASSTHRU, { d with text := [] }) }

/-- A module whose pre-message hook clears the exemptions and lets the message pass. -/
def unexempt : Module :=
  { OnUserPreMessage := fun _ _ d => (MOD_RES_PASSTHRU, { d with exemptions := [] }) }

/-- A module whose pre-message hook writes the body `hi` and lets the message pass. -/
def fill : Module :=
  { OnUserPreMessage := fun _ _ d => (MOD_RES_PASSTHRU, { d with text := "hi".toList }) }

/-- The channel `#room` without modes or bans, with `alice` and `dave` as operators
(rank 30000) and `bob` voiced (rank 10000). -/
def opsroom : Channel :=
  { name := "#room".toList,
    GetPrefixValue := fun u => if u = 1 ∨ u = 4 then 30000 else if u = 2 then 10000 else 0,
    HasUser := fun u => u == 1 || u == 2 || u == 4, IsModeSet := fun _ => false,
    IsBanned := fun _ => false }

/-- The server of `server [] (room [])` on which `$` is registered as a status
prefix as well. -/
def dollarServer : InspIRCd :=
  { server [] (room []) with
    FindPrefix := fun c =>
      if c = '$' then some 5 else if c = '@' then some 30000
      else if c = '+' then some 10000 else none }

/-- The channel `#room` without modes on which `alice` is banned. -/
def banroom : Channel :=
  { room [] with IsBanned := fun u => u == 1 }

/-- The server of `server [] chan` under the given ban policy. -/
def policyServer (policy : BannedUserTreatment) (chan : Channel) : InspIRCd :=
  { server [] chan with RestrictBannedUsers := policy }

end Scenario

/-! ## Auxiliary lemmas -/

/-- The substring `text[i .. j)` of the spec: the bytes at the indices `k` with
`i ≤ k < j`. -/
def slice (text : Str) (i j : Nat) : Str := (text.take j).drop i


theorem firstFrom_some {α : Type} (l : List α) (q : α → Bool) (pos p : Nat) :
    (if (l.drop pos).findIdx q < (l.drop pos).length then some (pos + (l.drop pos).findIdx q)
      else none) = some p ↔
    pos ≤ p ∧ (∃ h : p < l.length, q l[p] = true) ∧
      ∀ j, pos ≤ j → j < p → ∀ h : j < l.length, q l[j] = false := by
  constructor
  · intro h
    split at h
    · rename_i hlt
      have hp : pos + (l.drop pos).findIdx q = p := by simpa using h
      have hlt2 : p < l.length := by
        rw [List.length_drop] at hlt; omega
      refine ⟨by omega, ⟨hlt2, ?_⟩, ?_⟩
      · have := @List.findIdx_getElem _ q (l.drop pos) hlt
        rw [List.getElem_drop] at this
        simpa [hp] using this
      · intro j hj1 hj2 hj3
        have hj : j - pos < (l.drop pos).findIdx q := by omega
        have := List.not_of_lt_findIdx hj
        rw [List.getElem_drop] at this
        have e : pos + (j - pos) = j := by omega
        simpa [e] using this
    · exact absurd h (by simp)
  · rintro ⟨h1, ⟨h2, h3⟩, h4⟩
    have hk : p - pos < (l.drop pos).length := by
      rw [List.length_drop]; omega
    have hidx : (l.drop pos).findIdx q = p - pos := by
      rw [List.findIdx_eq hk]
      constructor
      · rw [List.getElem_drop]
        have e : pos + (p - pos) = p := by omega
        simpa [e] using h3
      · intro j hj
        rw [List.getElem_drop]
        exact h4 (pos + j) (by omega) (by omega) (by omega)
    rw [hidx, if_pos hk]
    congr 1
    omega

theorem firstFrom_none {α : Type} (l : List α) (q : α → Bool) (pos : Nat) :
    (if (l.drop pos).findIdx q < (l.drop pos).length then some (pos + (l.drop pos).findIdx q)
      else none) = none ↔
    ∀ j, pos ≤ j → ∀ h : j < l.length, q l[j] = false := by
  constructor
  · intro h j hj hjl
    split at h
    · exact absurd h (by simp)
    · rename_i hnlt
      have hge : (l.drop pos).findIdx q = (l.drop pos).length :=
        le_antisymm (List.findIdx_le_length q) (not_lt.mp hnlt)
      rw [List.findIdx_eq_length] at hge
      apply hge
      have hb : j - pos < (l.drop pos).length := by rw [List.length_drop]; omega
      have e : l[j] = (l.drop pos)[j - pos] := by
        rw [List.getElem_drop]; congr 1; omega
      rw [e]
      exact List.getElem_mem _
  · intro h
    rw [if_neg]
    intro hlt
    have := @List.findIdx_getElem _ q (l.drop pos) hlt
    rw [List.getElem_drop] at this
    rw [List.length_drop] at hlt
    rw [h _ (by omega) (by omega)] at this
    exact absurd this (by simp)

open StdString MessageDetailsImpl

theorem find_eq_some (text : Str) (c : Char) (pos p : Nat) :
    find text c pos = some p ↔
      pos ≤ p ∧ text[p]? = some c ∧ ∀ j, pos ≤ j → j < p → text[j]? ≠ some c := by
  unfold find
  simp only []
  rw [firstFrom_some]
  constructor
  · rintro ⟨h1, ⟨h2, h3⟩, h4⟩
    refine ⟨h1, ?_, ?_⟩
    · rw [List.getElem?_eq_getElem h2]; simpa using h3
    · intro j hj1 hj2
      have hj3 : j < text.length := by omega
      have := h4 j hj1 hj2 hj3
      rw [List.getElem?_eq_getElem hj3]; simpa using this
  · rintro ⟨h1, h2, h3⟩
    obtain ⟨hp, hpc⟩ := List.getElem?_eq_some_iff.mp h2
    refine ⟨h1, ⟨hp, by simpa using hpc⟩, ?_⟩
    intro j hj1 hj2 hj3
    have := h3 j hj1 hj2
    rw [List.getElem?_eq_getElem hj3] at this
    simpa using this

theorem find_eq_none (text : Str) (c : Char) (pos : Nat) :
    find text c pos = none ↔ ∀ j, pos ≤ j → text[j]? ≠ some c := by
  unfold find
  simp only []
  rw [firstFrom_none]
  constructor
  · intro h j hj hc
    obtain ⟨hp, hpc⟩ := List.getElem?_eq_some_iff.mp hc
    have := h j hj hp
    simp [hpc] at this
  · intro h j hj hj3
    have := h j hj
    rw [List.getElem?_eq_getElem hj3] at this
    simpa using this

theorem find_first_not_of_eq_some (text : Str) (c : Char) (pos p : Nat) :
    find_first_not_of text c pos = some p ↔
      pos ≤ p ∧ p < text.length ∧ text[p]? ≠ some c ∧
        ∀ j, pos ≤ j → j < p → text[j]? = some c := by
  unfold find_first_not_of
  simp only []
  rw [firstFrom_some]
  constructor
  · rintro ⟨h1, ⟨h2, h3⟩, h4⟩
    refine ⟨h1, h2, ?_, ?_⟩
    · rw [List.getElem?_eq_getElem h2]; simpa using h3
    · intro j hj1 hj2
      have hj3 : j < text.length := by omega
      have := h4 j hj1 hj2 hj3
      rw [List.getElem?_eq_getElem hj3]; simpa using this
  · rintro ⟨h1, hp, h2, h3⟩
    rw [List.getElem?_eq_getElem hp] at h2
    refine ⟨h1, ⟨hp, by simpa using h2⟩, ?_⟩
    intro j hj1 hj2 hj3
    have := h3 j hj1 hj2
    rw [List.getElem?_eq_getElem hj3] at this
    simpa using this

theorem find_first_not_of_eq_none (text : Str) (c : Char) (pos : Nat) :
    find_first_not_of text c pos = none ↔
      ∀ j, pos ≤ j → j < text.length → text[j]? = some c := by
  unfold find_first_not_of
  simp only []
  rw [firstFrom_none]
  constructor
  · intro h j hj hj3
    have := h j hj hj3
    rw [List.getElem?_eq_getElem hj3]; simpa using this
  · intro h j hj hj3
    have := h j hj hj3
    rw [List.getElem?_eq_getElem hj3] at this
    simpa using this

theorem size_t_sub_eq (a b : Nat) (hb : b ≤ a) (ha : a < 2 ^ 64) : size_t_sub a b = a - b := by
  unfold size_t_sub
  have e : a + 2 ^ 64 - b = (a - b) + 2 ^ 64 := by omega
  rw [e, Nat.add_mod_right, Nat.mod_eq_of_lt (by omega)]

theorem assign_eq_slice (text : Str) (i n : Nat) (hi : i ≤ text.length) :
    assign text i n = some (slice text i (i + n)) := by
  unfold assign slice
  rw [if_neg (by omega), List.drop_take]
  simp

theorem IsCTCP_iff (text : Str) :
    IsCTCP text = true ↔
      2 ≤ text.length ∧ text[0]? = some SOH ∧ text[1]? ≠ some SOH ∧ text[1]? ≠ some ' ' := by
  unfold IsCTCP
  simp [and_assoc]


/-- The decoder on an accepted text without a space at a position `≥ 2`. -/
theorem IsCTCP_name_body_nospace (text name body : Str) (hlen : text.length < 2 ^ 64)
    (hc : IsCTCP text = true) (hns : find text ' ' 2 = none) :
    IsCTCP_name_body text name body =
      some (true, slice text 1 (text.length - (if text.getLast? = some SOH then 1 else 0)), []) := by
  have h2 : 2 ≤ text.length := ((IsCTCP_iff text).mp hc).1
  unfold IsCTCP_name_body
  simp only [hc, hns, Bool.not_true, Bool.false_eq_true, if_false]
  have hs : size_t_sub (size_t_sub text.length 1) (if text.getLast? = some SOH then 1 else 0)
      = text.length - 1 - (if text.getLast? = some SOH then 1 else 0) := by
    rw [size_t_sub_eq text.length 1 (by omega) hlen]
    apply size_t_sub_eq
    · split <;> omega
    · omega
  rw [hs, assign_eq_slice text 1 _ (by omega)]
  have e : 1 + (text.length - 1 - (if text.getLast? = some SOH then 1 else 0))
      = text.length - (if text.getLast? = some SOH then 1 else 0) := by
    split <;> omega
  rw [e]

/-- The decoder on an accepted text whose first space at a position `≥ 2` is at `p`
and is followed by spaces only. -/
theorem IsCTCP_name_body_nobody (text name body : Str) (hlen : text.length < 2 ^ 64)
    (hc : IsCTCP text = true) (p : Nat) (hp : find text ' ' 2 = some p)
    (hnb : find_first_not_of text ' ' (p + 1) = none) :
    IsCTCP_name_body text name body = some (true, slice text 1 p, []) := by
  have hp2 := (find_eq_some text ' ' 2 p).mp hp
  have hpl : p < text.length := (List.getElem?_eq_some_iff.mp hp2.2.1).1
  unfold IsCTCP_name_body
  simp only [hc, hp, hnb, Bool.not_true, Bool.false_eq_true, if_false]
  rw [size_t_sub_eq p 1 (by omega) (by omega), assign_eq_slice text 1 _ (by omega)]
  have e : 1 + (p - 1) = p := by omega
  rw [e]

/-- The decoder on an accepted text whose first space at a position `≥ 2` is at `p`
and whose first byte other than a space after `p` is at `s`. -/
theorem IsCTCP_name_body_full (text name body : Str) (hlen : text.length < 2 ^ 64)
    (hc : IsCTCP text = true) (p s : Nat) (hp : find text ' ' 2 = some p)
    (hs : find_first_not_of text ' ' (p + 1) = some s) :
    IsCTCP_name_body text name body =
      some (true, slice text 1 p,
        slice text s (text.length - (if text.getLast? = some SOH then 1 else 0))) := by
  have hp2 := (find_eq_some text ' ' 2 p).mp hp
  have hpl : p < text.length := (List.getElem?_eq_some_iff.mp hp2.2.1).1
  have hs2 := (find_first_not_of_eq_some text ' ' (p + 1) s).mp hs
  have hsl : s < text.length := hs2.2.1
  unfold IsCTCP_name_body
  simp only [hc, hp, hs, Bool.not_true, Bool.false_eq_true, if_false]
  rw [size_t_sub_eq p 1 (by omega) (by omega), assign_eq_slice text 1 _ (by omega)]
  have e : 1 + (p - 1) = p := by omega
  rw [e]
  have hs3 : size_t_sub (size_t_sub text.length s) (if text.getLast? = some SOH then 1 else 0)
      = text.length - s - (if text.getLast? = some SOH then 1 else 0) := by
    rw [size_t_sub_eq text.length s (by omega) hlen]
    apply size_t_sub_eq
    · split <;> omega
    · omega
  rw [hs3, assign_eq_slice text s _ (by omega)]
  have e2 : s + (text.length - s - (if text.getLast? = some SOH then 1 else 0))
      = text.length - (if text.getLast? = some SOH then 1 else 0) := by
    split <;> omega
  rw [e2]


theorem findIdx_eq_not_mem (l : Str) (c : Char) (h : c ∉ l) :
    l.findIdx (fun x => x == c) = l.length := by
  rw [List.findIdx_eq_length]
  intro x hx
  simp only [beq_eq_false_iff_ne, ne_eq]
  rintro rfl
  exact h hx

theorem findIdx_skip (l rest : Str) (c : Char) (h : c ∉ l) :
    (l ++ c :: rest).findIdx (fun x => x == c) = l.length := by
  induction l with
  | nil => simp [List.findIdx_cons]
  | cons a l ih =>
    have ha : a ≠ c := fun e => h (by simp [e])
    have hl : c ∉ l := fun e => h (by simp [e])
    have hac : (a == c) = false := by simpa using ha
    simp [List.findIdx_cons, hac, ih hl]

theorem find_framed (n0 : Char) (N rest : Str) (h : ' ' ∉ N) :
    find (SOH :: n0 :: (N ++ ' ' :: rest)) ' ' 2 = some (2 + N.length) := by
  unfold find
  simp [findIdx_skip N rest ' ' h]

theorem find_unframed (n0 : Char) (N : Str) (h : ' ' ∉ N) :
    find (SOH :: n0 :: N) ' ' 2 = none := by
  unfold find
  simp [findIdx_eq_not_mem N ' ' h]

theorem find_first_not_of_framed (n0 b0 : Char) (N B : Str) (hb : b0 ≠ ' ') :
    find_first_not_of (SOH :: n0 :: (N ++ ' ' :: b0 :: B)) ' ' (2 + N.length + 1)
      = some (2 + N.length + 1) := by
  unfold find_first_not_of
  have e : List.drop (2 + N.length + 1) (SOH :: n0 :: (N ++ ' ' :: b0 :: B)) = b0 :: B := by
    have : SOH :: n0 :: (N ++ ' ' :: b0 :: B) = (SOH :: n0 :: (N ++ [' '])) ++ b0 :: B := by simp
    rw [this]
    apply List.drop_left'
    simp; omega
  have hb1 : (b0 != ' ') = true := by simpa using hb
  simp [e, List.findIdx_cons, hb1]

theorem slice_eq_mid (text pre mid post : Str) (i j : Nat) (h : text = pre ++ mid ++ post)
    (hi : i = pre.length) (hj : j = pre.length + mid.length) : slice text i j = mid := by
  subst h hi hj
  unfold slice
  have e : (pre ++ mid ++ post).take (pre.length + mid.length) = pre ++ mid := by
    apply List.take_left'
    simp
  rw [e]
  simp

theorem IsCTCP_framed (n0 : Char) (rest : Str) (h1 : n0 ≠ SOH) (h2 : n0 ≠ ' ') :
    IsCTCP (SOH :: n0 :: rest) = true := by
  rw [IsCTCP_iff]
  simp [h1, h2]

/-- The CTCP delimiter is not a space. -/
theorem SOH_ne_space : SOH ≠ ' ' := by decide

/-- Claim C2. `IsCTCP()` holds exactly of the texts of length at least 2 whose first byte
is SOH and whose second byte is neither SOH nor a space; the text `SOH SOH`, the
empty text and every one-byte text are not CTCPs. -/
theorem C2_IsCTCP_detection :
    (∀ text : Str, IsCTCP text = true ↔
      2 ≤ text.length ∧ text[0]? = some SOH ∧ text[1]? ≠ some SOH ∧ text[1]? ≠ some ' ') ∧
    IsCTCP [SOH, SOH] = false ∧ IsCTCP [] = false ∧ ∀ c : Char, IsCTCP [c] = false := by
  refine ⟨IsCTCP_iff, by decide, by decide, ?_⟩
  intro c
  unfold IsCTCP
  simp

/-- Claim C3. The full decoder follows the reference algorithm: on a text that `IsCTCP()`
rejects it returns false and leaves `name` and `body` alone; on an accepted text,
with `tail_trim` 1 when the last byte is SOH and 0 otherwise, it returns true with
`name = text[1 .. len - tail_trim)` and an empty body when no space stands at a
position `≥ 2`, and otherwise, `p` being the first such space, with
`name = text[1 .. p)` and the body empty when only spaces follow `p`, or
`text[s .. len - tail_trim)` when `s` is the first byte other than a space after `p`. -/
theorem C3_IsCTCP_decomposition (text name body : Str) (hlen : text.length < 2 ^ 64) :
    (IsCTCP text = false → IsCTCP_name_body text name body = some (false, name, body)) ∧
    (IsCTCP text = true →
      ((∀ i, 2 ≤ i → text[i]? ≠ some ' ') →
        IsCTCP_name_body text name body = some (true,
          slice text 1 (text.length - (if text.getLast? = some SOH then 1 else 0)), [])) ∧
      (∀ p, 2 ≤ p → text[p]? = some ' ' → (∀ i, 2 ≤ i → i < p → text[i]? ≠ some ' ') →
        ((∀ j, p < j → j < text.length → text[j]? = some ' ') →
          IsCTCP_name_body text name body = some (true, slice text 1 p, [])) ∧
        (∀ s, p < s → s < text.length → text[s]? ≠ some ' ' →
          (∀ j, p < j → j < s → text[j]? = some ' ') →
          IsCTCP_name_body text name body = some (true, slice text 1 p,
            slice text s (text.length - (if text.getLast? = some SOH then 1 else 0)))))) := by
  refine ⟨?_, ?_⟩
  · intro h
    unfold IsCTCP_name_body
    simp [h]
  · intro hc
    refine ⟨?_, ?_⟩
    · intro hns
      exact IsCTCP_name_body_nospace text name body hlen hc ((find_eq_none text ' ' 2).mpr hns)
    · intro p hp2 hp hfirst
      have hfind : find text ' ' 2 = some p := (find_eq_some text ' ' 2 p).mpr ⟨hp2, hp, hfirst⟩
      refine ⟨?_, ?_⟩
      · intro hsp
        apply IsCTCP_name_body_nobody text name body hlen hc p hfind
        exact (find_first_not_of_eq_none text ' ' (p + 1)).mpr (fun j hj hjl => hsp j (by omega) hjl)
      · intro s hps hsl hs hbetween
        apply IsCTCP_name_body_full text name body hlen hc p s hfind
        exact (find_first_not_of_eq_some text ' ' (p + 1) s).mpr
          ⟨by omega, hsl, hs, fun j hj hjs => hbetween j (by omega) hjs⟩

/-- Claim C3, witness. The decomposition at `SOH PING SP SP 1 2 SOH` (first space at 5,
body from 7 to the trailing SOH) and at a text that is not a CTCP. -/
theorem C3_IsCTCP_decomposition_witness :
    IsCTCP_name_body "\x01PING  12\x01".toList "n".toList "b".toList
        = some (true, "PING".toList, "12".toList) ∧
    IsCTCP_name_body "\x01\x01".toList "n".toList "b".toList
        = some (false, "n".toList, "b".toList) :=
  have h := C3_IsCTCP_decomposition "\x01PING  12\x01".toList "n".toList "b".toList (by decide)
  have k := C3_IsCTCP_decomposition "\x01\x01".toList "n".toList "b".toList (by decide)
  ⟨((h.2 (by decide)).2 5 (by decide) (by decide) (by decide)).2 7 (by decide) (by decide)
      (by decide) (fun j h1 h2 => by have e : j = 6 := by omega
                                     subst e; decide),
    k.1 (by decide)⟩


/-- Claim C4. CTCP parse round trip: for a non-empty name `N` without space or SOH and a
non-empty body `B` that does not begin with a space nor end with SOH, the decoder
yields `(N, B)` on `SOH N SP B SOH` and on the unterminated `SOH N SP B`, and
`(N, empty)` on `SOH N SOH` and on `SOH N`. -/
theorem C4_CTCP_round_trip (N B name body : Str) (hN : N ≠ []) (hNsp : ' ' ∉ N)
    (hNsoh : SOH ∉ N) (hB : B ≠ []) (hBsp : B.head? ≠ some ' ')
    (hBsoh : B.getLast? ≠ some SOH) (hlen : N.length + B.length + 3 < 2 ^ 64) :
    IsCTCP_name_body ([SOH] ++ N ++ [' '] ++ B ++ [SOH]) name body = some (true, N, B) ∧
    IsCTCP_name_body ([SOH] ++ N ++ [' '] ++ B) name body = some (true, N, B) ∧
    IsCTCP_name_body ([SOH] ++ N ++ [SOH]) name body = some (true, N, []) ∧
    IsCTCP_name_body ([SOH] ++ N) name body = some (true, N, []) := by
  obtain ⟨n0, N1, rfl⟩ := List.exists_cons_of_ne_nil hN
  obtain ⟨b0, B1, rfl⟩ := List.exists_cons_of_ne_nil hB
  have hn0soh : n0 ≠ SOH := fun e => hNsoh (by simp [e])
  have hn0sp : n0 ≠ ' ' := fun e => hNsp (by simp [e])
  have hN1sp : ' ' ∉ N1 := fun e => hNsp (by simp [e])
  have hb0 : b0 ≠ ' ' := by simpa using hBsp
  have hlastN : (n0 :: N1).getLast? ≠ some SOH := by
    intro e
    exact hNsoh (List.mem_of_getLast?_eq_some e)
  simp only [List.length_cons] at hlen
  refine ⟨?_, ?_, ?_, ?_⟩
  · have ht : [SOH] ++ n0 :: N1 ++ [' '] ++ b0 :: B1 ++ [SOH]
        = SOH :: n0 :: (N1 ++ ' ' :: b0 :: (B1 ++ [SOH])) := by simp
    rw [ht]
    have hl : (SOH :: n0 :: (N1 ++ ' ' :: b0 :: (B1 ++ [SOH]))).length
        = N1.length + B1.length + 5 := by simp; omega
    rw [IsCTCP_name_body_full _ name body (by rw [hl]; omega) (IsCTCP_framed n0 _ hn0soh hn0sp)
      (2 + N1.length) (2 + N1.length + 1) (find_framed n0 N1 _ hN1sp)
      (find_first_not_of_framed n0 b0 N1 _ hb0)]
    have hlast : (SOH :: n0 :: (N1 ++ ' ' :: b0 :: (B1 ++ [SOH]))).getLast? = some SOH := by
      have e : SOH :: n0 :: (N1 ++ ' ' :: b0 :: (B1 ++ [SOH]))
          = (SOH :: n0 :: (N1 ++ ' ' :: b0 :: B1)) ++ [SOH] := by simp
      rw [e, List.getLast?_concat]
    rw [if_pos hlast, hl]
    rw [slice_eq_mid _ [SOH] (n0 :: N1) (' ' :: b0 :: (B1 ++ [SOH])) 1 (2 + N1.length)
      (by simp) (by simp) (by simp; omega)]
    rw [slice_eq_mid _ (SOH :: n0 :: (N1 ++ [' '])) (b0 :: B1) [SOH] (2 + N1.length + 1)
      (N1.length + B1.length + 5 - 1) (by simp) (by simp; omega) (by simp; omega)]
  · have ht : [SOH] ++ n0 :: N1 ++ [' '] ++ b0 :: B1
        = SOH :: n0 :: (N1 ++ ' ' :: b0 :: B1) := by simp
    rw [ht]
    have hl : (SOH :: n0 :: (N1 ++ ' ' :: b0 :: B1)).length
        = N1.length + B1.length + 4 := by simp; omega
    rw [IsCTCP_name_body_full _ name body (by rw [hl]; omega) (IsCTCP_framed n0 _ hn0soh hn0sp)
      (2 + N1.length) (2 + N1.length + 1) (find_framed n0 N1 _ hN1sp)
      (find_first_not_of_framed n0 b0 N1 _ hb0)]
    have hlast : (SOH :: n0 :: (N1 ++ ' ' :: b0 :: B1)).getLast? ≠ some SOH := by
      have e : SOH :: n0 :: (N1 ++ ' ' :: b0 :: B1) = (SOH :: n0 :: (N1 ++ [' '])) ++ b0 :: B1 := by
        simp
      rw [e, List.getLast?_append_of_ne_nil _ (by simp)]
      exact hBsoh
    rw [if_neg hlast, hl]
    rw [slice_eq_mid _ [SOH] (n0 :: N1) (' ' :: b0 :: B1) 1 (2 + N1.length)
      (by simp) (by simp) (by simp; omega)]
    rw [slice_eq_mid _ (SOH :: n0 :: (N1 ++ [' '])) (b0 :: B1) [] (2 + N1.length + 1)
      (N1.length + B1.length + 4 - 0) (by simp) (by simp; omega) (by simp; omega)]
  · have ht : [SOH] ++ n0 :: N1 ++ [SOH] = SOH :: n0 :: (N1 ++ [SOH]) := by simp
    rw [ht]
    have hl : (SOH :: n0 :: (N1 ++ [SOH])).length = N1.length + 3 := by simp
    have hsp : ' ' ∉ N1 ++ [SOH] := by
      simp only [List.mem_append, List.mem_singleton, not_or]
      exact ⟨hN1sp, fun e => SOH_ne_space e.symm⟩
    rw [IsCTCP_name_body_nospace _ name body (by rw [hl]; omega)
      (IsCTCP_framed n0 _ hn0soh hn0sp) (find_unframed n0 _ hsp)]
    have hlast : (SOH :: n0 :: (N1 ++ [SOH])).getLast? = some SOH := by
      have e : SOH :: n0 :: (N1 ++ [SOH]) = (SOH :: n0 :: N1) ++ [SOH] := by simp
      rw [e, List.getLast?_concat]
    rw [if_pos hlast, hl]
    rw [slice_eq_mid _ [SOH] (n0 :: N1) [SOH] 1 (N1.length + 3 - 1)
      (by simp) (by simp) (by simp; omega)]
  · have ht : [SOH] ++ n0 :: N1 = SOH :: n0 :: N1 := by simp
    rw [ht]
    have hl : (SOH :: n0 :: N1).length = N1.length + 2 := by simp
    rw [IsCTCP_name_body_nospace _ name body (by rw [hl]; omega)
      (IsCTCP_framed n0 _ hn0soh hn0sp) (find_unframed n0 _ hN1sp)]
    have hlast : (SOH :: n0 :: N1).getLast? ≠ some SOH := by
      rw [List.getLast?_cons_cons]
      exact hlastN
    rw [if_neg hlast, hl]
    rw [slice_eq_mid _ [SOH] (n0 :: N1) [] 1 (N1.length + 2 - 0)
      (by simp) (by simp) (by simp; omega)]

/-- Claim C4, witness. The four decodings of the spec: `SOH ACTION waves SOH`,
`SOH VERSION SOH`, `SOH PING SOH`, and the unterminated `SOH PING 12345`. -/
theorem C4_CTCP_round_trip_witness :
    IsCTCP_name_body "\x01ACTION waves\x01".toList [] []
        = some (true, "ACTION".toList, "waves".toList) ∧
    IsCTCP_name_body "\x01VERSION\x01".toList [] [] = some (true, "VERSION".toList, []) ∧
    IsCTCP_name_body "\x01PING\x01".toList [] [] = some (true, "PING".toList, []) ∧
    IsCTCP_name_body "\x01PING 12345".toList [] []
        = some (true, "PING".toList, "12345".toList) :=
  ⟨(C4_CTCP_round_trip "ACTION".toList "waves".toList [] [] (by decide) (by decide) (by decide)
      (by decide) (by decide) (by decide) (by decide)).1,
    (C4_CTCP_round_trip "VERSION".toList "x".toList [] [] (by decide) (by decide) (by decide)
      (by decide) (by decide) (by decide) (by decide)).2.2.1,
    (C4_CTCP_round_trip "PING".toList "12345".toList [] [] (by decide) (by decide) (by decide)
      (by decide) (by decide) (by decide) (by decide)).2.2.1,
    (C4_CTCP_round_trip "PING".toList "12345".toList [] [] (by decide) (by decide) (by decide)
      (by decide) (by decide) (by decide) (by decide)).2.1⟩


open CommandMessage

/-- A dispatch whose first argument holds no comma is the dispatch of one target. -/
theorem Handle_single (srv : InspIRCd) (msgtype : MessageType) (user : User)
    (parameters : Params) (idle : UserId → Nat) (h : ',' ∉ parameters.p0) :
    Handle srv msgtype user parameters idle = HandleTarget srv msgtype user parameters idle := by
  unfold Handle LoopCall
  simp [h]

/-- The dispatch of one channel target that exists: the permission checks, then
the pre-message pass, the write to the channel and the post-message hook. -/
theorem HandleTarget_channel (srv : InspIRCd) (msgtype : MessageType) (user : User)
    (parameters : Params) (idle : UserId → Nat) (chan : Channel)
    (hmask : parameters.p0[0]? ≠ some '$')
    (hhash : deref (StripStatus srv parameters.p0).2 = '#')
    (hfind : srv.FindChan (StripStatus srv parameters.p0).2 = some chan) :
    HandleTarget srv msgtype user parameters idle =
      match ChannelGate srv user chan with
      | some numerics => { result := CMD_FAILURE, events := numerics, idle_lastmsg := idle }
      | none =>
        let pre := FirePreEvents srv user
          (MessageTarget.TYPE_CHANNEL chan (StripStatus srv parameters.p0).1)
          { MessageDetailsImpl.new msgtype parameters.p1 parameters.tags with
            exemptions := [user.uid] }
        if !pre.1 then { result := CMD_FAILURE, events := pre.2.2, idle_lastmsg := idle }
        else
          { FirePostEvent srv user pre.2.1 idle with
            events := pre.2.2 ++
              [Event.ChannelWrite chan.name
                { source := user.uid, target := chan.name, text := pre.2.1.text,
                  type := pre.2.1.type, status := (StripStatus srv parameters.p0).1,
                  tags := pre.2.1.tags_out }
                (StripStatus srv parameters.p0).1 pre.2.1.exemptions] ++
              (FirePostEvent srv user pre.2.1 idle).events } := by
  unfold HandleTarget
  simp only [hmask, if_false, hhash, if_true, hfind]
  rfl

/-- The first event of a pre-message pass is the firing of the pre-message hook. -/
theorem FirePreEvents_head (srv : InspIRCd) (source : User) (t : MessageTarget)
    (d : MessageDetails) :
    ∃ rest, (FirePreEvents srv source t d).2.2 = Event.OnUserPreMessage source.uid d :: rest := by
  unfold FirePreEvents
  simp only []
  split
  · exact ⟨_, rfl⟩
  · split
    · exact ⟨_, rfl⟩
    · exact ⟨_, rfl⟩


/-- The permission checks for a local sender below voice, as the three conditions in
source order. -/
theorem ChannelGate_below_voice (srv : InspIRCd) (user : User) (chan : Channel)
    (hlocal : user.is_local = true)
    (hrank : chan.GetPrefixValue user.uid < srv.VOICE_VALUE) :
    ChannelGate srv user chan =
      if chan.IsModeSet "noextmsg".toList = true ∧ chan.HasUser user.uid = false then
        some [Event.WriteNumeric user.uid ERR_CANNOTSENDTOCHAN
          [chan.name, "Cannot send to channel (no external messages)".toList]]
      else if chan.IsModeSet "moderated".toList = true then
        some [Event.WriteNumeric user.uid ERR_CANNOTSENDTOCHAN
          [chan.name, "Cannot send to channel (+m)".toList]]
      else if srv.RestrictBannedUsers ≠ BUT_NORMAL ∧ chan.IsBanned user.uid = true then
        if srv.RestrictBannedUsers = BUT_RESTRICT_NOTIFY then
          some [Event.WriteNumeric user.uid ERR_CANNOTSENDTOCHAN
            [chan.name, "Cannot send to channel (you're banned)".toList]]
        else some []
      else none := by
  unfold ChannelGate
  simp only [hlocal, hrank, decide_True, Bool.and_self, if_true]
  cases chan.IsModeSet "noextmsg".toList <;> cases chan.HasUser user.uid <;>
    cases chan.IsModeSet "moderated".toList <;> cases chan.IsBanned user.uid <;>
    cases srv.RestrictBannedUsers <;> simp

/-- A numeric is neither the firing of a hook nor a delivery. -/
theorem Event.numeric_not_hook (e : Event) (h : e.isNumeric = true) :
    e.isHook = false ∧ e.isDelivery = false := by
  cases e <;> simp_all [Event.isNumeric, Event.isHook, Event.isDelivery]

/-- Whatever the permission checks write before a rejection is numerics only. -/
theorem ChannelGate_some_numeric (srv : InspIRCd) (user : User) (chan : Channel)
    (numerics : List Event) (h : ChannelGate srv user chan = some numerics) :
    ∀ e ∈ numerics, e.isNumeric = true := by
  unfold ChannelGate at h
  repeat' split at h
  all_goals first
    | (cases h; simp [Event.isNumeric])
    | exact absurd h (by simp)


/-- Claim C1. PermissionGate for a channel target. For a local sender whose prefix rank
on the channel is below voice, `Handle` rejects the message before any hook runs
exactly when the channel is `noextmsg` and the sender is outside, or the channel
is moderated, or the ban policy is not `normal` and the sender is banned. The
checks run in that order and only the first failing one answers: a sender outside
a `noextmsg` channel gets exactly the one numeric with reason `no external
messages` even when the channel is moderated too, and otherwise a sender on a
moderated channel gets exactly the one with reason `+m`. On every such rejection
`Handle` returns failure, fires no hook, delivers nothing and leaves the idle
times alone. -/
theorem C1_PermissionGate (srv : InspIRCd) (msgtype : MessageType) (user : User)
    (parameters : Params) (idle : UserId → Nat) (chan : Channel)
    (hsingle : ',' ∉ parameters.p0)
    (hmask : parameters.p0[0]? ≠ some '$')
    (hhash : deref (StripStatus srv parameters.p0).2 = '#')
    (hfind : srv.FindChan (StripStatus srv parameters.p0).2 = some chan)
    (hlocal : user.is_local = true)
    (hrank : chan.GetPrefixValue user.uid < srv.VOICE_VALUE) :
    let o := Handle srv msgtype user parameters idle
    let noext := chan.IsModeSet "noextmsg".toList = true ∧ chan.HasUser user.uid = false
    let moderated := chan.IsModeSet "moderated".toList = true
    let banned := srv.RestrictBannedUsers ≠ BUT_NORMAL ∧ chan.IsBanned user.uid = true
    ((o.result = CMD_FAILURE ∧ ∀ e ∈ o.events, e.isHook = false) ↔
      (noext ∨ moderated ∨ banned)) ∧
    (noext → o.events = [Event.WriteNumeric user.uid ERR_CANNOTSENDTOCHAN
      [chan.name, "Cannot send to channel (no external messages)".toList]]) ∧
    (¬ noext → moderated → o.events = [Event.WriteNumeric user.uid ERR_CANNOTSENDTOCHAN
      [chan.name, "Cannot send to channel (+m)".toList]]) ∧
    (noext ∨ moderated ∨ banned →
      o.result = CMD_FAILURE ∧ (∀ e ∈ o.events, e.isHook = false ∧ e.isDelivery = false) ∧
        o.idle_lastmsg = idle) := by
  intro o noext moderated banned
  have ho : o = HandleTarget srv msgtype user parameters idle :=
    Handle_single srv msgtype user parameters idle hsingle
  rw [HandleTarget_channel srv msgtype user parameters idle chan hmask hhash hfind] at ho
  have hg := ChannelGate_below_voice srv user chan hlocal hrank
  have hrej : (noext ∨ moderated ∨ banned) → ∃ numerics,
      ChannelGate srv user chan = some numerics := by
    intro h
    rw [hg]
    by_cases h1 : noext
    · rw [if_pos h1]; exact ⟨_, rfl⟩
    · rw [if_neg h1]
      by_cases h2 : moderated
      · rw [if_pos h2]; exact ⟨_, rfl⟩
      · rw [if_neg h2]
        have h3 : banned := by tauto
        rw [if_pos h3]
        split <;> exact ⟨_, rfl⟩
  have hpass : ¬ (noext ∨ moderated ∨ banned) → ChannelGate srv user chan = none := by
    intro h
    rw [hg, if_neg (fun h1 => h (Or.inl h1)), if_neg (fun h2 => h (Or.inr (Or.inl h2))),
      if_neg (fun h3 => h (Or.inr (Or.inr h3)))]
  have hfail : (noext ∨ moderated ∨ banned) →
      o.result = CMD_FAILURE ∧ (∀ e ∈ o.events, e.isHook = false ∧ e.isDelivery = false) ∧
        o.idle_lastmsg = idle := by
    intro h
    obtain ⟨numerics, hn⟩ := hrej h
    rw [hn] at ho
    rw [ho]
    exact ⟨rfl, fun e he => Event.numeric_not_hook e
      (ChannelGate_some_numeric srv user chan numerics hn e he), rfl⟩
  refine ⟨⟨?_, ?_⟩, ?_, ?_, hfail⟩
  · rintro ⟨-, hnohook⟩
    by_contra hcon
    rw [hpass hcon] at ho
    obtain ⟨rest, hrest⟩ := FirePreEvents_head srv user
      (MessageTarget.TYPE_CHANNEL chan (StripStatus srv parameters.p0).1)
      { MessageDetailsImpl.new msgtype parameters.p1 parameters.tags with
        exemptions := [user.uid] }
    have hmem : Event.OnUserPreMessage user.uid
        { MessageDetailsImpl.new msgtype parameters.p1 parameters.tags with
          exemptions := [user.uid] } ∈ o.events := by
      rw [ho]
      simp only []
      split
      · simp only [hrest]; exact List.mem_cons_self _ _
      · simp only [hrest]; simp
    have := hnohook _ hmem
    simp [Event.isHook] at this
  · intro h
    exact ⟨(hfail h).1, fun e he => ((hfail h).2.1 e he).1⟩
  · intro h1
    rw [hg, if_pos h1] at ho
    rw [ho]
  · intro h1 h2
    rw [hg, if_neg h1, if_pos h2] at ho
    rw [ho]

/-- Claim C1, witness. Scenario S1: `alice`, local and without voice, sends
`PRIVMSG #room :hello` to the moderated `#room` and gets the one numeric with reason
`+m`; the dispatch fails. -/
theorem C1_PermissionGate_witness :
    (Handle (Scenario.server [] (Scenario.room ["moderated".toList])) MSG_PRIVMSG Scenario.alice
        ⟨"#room".toList, "hello".toList, []⟩ Scenario.idle0).events
      = [Event.WriteNumeric 1 ERR_CANNOTSENDTOCHAN
          ["#room".toList, "Cannot send to channel (+m)".toList]] ∧
    (Handle (Scenario.server [] (Scenario.room ["moderated".toList])) MSG_PRIVMSG Scenario.alice
        ⟨"#room".toList, "hello".toList, []⟩ Scenario.idle0).result = CMD_FAILURE :=
  have h := C1_PermissionGate (Scenario.server [] (Scenario.room ["moderated".toList]))
    MSG_PRIVMSG Scenario.alice ⟨"#room".toList, "hello".toList, []⟩ Scenario.idle0
    (Scenario.room ["moderated".toList]) (by decide) (by decide) (by decide) rfl
    (by decide) (by decide)
  ⟨h.2.2.1 (by decide) (by decide), (h.2.2.2 (Or.inr (Or.inl (by decide)))).1⟩


/-- A dispatch that reaches the pre-message pass is that pass followed, when it
succeeds, by the delivery and the post-message hook. -/
theorem HandleTarget_reaches (srv : InspIRCd) (msgtype : MessageType) (user : User)
    (parameters : Params) (idle : UserId → Nat) (t : MessageTarget) (d0 : MessageDetails)
    (written : List Event) (h : ReachesPre srv msgtype user parameters t d0 written) :
    HandleTarget srv msgtype user parameters idle =
      if (FirePreEvents srv user t d0).1 = false then
        { result := CMD_FAILURE, events := written ++ (FirePreEvents srv user t d0).2.2,
          idle_lastmsg := idle }
      else
        { FirePostEvent srv user (FirePreEvents srv user t d0).2.1 idle with
          events := written ++ (FirePreEvents srv user t d0).2.2 ++
            FanOut srv msgtype user (FirePreEvents srv user t d0).2.1 t ++
            (FirePostEvent srv user (FirePreEvents srv user t d0).2.1 idle).events } := by
  cases h with
  | server_mask hmask hpriv =>
    unfold HandleTarget
    simp only [hmask, if_true, hpriv, Bool.not_true, Bool.false_eq_true, if_false]
    cases hpre : (FirePreEvents srv user (MessageTarget.TYPE_SERVER (parameters.p0.drop 1))
      (MessageDetailsImpl.new msgtype parameters.p1 parameters.tags)).1 <;> simp [FanOut]
  | channel chan hmask hhash hfind hgate =>
    rw [HandleTarget_channel srv msgtype user parameters idle chan hmask hhash hfind, hgate]
    cases hpre : (FirePreEvents srv user
      (MessageTarget.TYPE_CHANNEL chan (StripStatus srv parameters.p0).1)
      { MessageDetailsImpl.new msgtype parameters.p1 parameters.tags with
        exemptions := [user.uid] }).1 <;> simp [FanOut, hpre]
  | user dest hmask hhash hfind hreg hbody =>
    unfold HandleTarget
    have hb : parameters.p1.isEmpty = false := by
      cases hp : parameters.p1 with
      | nil => exact absurd hp hbody
      | cons a l => rfl
    simp only [hmask, if_false, hhash, hfind, hreg, if_true, hb, Bool.false_eq_true]
    cases hpre : (FirePreEvents srv user (MessageTarget.TYPE_USER dest)
      (MessageDetailsImpl.new msgtype parameters.p1 parameters.tags)).1 <;>
      cases dest.away <;> cases msgtype <;> simp [FanOut]


/-- The pre-message pass when a module denies. -/
theorem FirePreEvents_deny (srv : InspIRCd) (source : User) (t : MessageTarget)
    (d : MessageDetails)
    (h : (FirstModResult_OnUserPreMessage srv.modules source t d).1 = MOD_RES_DENY) :
    FirePreEvents srv source t d =
      (false, (FirstModResult_OnUserPreMessage srv.modules source t d).2,
        [Event.OnUserPreMessage source.uid d,
          Event.OnUserMessageBlocked source.uid
            (FirstModResult_OnUserPreMessage srv.modules source t d).2]) := by
  unfold FirePreEvents
  simp [h]

/-- The pre-message pass when no module denies and the body ends up empty. -/
theorem FirePreEvents_zapped (srv : InspIRCd) (source : User) (t : MessageTarget)
    (d : MessageDetails)
    (h : (FirstModResult_OnUserPreMessage srv.modules source t d).1 ≠ MOD_RES_DENY)
    (hz : (FirstModResult_OnUserPreMessage srv.modules source t d).2.text = []) :
    FirePreEvents srv source t d =
      (false, (FirstModResult_OnUserPreMessage srv.modules source t d).2,
        [Event.OnUserPreMessage source.uid d,
          Event.WriteNumeric source.uid ERR_NOTEXTTOSEND ["No text to send".toList]]) := by
  unfold FirePreEvents
  simp [h, hz]

/-- The pre-message pass when no module denies and the body ends up non-empty. -/
theorem FirePreEvents_continue (srv : InspIRCd) (source : User) (t : MessageTarget)
    (d : MessageDetails)
    (h : (FirstModResult_OnUserPreMessage srv.modules source t d).1 ≠ MOD_RES_DENY)
    (hz : (FirstModResult_OnUserPreMessage srv.modules source t d).2.text ≠ []) :
    FirePreEvents srv source t d =
      (true, (FirstModResult_OnUserPreMessage srv.modules source t d).2,
        [Event.OnUserPreMessage source.uid d,
          Event.OnUserMessage source.uid
            (FirstModResult_OnUserPreMessage srv.modules source t d).2]) := by
  unfold FirePreEvents
  have hz1 : (FirstModResult_OnUserPreMessage srv.modules source t d).2.text.isEmpty = false := by
    cases hp : (FirstModResult_OnUserPreMessage srv.modules source t d).2.text with
    | nil => exact absurd hp hz
    | cons a l => rfl
  simp [h, hz1]

/-- What precedes the pre-message pass is numerics only. -/
theorem ReachesPre_written (srv : InspIRCd) (msgtype : MessageType) (user : User)
    (parameters : Params) (t : MessageTarget) (d0 : MessageDetails) (written : List Event)
    (h : ReachesPre srv msgtype user parameters t d0 written) :
    ∀ e ∈ written, e.isNumeric = true := by
  cases h with
  | server_mask _ _ => simp
  | channel _ _ _ _ _ => simp
  | user dest _ _ _ _ _ =>
    intro e he
    split at he
    · simp only [List.mem_singleton] at he
      subst he
      rfl
    · simp at he

/-- Claim C5, counterexample. With the modules `zap` (empties the body) and `denyAll`
registered in that order, `PRIVMSG #room :hello` from `alice` reaches the
pre-message pass, the body is empty when the pass ends, and the only actions are
the pre-message and message-blocked hooks: no `ERR_NOTEXTTOSEND` is written. -/
theorem C5_filter_zap_counterexample :
    ReachesPre (Scenario.server [Scenario.zap, Scenario.denyAll] (Scenario.room []))
      MSG_PRIVMSG Scenario.alice ⟨"#room".toList, "hello".toList, []⟩
      (MessageTarget.TYPE_CHANNEL (Scenario.room []) NUL)
      { type := MSG_PRIVMSG, text := "hello".toList, tags_in := [], tags_out := [],
        exemptions := [1] } [] ∧
    (FirstModResult_OnUserPreMessage [Scenario.zap, Scenario.denyAll] Scenario.alice
      (MessageTarget.TYPE_CHANNEL (Scenario.room []) NUL)
      { type := MSG_PRIVMSG, text := "hello".toList, tags_in := [], tags_out := [],
        exemptions := [1] }).2.text = [] ∧
    (Handle (Scenario.server [Scenario.zap, Scenario.denyAll] (Scenario.room []))
      MSG_PRIVMSG Scenario.alice ⟨"#room".toList, "hello".toList, []⟩ Scenario.idle0).events
      = [Event.OnUserPreMessage 1
          { type := MSG_PRIVMSG, text := "hello".toList, tags_in := [], tags_out := [],
            exemptions := [1] },
         Event.OnUserMessageBlocked 1
          { type := MSG_PRIVMSG, text := [], tags_in := [], tags_out := [],
            exemptions := [1] }] ∧
    Event.WriteNumeric 1 ERR_NOTEXTTOSEND ["No text to send".toList] ∉
      (Handle (Scenario.server [Scenario.zap, Scenario.denyAll] (Scenario.room []))
        MSG_PRIVMSG Scenario.alice ⟨"#room".toList, "hello".toList, []⟩ Scenario.idle0).events :=
  ⟨ReachesPre.channel (Scenario.room []) (by decide) (by decide) rfl (by decide),
    by decide, by decide, by decide⟩

/-- Claim C5, amended. Filter-zap semantics. For a server-mask, channel or user dispatch
that reaches the pre-message pass: if no module denies and the body is empty
when the pass ends, the sender is written `ERR_NOTEXTTOSEND` right after the
pre-message hook and nothing else happens; if a module denies, the
message-blocked hook fires and no numeric is written. Either way `Handle` returns
failure, neither the message hook nor the post-message hook fires, nothing is
delivered, and the idle times stay as they were. -/
theorem C5_filter_zap (srv : InspIRCd) (msgtype : MessageType) (user : User)
    (parameters : Params) (idle : UserId → Nat) (t : MessageTarget) (d0 : MessageDetails)
    (written : List Event) (hsingle : ',' ∉ parameters.p0)
    (hreach : ReachesPre srv msgtype user parameters t d0 written) :
    let r := FirstModResult_OnUserPreMessage srv.modules user t d0
    let o := Handle srv msgtype user parameters idle
    (r.1 ≠ MOD_RES_DENY → r.2.text = [] →
      o.events = written ++ [Event.OnUserPreMessage user.uid d0,
        Event.WriteNumeric user.uid ERR_NOTEXTTOSEND ["No text to send".toList]]) ∧
    (r.1 = MOD_RES_DENY →
      o.events = written ++ [Event.OnUserPreMessage user.uid d0,
        Event.OnUserMessageBlocked user.uid r.2]) ∧
    (r.1 = MOD_RES_DENY ∨ r.2.text = [] →
      o.result = CMD_FAILURE ∧ o.idle_lastmsg = idle ∧
      ∀ e ∈ o.events, e.isDelivery = false ∧
        (∀ d, e ≠ Event.OnUserMessage user.uid d) ∧
        (∀ d, e ≠ Event.OnUserPostMessage user.uid d)) := by
  intro r o
  have ho : o = HandleTarget srv msgtype user parameters idle :=
    Handle_single srv msgtype user parameters idle hsingle
  rw [HandleTarget_reaches srv msgtype user parameters idle t d0 written hreach] at ho
  have hw := ReachesPre_written srv msgtype user parameters t d0 written hreach
  have hdeny : r.1 = MOD_RES_DENY → o = Outcome.mk CMD_FAILURE (written ++
      [Event.OnUserPreMessage user.uid d0, Event.OnUserMessageBlocked user.uid r.2]) idle := by
    intro h
    rw [ho, FirePreEvents_deny srv user t d0 h]
    rfl
  have hzap : r.1 ≠ MOD_RES_DENY → r.2.text = [] → o = Outcome.mk CMD_FAILURE
      (written ++ [Event.OnUserPreMessage user.uid d0,
        Event.WriteNumeric user.uid ERR_NOTEXTTOSEND ["No text to send".toList]]) idle := by
    intro h hz
    rw [ho, FirePreEvents_zapped srv user t d0 h hz]
    rfl
  refine ⟨fun h hz => by rw [hzap h hz], fun h => by rw [hdeny h], ?_⟩
  intro h
  by_cases hd : r.1 = MOD_RES_DENY
  · rw [hdeny hd]
    refine ⟨rfl, rfl, ?_⟩
    intro e he
    simp only [List.mem_append, List.mem_cons, List.mem_singleton, List.not_mem_nil,
      or_false] at he
    rcases he with he | he | he
    · have := hw e he
      cases e <;> simp_all [Event.isNumeric, Event.isDelivery]
    · subst he; simp [Event.isDelivery]
    · subst he; simp [Event.isDelivery]
  · have hz : r.2.text = [] := h.resolve_left hd
    rw [hzap hd hz]
    refine ⟨rfl, rfl, ?_⟩
    intro e he
    simp only [List.mem_append, List.mem_cons, List.mem_singleton, List.not_mem_nil,
      or_false] at he
    rcases he with he | he | he
    · have := hw e he
      cases e <;> simp_all [Event.isNumeric, Event.isDelivery]
    · subst he; simp [Event.isDelivery]
    · subst he; simp [Event.isDelivery]

/-- Claim C5, witness. With the module `zap` registered, `PRIVMSG bob :hello` from `alice`
to the away `bob` ends after the away numeric and the pre-message hook with
`ERR_NOTEXTTOSEND`. -/
theorem C5_filter_zap_witness :
    (Handle (Scenario.server [Scenario.zap] (Scenario.room [])) MSG_PRIVMSG Scenario.alice
      ⟨"bob".toList, "hello".toList, []⟩ Scenario.idle0).events
      = [Event.WriteNumeric 1 RPL_AWAY ["bob".toList, "gone fishing".toList],
         Event.OnUserPreMessage 1
          { type := MSG_PRIVMSG, text := "hello".toList, tags_in := [], tags_out := [],
            exemptions := [] },
         Event.WriteNumeric 1 ERR_NOTEXTTOSEND ["No text to send".toList]] :=
  (C5_filter_zap (Scenario.server [Scenario.zap] (Scenario.room [])) MSG_PRIVMSG Scenario.alice
    ⟨"bob".toList, "hello".toList, []⟩ Scenario.idle0 (MessageTarget.TYPE_USER Scenario.bob)
    (MessageDetailsImpl.new MSG_PRIVMSG "hello".toList []) _ (by decide)
    (ReachesPre.user Scenario.bob (by decide) (by decide) rfl rfl (by decide))).1
    (by decide) (by decide)


/-- Every dispatch of one target is the silent return of a mass message without the
privilege, or reaches the pre-message pass, or is rejected before it with
numerics only. -/
theorem HandleTarget_cases (srv : InspIRCd) (msgtype : MessageType) (user : User)
    (parameters : Params) (idle : UserId → Nat) :
    (parameters.p0[0]? = some '$' ∧ user.HasPrivPermission "users/mass-message".toList = false ∧
      HandleTarget srv msgtype user parameters idle = Outcome.mk CMD_SUCCESS [] idle) ∨
    (∃ t d0 written, ReachesPre srv msgtype user parameters t d0 written) ∨
    (∃ numerics, HandleTarget srv msgtype user parameters idle
        = Outcome.mk CMD_FAILURE numerics idle ∧
      ∀ e ∈ numerics, e.isNumeric = true) := by
  by_cases hmask : parameters.p0[0]? = some '$'
  · cases hpriv : user.HasPrivPermission "users/mass-message".toList
    · left
      refine ⟨hmask, rfl, ?_⟩
      unfold HandleTarget
      simp only [hmask, if_true, hpriv, Bool.not_false]
    · right; left
      exact ⟨_, _, _, ReachesPre.server_mask hmask hpriv⟩
  · right
    by_cases hhash : deref (StripStatus srv parameters.p0).2 = '#'
    · cases hfind : srv.FindChan (StripStatus srv parameters.p0).2 with
      | none =>
        right
        refine ⟨[Numerics.NoSuchChannel user parameters.p0], ?_, ?_⟩
        · unfold HandleTarget
          simp only [hmask, if_false, hhash, if_true, hfind]
        · simp [Numerics.NoSuchChannel, Event.isNumeric]
      | some chan =>
        cases hgate : ChannelGate srv user chan with
        | none =>
          left
          exact ⟨_, _, _, ReachesPre.channel chan hmask hhash hfind hgate⟩
        | some numerics =>
          right
          refine ⟨numerics, ?_, ?_⟩
          · rw [HandleTarget_channel srv msgtype user parameters idle chan hmask hhash hfind,
              hgate]
          · exact ChannelGate_some_numeric srv user chan numerics hgate
    · cases hdest : FindDest srv user parameters.p0 with
      | none =>
        right
        refine ⟨[Numerics.NoSuchNick user parameters.p0], ?_, ?_⟩
        · unfold HandleTarget
          simp only [hmask, if_false, hhash, hdest]
        · simp [Numerics.NoSuchNick, Event.isNumeric]
      | some found =>
        cases found with
        | none =>
          right
          refine ⟨[Numerics.NoSuchNick user parameters.p0], ?_, ?_⟩
          · unfold HandleTarget
            simp only [hmask, if_false, hhash, hdest]
          · simp [Numerics.NoSuchNick, Event.isNumeric]
        | some dest =>
          by_cases hreg : dest.registered = srv.REG_ALL
          · cases hbody : parameters.p1 with
            | nil =>
              right
              refine ⟨[Event.WriteNumeric user.uid ERR_NOTEXTTOSEND ["No text to send".toList]],
                ?_, ?_⟩
              · unfold HandleTarget
                simp only [hmask, if_false, hhash, hdest, hreg, if_true, hbody, List.isEmpty_nil]
              · simp [Event.isNumeric]
            | cons a l =>
              left
              exact ⟨_, _, _, ReachesPre.user dest hmask hhash hdest hreg (by simp [hbody])⟩
          · right
            refine ⟨[Numerics.NoSuchNick user parameters.p0], ?_, ?_⟩
            · unfold HandleTarget
              simp only [hmask, if_false, hhash, hdest, hreg]
            · simp [Numerics.NoSuchNick, Event.isNumeric]


/-- The pre-message pass leaves the constant members `type` and `tags_in` alone. -/
theorem FirstModResult_type (mods : List Module) (source : User) (t : MessageTarget)
    (d : MessageDetails) :
    (FirstModResult_OnUserPreMessage mods source t d).2.type = d.type := by
  induction mods generalizing d with
  | nil => rfl
  | cons m rest ih =>
    unfold FirstModResult_OnUserPreMessage
    simp only []
    split
    · rfl
    · rw [ih]

/-- The details handed to the pre-message pass carry the type of the command. -/
theorem ReachesPre_type (srv : InspIRCd) (msgtype : MessageType) (user : User)
    (parameters : Params) (t : MessageTarget) (d0 : MessageDetails) (written : List Event)
    (h : ReachesPre srv msgtype user parameters t d0 written) : d0.type = msgtype := by
  cases h <;> rfl

/-- The details the pre-message pass returns are those the module chain left. -/
theorem FirePreEvents_details (srv : InspIRCd) (source : User) (t : MessageTarget)
    (d : MessageDetails) :
    (FirePreEvents srv source t d).2.1 = (FirstModResult_OnUserPreMessage srv.modules source t d).2 := by
  unfold FirePreEvents
  simp only []
  split
  · rfl
  · split <;> rfl

/-- The dispatch of one target by a sender that is not local changes no idle time. -/
theorem HandleTarget_remote_idle (srv : InspIRCd) (msgtype : MessageType) (user : User)
    (parameters : Params) (idle : UserId → Nat) (hremote : user.is_local = false) :
    (HandleTarget srv msgtype user parameters idle).idle_lastmsg = idle := by
  rcases HandleTarget_cases srv msgtype user parameters idle with h | h | h
  · rw [h.2.2]
  · obtain ⟨t, d0, written, hr⟩ := h
    rw [HandleTarget_reaches srv msgtype user parameters idle t d0 written hr]
    split
    · rfl
    · simp [FirePostEvent, hremote]
  · obtain ⟨numerics, hn, -⟩ := h
    rw [hn]

/-- A dispatch, of one target or of several, by a sender that is not local changes no
idle time. -/
theorem Handle_remote_idle (srv : InspIRCd) (msgtype : MessageType) (user : User)
    (parameters : Params) (idle : UserId → Nat) (hremote : user.is_local = false) :
    (Handle srv msgtype user parameters idle).idle_lastmsg = idle := by
  unfold Handle LoopCall
  split
  · rename_i done hdone
    split at hdone
    · simp only [Option.some.injEq] at hdone
      subst hdone
      simp only []
      have key : ∀ (items : List Str) (acc : List Event × (UserId → Nat)), acc.2 = idle →
          (items.foldl (fun acc item =>
            ((acc.1 ++ (HandleTarget srv msgtype user { parameters with p0 := item } acc.2).events,
              (HandleTarget srv msgtype user { parameters with p0 := item }
                acc.2).idle_lastmsg) : List Event × (UserId → Nat))) acc).2 = idle := by
        intro items
        induction items with
        | nil => intro acc h; exact h
        | cons item rest ih =>
          intro acc h
          rw [List.foldl_cons]
          apply ih
          simp only []
          rw [h]
          exact HandleTarget_remote_idle srv msgtype user _ idle hremote
      exact key _ _ rfl
    · exact absurd hdone (by simp)
  · exact HandleTarget_remote_idle srv msgtype user parameters idle hremote


/-- Claim C6, counterexample. The local `alice`, who lacks `users/mass-message`, sends
`PRIVMSG $* :hi` at time 1000: the dispatch returns success, it is no NOTICE, and
her `idle_lastmsg` is still 5. -/
theorem C6_idle_time_counterexample :
    Scenario.alice.is_local = true ∧
    (Scenario.server [] (Scenario.room [])).Time = 1000 ∧
    (Handle (Scenario.server [] (Scenario.room [])) MSG_PRIVMSG Scenario.alice
      ⟨"$*".toList, "hi".toList, []⟩ Scenario.idle0).result = CMD_SUCCESS ∧
    (Handle (Scenario.server [] (Scenario.room [])) MSG_PRIVMSG Scenario.alice
      ⟨"$*".toList, "hi".toList, []⟩ Scenario.idle0).idle_lastmsg Scenario.alice.uid = 5 := by
  decide

/-- Claim C6, amended. Idle-time update. A one-target dispatch that returns success is
either the silent return of a mass message from a sender without the privilege or
has gone through the pre-message pass. In the second case, for a local sender,
the sender's `idle_lastmsg` is the server time afterwards and no other idle time
changes, unless the command is NOTICE and the text the modules left is a CTCP,
in which case every idle time is as before. For a sender that is not local no
idle time changes. -/
theorem C6_idle_time (srv : InspIRCd) (msgtype : MessageType) (user : User)
    (parameters : Params) (idle : UserId → Nat) (hsingle : ',' ∉ parameters.p0) :
    let o := Handle srv msgtype user parameters idle
    (∀ t d0 written, ReachesPre srv msgtype user parameters t d0 written →
      user.is_local = true → o.result = CMD_SUCCESS →
      o.idle_lastmsg =
        if msgtype = MSG_NOTICE ∧
          IsCTCP (FirstModResult_OnUserPreMessage srv.modules user t d0).2.text = true
        then idle else Function.update idle user.uid srv.Time) ∧
    (o.result = CMD_SUCCESS →
      (parameters.p0[0]? = some '$' ∧
        user.HasPrivPermission "users/mass-message".toList = false) ∨
      ∃ t d0 written, ReachesPre srv msgtype user parameters t d0 written) ∧
    (user.is_local = false → o.idle_lastmsg = idle) := by
  intro o
  have ho : o = HandleTarget srv msgtype user parameters idle :=
    Handle_single srv msgtype user parameters idle hsingle
  refine ⟨?_, ?_, ?_⟩
  · intro t d0 written hr hlocal hres
    have hty : (FirstModResult_OnUserPreMessage srv.modules user t d0).2.type = msgtype := by
      rw [FirstModResult_type, ReachesPre_type srv msgtype user parameters t d0 written hr]
    rw [ho, HandleTarget_reaches srv msgtype user parameters idle t d0 written hr] at hres
    rw [ho, HandleTarget_reaches srv msgtype user parameters idle t d0 written hr]
    split at hres
    · exact absurd hres (by simp)
    · rename_i hpre
      rw [if_neg hpre]
      simp only [FirePostEvent, FirePreEvents_details, hlocal, hty, Bool.true_and]
      cases msgtype <;>
        cases IsCTCP (FirstModResult_OnUserPreMessage srv.modules user t d0).2.text <;> simp
  · intro hres
    rcases HandleTarget_cases srv msgtype user parameters idle with h | h | h
    · exact Or.inl ⟨h.1, h.2.1⟩
    · exact Or.inr h
    · obtain ⟨numerics, hn, -⟩ := h
      rw [ho, hn] at hres
      exact absurd hres (by simp)
  · intro hremote
    exact Handle_remote_idle srv msgtype user parameters idle hremote

/-- Claim C6, witness. Scenario S3: `NOTICE bob :SOH VERSION SOH` from `alice` leaves her
`idle_lastmsg` at 5, and the same body sent as PRIVMSG sets it to the server time
1000. -/
theorem C6_idle_time_witness :
    (Handle (Scenario.server [] (Scenario.room [])) MSG_NOTICE Scenario.alice
      ⟨"bob".toList, "\x01VERSION\x01".toList, []⟩ Scenario.idle0).idle_lastmsg 1 = 5 ∧
    (Handle (Scenario.server [] (Scenario.room [])) MSG_PRIVMSG Scenario.alice
      ⟨"bob".toList, "\x01VERSION\x01".toList, []⟩ Scenario.idle0).idle_lastmsg 1 = 1000 :=
  ⟨(congrFun ((C6_idle_time (Scenario.server [] (Scenario.room [])) MSG_NOTICE Scenario.alice
      ⟨"bob".toList, "\x01VERSION\x01".toList, []⟩ Scenario.idle0 (by decide)).1
      (MessageTarget.TYPE_USER Scenario.bob)
      (MessageDetailsImpl.new MSG_NOTICE "\x01VERSION\x01".toList []) _
      (ReachesPre.user Scenario.bob (by decide) (by decide) rfl rfl (by decide))
      rfl (by decide)) 1).trans (by decide),
    (congrFun ((C6_idle_time (Scenario.server [] (Scenario.room [])) MSG_PRIVMSG Scenario.alice
      ⟨"bob".toList, "\x01VERSION\x01".toList, []⟩ Scenario.idle0 (by decide)).1
      (MessageTarget.TYPE_USER Scenario.bob)
      (MessageDetailsImpl.new MSG_PRIVMSG "\x01VERSION\x01".toList []) _
      (ReachesPre.user Scenario.bob (by decide) (by decide) rfl rfl (by decide))
      rfl (by decide)) 1).trans (by decide)⟩


/-- The dispatch to a fully registered user with an empty body ends with
`ERR_NOTEXTTOSEND` before anything else happens. -/
theorem HandleTarget_user_empty (srv : InspIRCd) (msgtype : MessageType) (user : User)
    (parameters : Params) (idle : UserId → Nat) (dest : User)
    (hmask : parameters.p0[0]? ≠ some '$')
    (hhash : deref (StripStatus srv parameters.p0).2 ≠ '#')
    (hfind : FindDest srv user parameters.p0 = some (some dest))
    (hreg : dest.registered = srv.REG_ALL) (hbody : parameters.p1 = []) :
    HandleTarget srv msgtype user parameters idle =
      Outcome.mk CMD_FAILURE
        [Event.WriteNumeric user.uid ERR_NOTEXTTOSEND ["No text to send".toList]] idle := by
  unfold HandleTarget
  simp only [hmask, if_false, hhash, hfind, hreg, if_true, hbody, List.isEmpty_nil]

/-- The pre-message pass fires two events: the pre-message hook, and then the
message-blocked hook, `ERR_NOTEXTTOSEND`, or the message hook. -/
theorem FirePreEvents_events (srv : InspIRCd) (source : User) (t : MessageTarget)
    (d : MessageDetails) :
    ∃ e, (FirePreEvents srv source t d).2.2 = [Event.OnUserPreMessage source.uid d, e] ∧
      e.isNumericOf RPL_AWAY = false ∧ e.isDelivery = false := by
  unfold FirePreEvents
  simp only []
  split
  · exact ⟨_, rfl, rfl, rfl⟩
  · split
    · exact ⟨_, rfl, rfl, rfl⟩
    · exact ⟨_, rfl, rfl, rfl⟩

/-- No delivery writes a numeric. -/
theorem FanOut_not_numeric (srv : InspIRCd) (msgtype : MessageType) (user : User)
    (d : MessageDetails) (t : MessageTarget) (code : NumericCode) :
    ∀ e ∈ FanOut srv msgtype user d t, e.isNumericOf code = false := by
  intro e he
  cases t with
  | TYPE_USER dest =>
    simp only [FanOut] at he
    split at he
    · simp only [List.mem_singleton] at he; subst he; rfl
    · simp at he
  | TYPE_CHANNEL chan status =>
    simp only [FanOut, List.mem_singleton] at he
    subst he; rfl
  | TYPE_SERVER servername =>
    simp only [FanOut] at he
    split at he
    · simp only [SendAll, List.mem_map] at he
      obtain ⟨u, -, rfl⟩ := he
      rfl
    · simp at he


/-- The events of a dispatch that reaches the pre-message pass: what was written
before, the pre-message hook, and a tail without an away numeric. -/
theorem HandleTarget_reaches_events (srv : InspIRCd) (msgtype : MessageType) (user : User)
    (parameters : Params) (idle : UserId → Nat) (t : MessageTarget) (d0 : MessageDetails)
    (written : List Event) (h : ReachesPre srv msgtype user parameters t d0 written) :
    ∃ tail, (HandleTarget srv msgtype user parameters idle).events =
        written ++ Event.OnUserPreMessage user.uid d0 :: tail ∧
      ∀ e ∈ tail, e.isNumericOf RPL_AWAY = false := by
  rw [HandleTarget_reaches srv msgtype user parameters idle t d0 written h]
  obtain ⟨e1, he1, hna, -⟩ := FirePreEvents_events srv user t d0
  split
  · refine ⟨[e1], by simp [he1], ?_⟩
    intro e he
    simp only [List.mem_singleton] at he
    subst he; exact hna
  · refine ⟨e1 :: (FanOut srv msgtype user (FirePreEvents srv user t d0).2.1 t ++
      (FirePostEvent srv user (FirePreEvents srv user t d0).2.1 idle).events),
      by simp [he1], ?_⟩
    intro e he
    simp only [List.mem_cons, List.mem_append] at he
    rcases he with he | he | he
    · subst he; exact hna
    · exact FanOut_not_numeric srv msgtype user _ t RPL_AWAY e he
    · simp only [FirePostEvent, List.mem_singleton] at he
      subst he; rfl

/-- Claim C7, counterexample. `PRIVMSG bob :` with an empty body from `alice` to `bob`, who
is found, fully registered and away: the command is PRIVMSG and the target is
away, yet the only action is `ERR_NOTEXTTOSEND` and no `RPL_AWAY` is written. -/
theorem C7_away_notice_counterexample :
    FindDest (Scenario.server [] (Scenario.room [])) Scenario.alice "bob".toList
      = some (some Scenario.bob) ∧
    Scenario.bob.registered = (Scenario.server [] (Scenario.room [])).REG_ALL ∧
    Scenario.bob.away = true ∧
    (Handle (Scenario.server [] (Scenario.room [])) MSG_PRIVMSG Scenario.alice
      ⟨"bob".toList, [], []⟩ Scenario.idle0).events
      = [Event.WriteNumeric 1 ERR_NOTEXTTOSEND ["No text to send".toList]] ∧
    ∀ e ∈ (Handle (Scenario.server [] (Scenario.room [])) MSG_PRIVMSG Scenario.alice
      ⟨"bob".toList, [], []⟩ Scenario.idle0).events, e.isNumericOf RPL_AWAY = false :=
  ⟨rfl, rfl, rfl, by decide, by decide⟩

/-- Claim C7, amended. Away-notice gating. For a dispatch to a user target, the sender is
written `RPL_AWAY` exactly when the command is PRIVMSG, the target found is away,
and the body is not empty. It then carries the target's nick and away reason, is
written once, and comes before the pre-message hook, so it is written even when a
module denies the message afterwards. A NOTICE never produces `RPL_AWAY`. -/
theorem C7_away_notice (srv : InspIRCd) (msgtype : MessageType) (user : User)
    (parameters : Params) (idle : UserId → Nat) (dest : User)
    (hsingle : ',' ∉ parameters.p0)
    (hmask : parameters.p0[0]? ≠ some '$')
    (hhash : deref (StripStatus srv parameters.p0).2 ≠ '#')
    (hfind : FindDest srv user parameters.p0 = some (some dest))
    (hreg : dest.registered = srv.REG_ALL) :
    let o := Handle srv msgtype user parameters idle
    ((∃ e ∈ o.events, e.isNumericOf RPL_AWAY = true) ↔
      (msgtype = MSG_PRIVMSG ∧ dest.away = true ∧ parameters.p1 ≠ [])) ∧
    (msgtype = MSG_PRIVMSG → dest.away = true → parameters.p1 ≠ [] →
      ∃ rest, o.events =
          Event.WriteNumeric user.uid RPL_AWAY [dest.nick, dest.awaymsg] ::
            Event.OnUserPreMessage user.uid
              (MessageDetailsImpl.new msgtype parameters.p1 parameters.tags) :: rest ∧
        ∀ e ∈ rest, e.isNumericOf RPL_AWAY = false) ∧
    (msgtype = MSG_NOTICE → ∀ e ∈ o.events, e.isNumericOf RPL_AWAY = false) := by
  intro o
  have ho : o = HandleTarget srv msgtype user parameters idle :=
    Handle_single srv msgtype user parameters idle hsingle
  by_cases hbody : parameters.p1 = []
  · rw [HandleTarget_user_empty srv msgtype user parameters idle dest hmask hhash hfind hreg
      hbody] at ho
    refine ⟨⟨?_, ?_⟩, ?_, ?_⟩
    · rintro ⟨e, he, hea⟩
      rw [ho] at he
      simp only [List.mem_singleton] at he
      subst he
      simp [Event.isNumericOf] at hea
    · rintro ⟨-, -, h⟩
      exact absurd hbody h
    · intro _ _ h
      exact absurd hbody h
    · intro _ e he
      rw [ho] at he
      simp only [List.mem_singleton] at he
      subst he
      rfl
  · have hr : ReachesPre srv msgtype user parameters _ _ _ :=
      ReachesPre.user dest hmask hhash hfind hreg hbody
    obtain ⟨tail, htail, hna⟩ := HandleTarget_reaches_events srv msgtype user parameters idle _ _ _ hr
    rw [← ho] at htail
    by_cases haway : dest.away = true ∧ msgtype = MSG_PRIVMSG
    · rw [if_pos haway] at htail
      refine ⟨⟨fun _ => ⟨haway.2, haway.1, hbody⟩, ?_⟩, ?_, ?_⟩
      · intro _
        refine ⟨Event.WriteNumeric user.uid RPL_AWAY [dest.nick, dest.awaymsg], ?_, ?_⟩
        · rw [htail]; simp
        · simp [Event.isNumericOf]
      · intro _ _ _
        exact ⟨tail, by rw [htail]; rfl, hna⟩
      · intro hn
        rw [haway.2] at hn
        exact absurd hn (by decide)
    · rw [if_neg haway] at htail
      have hnone : ∀ e ∈ o.events, e.isNumericOf RPL_AWAY = false := by
        intro e he
        rw [htail] at he
        simp only [List.nil_append, List.mem_cons] at he
        rcases he with he | he
        · subst he; rfl
        · exact hna e he
      refine ⟨⟨?_, ?_⟩, ?_, ?_⟩
      · rintro ⟨e, he, hea⟩
        rw [hnone e he] at hea
        exact absurd hea (by simp)
      · rintro ⟨h1, h2, -⟩
        exact absurd ⟨h2, h1⟩ haway
      · intro h1 h2 _
        exact absurd ⟨h2, h1⟩ haway
      · intro _
        exact hnone

/-- Claim C7, witness. With the module `denyAll` registered, `PRIVMSG bob :hello` from
`alice` to the away `bob` writes `RPL_AWAY` with his nick and reason before the
pre-message hook fires, although the message is then denied. -/
theorem C7_away_notice_witness :
    ∃ rest, (Handle (Scenario.server [Scenario.denyAll] (Scenario.room [])) MSG_PRIVMSG
        Scenario.alice ⟨"bob".toList, "hello".toList, []⟩ Scenario.idle0).events =
      Event.WriteNumeric 1 RPL_AWAY ["bob".toList, "gone fishing".toList] ::
        Event.OnUserPreMessage 1 (MessageDetailsImpl.new MSG_PRIVMSG "hello".toList []) :: rest ∧
      ∀ e ∈ rest, e.isNumericOf RPL_AWAY = false :=
  (C7_away_notice (Scenario.server [Scenario.denyAll] (Scenario.room [])) MSG_PRIVMSG
    Scenario.alice ⟨"bob".toList, "hello".toList, []⟩ Scenario.idle0 Scenario.bob
    (by decide) (by decide) (by decide) rfl rfl).2.1 rfl rfl (by decide)


/-- Claim C8, counterexample. For the sender `carol`, who is not local, and the server
mask `$*` the routing is the route-to-target directive addressed to `$*`, not the
broadcast directive. -/
theorem C8_GetRouting_counterexample :
    Scenario.carol.is_local = false ∧
    GetRouting Scenario.carol ⟨"$*".toList, "hi".toList, []⟩
      = RouteDescriptor.ROUTE_MESSAGE "$*".toList ∧
    GetRouting Scenario.carol ⟨"$*".toList, "hi".toList, []⟩ ≠ RouteDescriptor.ROUTE_BROADCAST := by
  decide

/-- Claim C8, amended. Routing classification. `GetRouting` is local-only for a local
sender, and for any other sender it is route-to-target addressed to the first
parameter whatever the kind of target, a server mask included; it is never the
broadcast directive. -/
theorem C8_GetRouting (user : User) (parameters : Params) :
    (user.is_local = true → GetRouting user parameters = RouteDescriptor.ROUTE_LOCALONLY) ∧
    (user.is_local = false →
      GetRouting user parameters = RouteDescriptor.ROUTE_MESSAGE parameters.p0) ∧
    GetRouting user parameters ≠ RouteDescriptor.ROUTE_BROADCAST := by
  unfold GetRouting
  cases user.is_local <;> simp

/-- Claim C8, witness. The routing for the local `alice` and for the remote `carol`, both
addressing `#room`. -/
theorem C8_GetRouting_witness :
    GetRouting Scenario.alice ⟨"#room".toList, "hi".toList, []⟩
      = RouteDescriptor.ROUTE_LOCALONLY ∧
    GetRouting Scenario.carol ⟨"#room".toList, "hi".toList, []⟩
      = RouteDescriptor.ROUTE_MESSAGE "#room".toList :=
  ⟨(C8_GetRouting Scenario.alice ⟨"#room".toList, "hi".toList, []⟩).1 rfl,
    (C8_GetRouting Scenario.carol ⟨"#room".toList, "hi".toList, []⟩).2.1 rfl⟩

/-- A chain of modules none of which removes the user `u` from the exemptions does
not remove it either. -/
theorem FirstModResult_keeps (mods : List Module) (source : User) (t : MessageTarget)
    (u : UserId)
    (hkeep : ∀ m ∈ mods, ∀ d : MessageDetails, u ∈ d.exemptions →
      u ∈ (m.OnUserPreMessage source t d).2.exemptions)
    (d : MessageDetails) (hu : u ∈ d.exemptions) :
    u ∈ (FirstModResult_OnUserPreMessage mods source t d).2.exemptions := by
  induction mods generalizing d with
  | nil => exact hu
  | cons m rest ih =>
    unfold FirstModResult_OnUserPreMessage
    simp only []
    have h1 := hkeep m (List.mem_cons_self _ _) d hu
    split
    · exact h1
    · exact ih (fun m1 hm1 => hkeep m1 (List.mem_cons_of_mem _ hm1)) _ h1

/-- Claim C9, counterexample. With the module `unexempt` registered, whose pre-message hook
clears the exemptions, `PRIVMSG #room :hello` from `alice` is written to the
channel with an empty exemption set: the sender is not in it. -/
theorem C9_echo_suppression_counterexample :
    (Handle (Scenario.server [Scenario.unexempt] (Scenario.room [])) MSG_PRIVMSG Scenario.alice
      ⟨"#room".toList, "hello".toList, []⟩ Scenario.idle0).events
      = [Event.OnUserPreMessage 1
          { type := MSG_PRIVMSG, text := "hello".toList, tags_in := [], tags_out := [],
            exemptions := [1] },
         Event.OnUserMessage 1
          { type := MSG_PRIVMSG, text := "hello".toList, tags_in := [], tags_out := [],
            exemptions := [] },
         Event.ChannelWrite "#room".toList
          { source := 1, target := "#room".toList, text := "hello".toList, type := MSG_PRIVMSG,
            status := NUL, tags := [] } NUL [],
         Event.OnUserPostMessage 1
          { type := MSG_PRIVMSG, text := "hello".toList, tags_in := [], tags_out := [],
            exemptions := [] }] ∧
    Scenario.alice.uid ∉ ([] : CUList) := by
  decide


/-- The pre-message pass delivers nothing. -/
theorem FirePreEvents_no_delivery (srv : InspIRCd) (source : User) (t : MessageTarget)
    (d : MessageDetails) : ∀ e ∈ (FirePreEvents srv source t d).2.2, e.isDelivery = false := by
  obtain ⟨e1, he1, -, hnd⟩ := FirePreEvents_events srv source t d
  intro e he
  rw [he1] at he
  simp only [List.mem_cons, List.mem_singleton, List.not_mem_nil, or_false] at he
  rcases he with he | he
  · subst he; rfl
  · subst he; exact hnd

/-- In a dispatch that reaches the pre-message pass every delivery belongs to the
fan-out that follows a successful pass. -/
theorem HandleTarget_reaches_delivery (srv : InspIRCd) (msgtype : MessageType) (user : User)
    (parameters : Params) (idle : UserId → Nat) (t : MessageTarget) (d0 : MessageDetails)
    (written : List Event) (h : ReachesPre srv msgtype user parameters t d0 written) :
    ∀ e ∈ (HandleTarget srv msgtype user parameters idle).events, e.isDelivery = true →
      (FirePreEvents srv user t d0).1 = true ∧
        e ∈ FanOut srv msgtype user (FirePreEvents srv user t d0).2.1 t := by
  intro e he hd
  have hw := ReachesPre_written srv msgtype user parameters t d0 written h
  have hp := FirePreEvents_no_delivery srv user t d0
  rw [HandleTarget_reaches srv msgtype user parameters idle t d0 written h] at he
  split at he
  · rcases List.mem_append.mp he with he | he
    · rw [(Event.numeric_not_hook e (hw e he)).2] at hd
      exact absurd hd (by simp)
    · rw [hp e he] at hd
      exact absurd hd (by simp)
  · rename_i hpre
    refine ⟨by simpa using hpre, ?_⟩
    rcases List.mem_append.mp he with he | he
    · rcases List.mem_append.mp he with he | he
      · rcases List.mem_append.mp he with he | he
        · rw [(Event.numeric_not_hook e (hw e he)).2] at hd
          exact absurd hd (by simp)
        · rw [hp e he] at hd
          exact absurd hd (by simp)
      · exact he
    · simp only [FirePostEvent, List.mem_singleton] at he
      subst he
      exact absurd hd (by simp [Event.isDelivery])

/-- Claim C9, amended. Echo suppression. For a dispatch to a channel target whose
registered modules do not remove the sender from the exemptions in their
pre-message hooks, the sender is a member of the exemption set of every write to
the channel; hence a fan-out primitive that skips every exempt user does not
deliver the message to its sender. Such a write does take place whenever the
permission checks and the pre-message pass let the message through. -/
theorem C9_echo_suppression (srv : InspIRCd) (msgtype : MessageType) (user : User)
    (parameters : Params) (idle : UserId → Nat) (chan : Channel)
    (hsingle : ',' ∉ parameters.p0)
    (hmask : parameters.p0[0]? ≠ some '$')
    (hhash : deref (StripStatus srv parameters.p0).2 = '#')
    (hfind : srv.FindChan (StripStatus srv parameters.p0).2 = some chan)
    (hkeep : ∀ m ∈ srv.modules, ∀ d : MessageDetails, user.uid ∈ d.exemptions →
      user.uid ∈ (m.OnUserPreMessage user
        (MessageTarget.TYPE_CHANNEL chan (StripStatus srv parameters.p0).1) d).2.exemptions) :
    let o := Handle srv msgtype user parameters idle
    (∀ name msg status exemptions,
      Event.ChannelWrite name msg status exemptions ∈ o.events → user.uid ∈ exemptions) ∧
    (∀ recipients : Str → Privmsg → Char → CUList → List UserId,
      (∀ name msg status exemptions u, u ∈ exemptions →
        u ∉ recipients name msg status exemptions) →
      ∀ name msg status exemptions,
        Event.ChannelWrite name msg status exemptions ∈ o.events →
          user.uid ∉ recipients name msg status exemptions) ∧
    (ChannelGate srv user chan = none →
      (FirePreEvents srv user
        (MessageTarget.TYPE_CHANNEL chan (StripStatus srv parameters.p0).1)
        { MessageDetailsImpl.new msgtype parameters.p1 parameters.tags with
          exemptions := [user.uid] }).1 = true →
      ∃ msg exemptions, Event.ChannelWrite chan.name msg (StripStatus srv parameters.p0).1
        exemptions ∈ o.events) := by
  intro o
  have ho : o = HandleTarget srv msgtype user parameters idle :=
    Handle_single srv msgtype user parameters idle hsingle
  have hmem : ∀ name msg status exemptions,
      Event.ChannelWrite name msg status exemptions ∈ o.events → user.uid ∈ exemptions := by
    intro name msg status exemptions he
    rw [ho] at he
    cases hgate : ChannelGate srv user chan with
    | some numerics =>
      rw [HandleTarget_channel srv msgtype user parameters idle chan hmask hhash hfind,
        hgate] at he
      have := ChannelGate_some_numeric srv user chan numerics hgate _ he
      simp [Event.isNumeric] at this
    | none =>
      have hr : ReachesPre srv msgtype user parameters _ _ _ :=
        ReachesPre.channel chan hmask hhash hfind hgate
      have hfan := (HandleTarget_reaches_delivery srv msgtype user parameters idle _ _ _ hr
        _ he rfl).2
      simp only [FanOut, List.mem_singleton, Event.ChannelWrite.injEq] at hfan
      rw [hfan.2.2.2, FirePreEvents_details]
      exact FirstModResult_keeps srv.modules user _ user.uid hkeep _ (List.mem_singleton.mpr rfl)
  refine ⟨hmem, ?_, ?_⟩
  · intro recipients hskip name msg status exemptions he
    exact hskip name msg status exemptions user.uid (hmem name msg status exemptions he)
  · intro hgate hpre
    have hr : ReachesPre srv msgtype user parameters _ _ _ :=
      ReachesPre.channel chan hmask hhash hfind hgate
    rw [ho, HandleTarget_reaches srv msgtype user parameters idle _ _ _ hr]
    rw [if_neg (by simp [hpre])]
    exact ⟨_, _, List.mem_append_left _ (List.mem_append_right _ (List.mem_singleton.mpr rfl))⟩

/-- Claim C9, witness. Without modules, `PRIVMSG #room :hello` from `alice` is written
to `#room`, and the exemption set of that write holds `alice`. -/
theorem C9_echo_suppression_witness :
    Event.ChannelWrite "#room".toList
        { source := 1, target := "#room".toList, text := "hello".toList, type := MSG_PRIVMSG,
          status := NUL, tags := [] } NUL [1] ∈
      (Handle (Scenario.server [] (Scenario.room [])) MSG_PRIVMSG Scenario.alice
        ⟨"#room".toList, "hello".toList, []⟩ Scenario.idle0).events ∧
    Scenario.alice.uid ∈ ([1] : CUList) :=
  ⟨by decide,
    (C9_echo_suppression (Scenario.server [] (Scenario.room [])) MSG_PRIVMSG Scenario.alice
      ⟨"#room".toList, "hello".toList, []⟩ Scenario.idle0 (Scenario.room [])
      (by decide) (by decide) (by decide) rfl
      (fun m hm => absurd hm (List.not_mem_nil m))).1 "#room".toList
      { source := 1, target := "#room".toList, text := "hello".toList, type := MSG_PRIVMSG,
        status := NUL, tags := [] } NUL [1] (by decide)⟩

/-- Claim C10. Mass-message permission failure is a silent no-op: for a sender without
the `users/mass-message` privilege and a single target that begins with `$`,
`Handle` returns success and takes no action at all (no numeric, no hook, no
send), and every idle time is as before. -/
theorem C10_mass_message_silent (srv : InspIRCd) (msgtype : MessageType) (user : User)
    (parameters : Params) (idle : UserId → Nat)
    (hsingle : ',' ∉ parameters.p0)
    (hmask : parameters.p0[0]? = some '$')
    (hpriv : user.HasPrivPermission "users/mass-message".toList = false) :
    (Handle srv msgtype user parameters idle).result = CMD_SUCCESS ∧
    (Handle srv msgtype user parameters idle).events = [] ∧
    (Handle srv msgtype user parameters idle).idle_lastmsg = idle := by
  have h : HandleTarget srv msgtype user parameters idle = Outcome.mk CMD_SUCCESS [] idle := by
    unfold HandleTarget
    simp only [hmask, if_true, hpriv, Bool.not_false]
  rw [Handle_single srv msgtype user parameters idle hsingle, h]
  exact ⟨rfl, rfl, rfl⟩

/-- Claim C10, witness. Scenario S4: `alice`, who lacks the privilege, sends
`PRIVMSG $*.example.org :hi`; the command succeeds, nothing happens, and her idle
time stays 5. -/
theorem C10_mass_message_silent_witness :
    (Handle (Scenario.server [] (Scenario.room [])) MSG_PRIVMSG Scenario.alice
      ⟨"$*.example.org".toList, "hi".toList, []⟩ Scenario.idle0).result = CMD_SUCCESS ∧
    (Handle (Scenario.server [] (Scenario.room [])) MSG_PRIVMSG Scenario.alice
      ⟨"$*.example.org".toList, "hi".toList, []⟩ Scenario.idle0).events = [] ∧
    (Handle (Scenario.server [] (Scenario.room [])) MSG_PRIVMSG Scenario.alice
      ⟨"$*.example.org".toList, "hi".toList, []⟩ Scenario.idle0).idle_lastmsg 1 = 5 :=
  have h := C10_mass_message_silent (Scenario.server [] (Scenario.room [])) MSG_PRIVMSG
    Scenario.alice ⟨"$*.example.org".toList, "hi".toList, []⟩ Scenario.idle0
    (by decide) (by decide) rfl
  ⟨h.1, h.2.1, (congrFun h.2.2 1).trans rfl⟩

/-- Claim C17. Empty body to a user is rejected before the filter chain: when the
target resolves to a fully registered user and the body is empty, `Handle`
writes `ERR_NOTEXTTOSEND` and nothing else, so no hook is invoked and nothing is
sent; it returns failure and the idle times stay as they were. -/
theorem C17_empty_body_user (srv : InspIRCd) (msgtype : MessageType) (user : User)
    (parameters : Params) (idle : UserId → Nat) (dest : User)
    (hsingle : ',' ∉ parameters.p0)
    (hmask : parameters.p0[0]? ≠ some '$')
    (hhash : deref (StripStatus srv parameters.p0).2 ≠ '#')
    (hfind : FindDest srv user parameters.p0 = some (some dest))
    (hreg : dest.registered = srv.REG_ALL) (hbody : parameters.p1 = []) :
    (Handle srv msgtype user parameters idle).events =
      [Event.WriteNumeric user.uid ERR_NOTEXTTOSEND ["No text to send".toList]] ∧
    (Handle srv msgtype user parameters idle).result = CMD_FAILURE ∧
    (Handle srv msgtype user parameters idle).idle_lastmsg = idle ∧
    ∀ e ∈ (Handle srv msgtype user parameters idle).events,
      e.isHook = false ∧ e.isDelivery = false := by
  rw [Handle_single srv msgtype user parameters idle hsingle,
    HandleTarget_user_empty srv msgtype user parameters idle dest hmask hhash hfind hreg hbody]
  refine ⟨rfl, rfl, rfl, ?_⟩
  intro e he
  simp only [List.mem_singleton] at he
  subst he
  exact ⟨rfl, rfl⟩

/-- Claim C17, witness. With the module `fill` registered, which would write a body,
`PRIVMSG bob :` with an empty body from `alice` still ends with `ERR_NOTEXTTOSEND`
alone: the module is never asked. -/
theorem C17_empty_body_user_witness :
    (Handle (Scenario.server [Scenario.fill] (Scenario.room [])) MSG_PRIVMSG Scenario.alice
      ⟨"bob".toList, [], []⟩ Scenario.idle0).events =
      [Event.WriteNumeric 1 ERR_NOTEXTTOSEND ["No text to send".toList]] :=
  (C17_empty_body_user (Scenario.server [Scenario.fill] (Scenario.room [])) MSG_PRIVMSG
    Scenario.alice ⟨"bob".toList, [], []⟩ Scenario.idle0 Scenario.bob
    (by decide) (by decide) (by decide) rfl rfl rfl).1

/-- The events and result of a dispatch whose pre-message pass lets the message
through: the hooks around the delivery, success, and the idle times of
`FirePostEvent`. -/
theorem HandleTarget_delivered (srv : InspIRCd) (msgtype : MessageType) (user : User)
    (parameters : Params) (idle : UserId → Nat) (t : MessageTarget) (d0 : MessageDetails)
    (written : List Event) (h : ReachesPre srv msgtype user parameters t d0 written)
    (hcont : (FirstModResult_OnUserPreMessage srv.modules user t d0).1 ≠ MOD_RES_DENY)
    (htext : (FirstModResult_OnUserPreMessage srv.modules user t d0).2.text ≠ []) :
    (HandleTarget srv msgtype user parameters idle).events =
      written ++
        [Event.OnUserPreMessage user.uid d0,
          Event.OnUserMessage user.uid (FirstModResult_OnUserPreMessage srv.modules user t d0).2] ++
        FanOut srv msgtype user (FirstModResult_OnUserPreMessage srv.modules user t d0).2 t ++
        [Event.OnUserPostMessage user.uid
          (FirstModResult_OnUserPreMessage srv.modules user t d0).2] ∧
    (HandleTarget srv msgtype user parameters idle).result = CMD_SUCCESS := by
  rw [HandleTarget_reaches srv msgtype user parameters idle t d0 written h,
    FirePreEvents_continue srv user t d0 hcont htext]
  exact ⟨rfl, rfl⟩

/-- The events of `SendAll`: one send of the `$*` message for each local user that
is fully registered and not exempt. -/
theorem mem_SendAll (srv : InspIRCd) (source : User) (details : MessageDetails) (e : Event) :
    e ∈ SendAll srv source details ↔
      ∃ u ∈ srv.GetLocalUsers, (u.registered = srv.REG_ALL ∧ u.uid ∉ details.exemptions) ∧
        e = Event.Send u.uid
          { source := source.uid, target := "$*".toList, text := details.text,
            type := details.type, status := NUL, tags := details.tags_out } := by
  unfold SendAll
  simp only [List.mem_map, List.mem_filter, Bool.and_eq_true, beq_iff_eq, Bool.not_eq_true']
  constructor
  · rintro ⟨u, ⟨hu, hreg, hex⟩, rfl⟩
    exact ⟨u, hu, ⟨hreg, by simpa using hex⟩, rfl⟩
  · rintro ⟨u, hu, ⟨hreg, hex⟩, rfl⟩
    exact ⟨u, ⟨hu, hreg, by simpa using hex⟩, rfl⟩

/-- Claim C12. Server-mask fan-out. For a sender holding `users/mass-message` and a
target `$mask` whose pre-message pass lets the message through: when the mask
matches the server name, the users sent the message are exactly the local users
that are fully registered and not in the exemptions the modules left, each with
source the sender, target `$*`, and the text and `tags_out` the modules left;
when it does not match nobody is sent anything. Either way the post-message hook
fires last and `Handle` returns success. -/
theorem C12_server_mask_fanout (srv : InspIRCd) (msgtype : MessageType) (user : User)
    (parameters : Params) (idle : UserId → Nat)
    (hsingle : ',' ∉ parameters.p0)
    (hmask : parameters.p0[0]? = some '$')
    (hpriv : user.HasPrivPermission "users/mass-message".toList = true)
    (hcont : (FirstModResult_OnUserPreMessage srv.modules user
      (MessageTarget.TYPE_SERVER (parameters.p0.drop 1))
      (MessageDetailsImpl.new msgtype parameters.p1 parameters.tags)).1 ≠ MOD_RES_DENY)
    (htext : (FirstModResult_OnUserPreMessage srv.modules user
      (MessageTarget.TYPE_SERVER (parameters.p0.drop 1))
      (MessageDetailsImpl.new msgtype parameters.p1 parameters.tags)).2.text ≠ []) :
    let d := (FirstModResult_OnUserPreMessage srv.modules user
      (MessageTarget.TYPE_SERVER (parameters.p0.drop 1))
      (MessageDetailsImpl.new msgtype parameters.p1 parameters.tags)).2
    let o := Handle srv msgtype user parameters idle
    (srv.Match srv.ServerName (parameters.p0.drop 1) = true →
      ∀ uid msg, Event.Send uid msg ∈ o.events ↔
        ((∃ u ∈ srv.GetLocalUsers, u.uid = uid ∧ u.registered = srv.REG_ALL ∧
            uid ∉ d.exemptions) ∧
          msg = { source := user.uid, target := "$*".toList, text := d.text, type := msgtype,
                  status := NUL, tags := d.tags_out })) ∧
    (srv.Match srv.ServerName (parameters.p0.drop 1) = false →
      ∀ e ∈ o.events, e.isDelivery = false) ∧
    (∀ e ∈ o.events, ∀ name msg status exemptions,
      e ≠ Event.ChannelWrite name msg status exemptions) ∧
    o.events.getLast? = some (Event.OnUserPostMessage user.uid d) ∧
    o.result = CMD_SUCCESS := by
  intro d o
  have hr : ReachesPre srv msgtype user parameters _ _ _ := ReachesPre.server_mask hmask hpriv
  have hd := HandleTarget_delivered srv msgtype user parameters idle _ _ _ hr hcont htext
  have ho : o = HandleTarget srv msgtype user parameters idle :=
    Handle_single srv msgtype user parameters idle hsingle
  rw [← ho] at hd
  have hty : d.type = msgtype := FirstModResult_type srv.modules user _ _
  have hev : ∀ e, e.isDelivery = true → (e ∈ o.events ↔
      e ∈ FanOut srv msgtype user d (MessageTarget.TYPE_SERVER (parameters.p0.drop 1))) := by
    intro e hdel
    rw [hd.1]
    simp only [List.nil_append, List.mem_append, List.mem_cons, List.mem_singleton,
      List.not_mem_nil, or_false]
    constructor
    · rintro (((he | he) | he) | he)
      · subst he; exact absurd hdel (by simp [Event.isDelivery])
      · subst he; exact absurd hdel (by simp [Event.isDelivery])
      · exact he
      · subst he; exact absurd hdel (by simp [Event.isDelivery])
    · intro he
      exact Or.inl (Or.inr he)
  refine ⟨?_, ?_, ?_, ?_, hd.2⟩
  · intro hm uid msg
    rw [hev (Event.Send uid msg) rfl]
    simp only [FanOut, hm, if_true]
    rw [mem_SendAll]
    simp only [hty, Event.Send.injEq]
    constructor
    · rintro ⟨u, hu, ⟨hreg, hex⟩, huid, hmsg⟩
      exact ⟨⟨u, hu, huid.symm, hreg, huid ▸ hex⟩, hmsg⟩
    · rintro ⟨⟨u, hu, huid, hreg, hex⟩, hmsg⟩
      exact ⟨u, hu, ⟨hreg, huid ▸ hex⟩, huid.symm, hmsg⟩
  · intro hm e he
    cases hdel : e.isDelivery with
    | false => rfl
    | true =>
      have hfan := (hev e hdel).mp he
      simp only [FanOut, hm, Bool.false_eq_true, if_false, List.not_mem_nil] at hfan
  · intro e he name msg status exemptions hcw
    subst hcw
    have hfan := (hev (Event.ChannelWrite name msg status exemptions) rfl).mp he
    simp only [FanOut] at hfan
    split at hfan
    · rw [mem_SendAll] at hfan
      obtain ⟨u, -, -, hu⟩ := hfan
      exact absurd hu (by simp)
    · simp at hfan
  · rw [hd.1, List.getLast?_append, List.getLast?_singleton]
    rfl

/-- Claim C12, witness. The privileged `dave` sends `PRIVMSG $* :hello`; the mask
matches, so the local, fully registered `alice` is sent the `$*` message, and the
command succeeds. -/
theorem C12_server_mask_fanout_witness :
    Event.Send 1
        { source := 4, target := "$*".toList, text := "hello".toList, type := MSG_PRIVMSG,
          status := NUL, tags := [] } ∈
      (Handle (Scenario.server [] (Scenario.room [])) MSG_PRIVMSG Scenario.dave
        ⟨"$*".toList, "hello".toList, []⟩ Scenario.idle0).events ∧
    (Handle (Scenario.server [] (Scenario.room [])) MSG_PRIVMSG Scenario.dave
      ⟨"$*".toList, "hello".toList, []⟩ Scenario.idle0).result = CMD_SUCCESS :=
  have h := C12_server_mask_fanout (Scenario.server [] (Scenario.room [])) MSG_PRIVMSG
    Scenario.dave ⟨"$*".toList, "hello".toList, []⟩ Scenario.idle0
    (by decide) (by decide) rfl (by decide) (by decide)
  ⟨(h.1 rfl 1 _).mpr ⟨⟨Scenario.alice, List.mem_cons_self _ _, rfl, rfl, by decide⟩, rfl⟩,
    h.2.2.2.2⟩

/-- The only numeric the pre-message pass writes is `ERR_NOTEXTTOSEND`. -/
theorem FirePreEvents_numeric_code (srv : InspIRCd) (source : User) (t : MessageTarget)
    (d : MessageDetails) (code : NumericCode) (hcode : code ≠ ERR_NOTEXTTOSEND) :
    ∀ e ∈ (FirePreEvents srv source t d).2.2, e.isNumericOf code = false := by
  intro e he
  unfold FirePreEvents at he
  simp only [] at he
  split at he
  · simp only [List.mem_cons, List.mem_singleton, List.not_mem_nil, or_false] at he
    rcases he with he | he <;> subst he <;> rfl
  · split at he
    · simp only [List.mem_cons, List.mem_singleton, List.not_mem_nil, or_false] at he
      rcases he with he | he
      · subst he; rfl
      · subst he
        cases code <;> simp_all [Event.isNumericOf]
    · simp only [List.mem_cons, List.mem_singleton, List.not_mem_nil, or_false] at he
      rcases he with he | he <;> subst he <;> rfl

/-- A dispatch that reaches the pre-message pass writes no `ERR_CANNOTSENDTOCHAN`. -/
theorem HandleTarget_reaches_no_cannotsend (srv : InspIRCd) (msgtype : MessageType)
    (user : User) (parameters : Params) (idle : UserId → Nat) (t : MessageTarget)
    (d0 : MessageDetails) (written : List Event)
    (h : ReachesPre srv msgtype user parameters t d0 written) :
    ∀ e ∈ (HandleTarget srv msgtype user parameters idle).events,
      e.isNumericOf ERR_CANNOTSENDTOCHAN = false := by
  have hw : ∀ e ∈ written, e.isNumericOf ERR_CANNOTSENDTOCHAN = false := by
    cases h with
    | server_mask _ _ => simp
    | channel _ _ _ _ _ => simp
    | user dest _ _ _ _ _ =>
      intro e he
      split at he
      · simp only [List.mem_singleton] at he
        subst he; rfl
      · simp at he
  have hp := FirePreEvents_numeric_code srv user t d0 ERR_CANNOTSENDTOCHAN (by decide)
  intro e he
  rw [HandleTarget_reaches srv msgtype user parameters idle t d0 written h] at he
  split at he
  · rcases List.mem_append.mp he with he | he
    · exact hw e he
    · exact hp e he
  · rcases List.mem_append.mp he with he | he
    · rcases List.mem_append.mp he with he | he
      · rcases List.mem_append.mp he with he | he
        · exact hw e he
        · exact hp e he
      · exact FanOut_not_numeric srv msgtype user _ t ERR_CANNOTSENDTOCHAN e he
    · simp only [FirePostEvent, List.mem_singleton] at he
      subst he; rfl

/-- A dispatch to a server mask or to a user writes no `ERR_CANNOTSENDTOCHAN`. -/
theorem HandleTarget_other_no_cannotsend (srv : InspIRCd) (msgtype : MessageType)
    (user : User) (parameters : Params) (idle : UserId → Nat)
    (hother : parameters.p0[0]? = some '$' ∨ deref (StripStatus srv parameters.p0).2 ≠ '#') :
    ∀ e ∈ (HandleTarget srv msgtype user parameters idle).events,
      e.isNumericOf ERR_CANNOTSENDTOCHAN = false := by
  by_cases hmask : parameters.p0[0]? = some '$'
  · cases hpriv : user.HasPrivPermission "users/mass-message".toList
    · have h : HandleTarget srv msgtype user parameters idle = Outcome.mk CMD_SUCCESS [] idle := by
        unfold HandleTarget
        simp only [hmask, if_true, hpriv, Bool.not_false]
      rw [h]
      simp
    · exact HandleTarget_reaches_no_cannotsend srv msgtype user parameters idle _ _ _
        (ReachesPre.server_mask hmask hpriv)
  · have hhash : deref (StripStatus srv parameters.p0).2 ≠ '#' := hother.resolve_left hmask
    have hnick : ∀ e ∈ [Numerics.NoSuchNick user parameters.p0],
        e.isNumericOf ERR_CANNOTSENDTOCHAN = false := by
      intro e he
      simp only [List.mem_singleton] at he
      subst he; rfl
    cases hdest : FindDest srv user parameters.p0 with
    | none =>
      have h : (HandleTarget srv msgtype user parameters idle).events =
          [Numerics.NoSuchNick user parameters.p0] := by
        unfold HandleTarget
        simp only [hmask, if_false, hhash, hdest]
      rw [h]; exact hnick
    | some found =>
      cases found with
      | none =>
        have h : (HandleTarget srv msgtype user parameters idle).events =
            [Numerics.NoSuchNick user parameters.p0] := by
          unfold HandleTarget
          simp only [hmask, if_false, hhash, hdest]
        rw [h]; exact hnick
      | some dest =>
        by_cases hreg : dest.registered = srv.REG_ALL
        · by_cases hbody : parameters.p1 = []
          · rw [HandleTarget_user_empty srv msgtype user parameters idle dest hmask hhash hdest
              hreg hbody]
            intro e he
            simp only [List.mem_singleton] at he
            subst he; rfl
          · exact HandleTarget_reaches_no_cannotsend srv msgtype user parameters idle _ _ _
              (ReachesPre.user dest hmask hhash hdest hreg hbody)
        · have h : (HandleTarget srv msgtype user parameters idle).events =
              [Numerics.NoSuchNick user parameters.p0] := by
            unfold HandleTarget
            simp only [hmask, if_false, hhash, hdest, hreg]
          rw [h]; exact hnick

/-- The permission checks are skipped for a sender that is not local or that has at
least voice on the channel. -/
theorem ChannelGate_bypass (srv : InspIRCd) (user : User) (chan : Channel)
    (h : user.is_local = false ∨ srv.VOICE_VALUE ≤ chan.GetPrefixValue user.uid) :
    ChannelGate srv user chan = none := by
  unfold ChannelGate
  rw [if_neg]
  rcases h with h | h
  · simp [h]
  · simp [Nat.not_lt.mpr h]

/-- Claim C14. Ban-policy tri-state. For a local sender below voice that is banned on
a channel that is neither `noextmsg` with the sender outside nor moderated: under
`normal` the permission checks pass whatever the ban predicate answers and the
dispatch goes on to the pre-message hook; under `restrict-silent` `Handle`
returns failure without any action, so without a numeric; under
`restrict-notify` it returns failure after exactly one `ERR_CANNOTSENDTOCHAN`
with the reason `you're banned`. In both restrict modes no hook fires, nothing is
delivered, and the idle times stay as they were. -/
theorem C14_ban_policy (srv : InspIRCd) (msgtype : MessageType) (user : User)
    (parameters : Params) (idle : UserId → Nat) (chan : Channel)
    (hsingle : ',' ∉ parameters.p0)
    (hmask : parameters.p0[0]? ≠ some '$')
    (hhash : deref (StripStatus srv parameters.p0).2 = '#')
    (hfind : srv.FindChan (StripStatus srv parameters.p0).2 = some chan)
    (hlocal : user.is_local = true)
    (hrank : chan.GetPrefixValue user.uid < srv.VOICE_VALUE)
    (hnoext : ¬ (chan.IsModeSet "noextmsg".toList = true ∧ chan.HasUser user.uid = false))
    (hmod : ¬ chan.IsModeSet "moderated".toList = true)
    (hban : chan.IsBanned user.uid = true) :
    let o := Handle srv msgtype user parameters idle
    (srv.RestrictBannedUsers = BUT_NORMAL →
      (∀ isBanned : UserId → Bool,
        ChannelGate srv user { chan with IsBanned := isBanned } = none) ∧
      ∃ rest, o.events = Event.OnUserPreMessage user.uid
        { MessageDetailsImpl.new msgtype parameters.p1 parameters.tags with
          exemptions := [user.uid] } :: rest) ∧
    (srv.RestrictBannedUsers = BUT_RESTRICT_SILENT →
      o.result = CMD_FAILURE ∧ o.events = [] ∧ o.idle_lastmsg = idle) ∧
    (srv.RestrictBannedUsers = BUT_RESTRICT_NOTIFY →
      o.result = CMD_FAILURE ∧
      o.events = [Event.WriteNumeric user.uid ERR_CANNOTSENDTOCHAN
        [chan.name, "Cannot send to channel (you're banned)".toList]] ∧
      o.idle_lastmsg = idle) := by
  intro o
  have ho : o = HandleTarget srv msgtype user parameters idle :=
    Handle_single srv msgtype user parameters idle hsingle
  rw [HandleTarget_channel srv msgtype user parameters idle chan hmask hhash hfind] at ho
  have hg := ChannelGate_below_voice srv user chan hlocal hrank
  rw [if_neg hnoext, if_neg hmod] at hg
  refine ⟨?_, ?_, ?_⟩
  · intro hpol
    refine ⟨?_, ?_⟩
    · intro isBanned
      rw [ChannelGate_below_voice srv user { chan with IsBanned := isBanned } hlocal hrank,
        if_neg hnoext, if_neg hmod, if_neg (fun h => h.1 hpol)]
    · rw [if_neg (fun h => h.1 hpol)] at hg
      rw [hg] at ho
      obtain ⟨rest, hrest⟩ := FirePreEvents_head srv user
        (MessageTarget.TYPE_CHANNEL chan (StripStatus srv parameters.p0).1)
        { MessageDetailsImpl.new msgtype parameters.p1 parameters.tags with
          exemptions := [user.uid] }
      rw [ho]
      simp only []
      split
      · exact ⟨rest, hrest⟩
      · exact ⟨_, by simp only [hrest]; rfl⟩
  · intro hpol
    rw [if_pos ⟨by rw [hpol]; decide, hban⟩, if_neg (by rw [hpol]; decide)] at hg
    rw [hg] at ho
    rw [ho]
    exact ⟨rfl, rfl, rfl⟩
  · intro hpol
    rw [if_pos ⟨by rw [hpol]; decide, hban⟩, if_pos hpol] at hg
    rw [hg] at ho
    rw [ho]
    exact ⟨rfl, rfl, rfl⟩

/-- Claim C14, witness. `alice`, banned on `#room`, sends `PRIVMSG #room :hello`:
under `restrict-notify` she gets the one numeric with the reason `you're banned`,
under `restrict-silent` nothing at all, and both dispatches fail. -/
theorem C14_ban_policy_witness :
    (Handle (Scenario.policyServer BUT_RESTRICT_NOTIFY Scenario.banroom) MSG_PRIVMSG
      Scenario.alice ⟨"#room".toList, "hello".toList, []⟩ Scenario.idle0).events =
      [Event.WriteNumeric 1 ERR_CANNOTSENDTOCHAN
        ["#room".toList, "Cannot send to channel (you're banned)".toList]] ∧
    (Handle (Scenario.policyServer BUT_RESTRICT_SILENT Scenario.banroom) MSG_PRIVMSG
      Scenario.alice ⟨"#room".toList, "hello".toList, []⟩ Scenario.idle0).events = [] ∧
    (Handle (Scenario.policyServer BUT_RESTRICT_SILENT Scenario.banroom) MSG_PRIVMSG
      Scenario.alice ⟨"#room".toList, "hello".toList, []⟩ Scenario.idle0).result = CMD_FAILURE :=
  have hn := (C14_ban_policy (Scenario.policyServer BUT_RESTRICT_NOTIFY Scenario.banroom)
    MSG_PRIVMSG Scenario.alice ⟨"#room".toList, "hello".toList, []⟩ Scenario.idle0
    Scenario.banroom (by decide) (by decide) (by decide) rfl rfl (by decide) (by decide)
    (by decide) rfl).2.2 rfl
  have hs := (C14_ban_policy (Scenario.policyServer BUT_RESTRICT_SILENT Scenario.banroom)
    MSG_PRIVMSG Scenario.alice ⟨"#room".toList, "hello".toList, []⟩ Scenario.idle0
    Scenario.banroom (by decide) (by decide) (by decide) rfl rfl (by decide) (by decide)
    (by decide) rfl).2.1 rfl
  ⟨hn.2.1, hs.2.1, hs.1⟩

/-- Claim C15. PermissionGate bypass. A channel dispatch whose sender is not local, or
whose sender has at least voice on the channel, writes no `ERR_CANNOTSENDTOCHAN`
and begins with the pre-message hook, whatever the modes of the channel, the
membership of the sender, the ban predicate and the ban policy; and a dispatch
to a server mask or to a user writes no `ERR_CANNOTSENDTOCHAN` either. -/
theorem C15_gate_bypass (srv : InspIRCd) (msgtype : MessageType) (user : User)
    (parameters : Params) (idle : UserId → Nat) (hsingle : ',' ∉ parameters.p0) :
    let o := Handle srv msgtype user parameters idle
    (∀ chan, parameters.p0[0]? ≠ some '$' →
      deref (StripStatus srv parameters.p0).2 = '#' →
      srv.FindChan (StripStatus srv parameters.p0).2 = some chan →
      (user.is_local = false ∨ srv.VOICE_VALUE ≤ chan.GetPrefixValue user.uid) →
      (∀ e ∈ o.events, e.isNumericOf ERR_CANNOTSENDTOCHAN = false) ∧
      ∃ rest, o.events = Event.OnUserPreMessage user.uid
        { MessageDetailsImpl.new msgtype parameters.p1 parameters.tags with
          exemptions := [user.uid] } :: rest) ∧
    (parameters.p0[0]? = some '$' ∨ deref (StripStatus srv parameters.p0).2 ≠ '#' →
      ∀ e ∈ o.events, e.isNumericOf ERR_CANNOTSENDTOCHAN = false) := by
  intro o
  have ho : o = HandleTarget srv msgtype user parameters idle :=
    Handle_single srv msgtype user parameters idle hsingle
  refine ⟨?_, ?_⟩
  · intro chan hmask hhash hfind hby
    have hr : ReachesPre srv msgtype user parameters _ _ _ :=
      ReachesPre.channel chan hmask hhash hfind (ChannelGate_bypass srv user chan hby)
    refine ⟨?_, ?_⟩
    · rw [ho]
      exact HandleTarget_reaches_no_cannotsend srv msgtype user parameters idle _ _ _ hr
    · obtain ⟨tail, htail, -⟩ :=
        HandleTarget_reaches_events srv msgtype user parameters idle _ _ _ hr
      rw [ho]
      exact ⟨tail, htail⟩
  · intro hother
    rw [ho]
    exact HandleTarget_other_no_cannotsend srv msgtype user parameters idle hother

/-- Claim C15, witness. The remote `carol` sends `PRIVMSG #room :hello` to the moderated
`#room`, on which she has no prefix and is no member: the dispatch begins with the
pre-message hook and writes no `ERR_CANNOTSENDTOCHAN`. -/
theorem C15_gate_bypass_witness :
    (∀ e ∈ (Handle (Scenario.server [] (Scenario.room ["moderated".toList, "noextmsg".toList]))
        MSG_PRIVMSG Scenario.carol ⟨"#room".toList, "hello".toList, []⟩ Scenario.idle0).events,
      e.isNumericOf ERR_CANNOTSENDTOCHAN = false) ∧
    ∃ rest, (Handle (Scenario.server [] (Scenario.room ["moderated".toList, "noextmsg".toList]))
        MSG_PRIVMSG Scenario.carol ⟨"#room".toList, "hello".toList, []⟩ Scenario.idle0).events =
      Event.OnUserPreMessage 3
        { MessageDetailsImpl.new MSG_PRIVMSG "hello".toList [] with exemptions := [3] } :: rest :=
  (C15_gate_bypass (Scenario.server [] (Scenario.room ["moderated".toList, "noextmsg".toList]))
    MSG_PRIVMSG Scenario.carol ⟨"#room".toList, "hello".toList, []⟩ Scenario.idle0
    (by decide)).1 (Scenario.room ["moderated".toList, "noextmsg".toList]) (by decide)
    (by decide) rfl (Or.inl rfl)

/-- Claim C16, counterexample. `alice` may send to `#room` and sends `PRIVMSG #room :`
with an empty body. With the module `denyAll` registered the dispatch ends with
the message-blocked hook and no `ERR_NOTEXTTOSEND` is written; with the module
`fill` registered, which writes the body `hi`, the message is written to the
channel, the message and post-message hooks fire, and the dispatch succeeds. -/
theorem C16_empty_body_channel_counterexample :
    ChannelGate (Scenario.server [Scenario.denyAll] (Scenario.room [])) Scenario.alice
      (Scenario.room []) = none ∧
    (Handle (Scenario.server [Scenario.denyAll] (Scenario.room [])) MSG_PRIVMSG Scenario.alice
      ⟨"#room".toList, [], []⟩ Scenario.idle0).events
      = [Event.OnUserPreMessage 1
          { type := MSG_PRIVMSG, text := [], tags_in := [], tags_out := [], exemptions := [1] },
         Event.OnUserMessageBlocked 1
          { type := MSG_PRIVMSG, text := [], tags_in := [], tags_out := [],
            exemptions := [1] }] ∧
    (Handle (Scenario.server [Scenario.fill] (Scenario.room [])) MSG_PRIVMSG Scenario.alice
      ⟨"#room".toList, [], []⟩ Scenario.idle0).events
      = [Event.OnUserPreMessage 1
          { type := MSG_PRIVMSG, text := [], tags_in := [], tags_out := [], exemptions := [1] },
         Event.OnUserMessage 1
          { type := MSG_PRIVMSG, text := "hi".toList, tags_in := [], tags_out := [],
            exemptions := [1] },
         Event.ChannelWrite "#room".toList
          { source := 1, target := "#room".toList, text := "hi".toList, type := MSG_PRIVMSG,
            status := NUL, tags := [] } NUL [1],
         Event.OnUserPostMessage 1
          { type := MSG_PRIVMSG, text := "hi".toList, tags_in := [], tags_out := [],
            exemptions := [1] }] ∧
    (Handle (Scenario.server [Scenario.fill] (Scenario.room [])) MSG_PRIVMSG Scenario.alice
      ⟨"#room".toList, [], []⟩ Scenario.idle0).result = CMD_SUCCESS := by
  decide

/-- The module chain without modules lets the message pass as it is. -/
theorem FirstModResult_nil (source : User) (t : MessageTarget) (d : MessageDetails) :
    FirstModResult_OnUserPreMessage [] source t d = (MOD_RES_PASSTHRU, d) := rfl

/-- Claim C16, amended. Empty body to a channel. For a sender permitted to send to an
existing channel and an empty body, when the registered modules neither deny the
message nor give it a body (as when none is registered), the dispatch writes
`ERR_NOTEXTTOSEND` right after the pre-message hook and does nothing else: it
returns failure, delivers to no channel member, and fires neither the message
hook nor the post-message hook. -/
theorem C16_empty_body_channel (srv : InspIRCd) (msgtype : MessageType) (user : User)
    (parameters : Params) (idle : UserId → Nat) (chan : Channel)
    (hsingle : ',' ∉ parameters.p0)
    (hmask : parameters.p0[0]? ≠ some '$')
    (hhash : deref (StripStatus srv parameters.p0).2 = '#')
    (hfind : srv.FindChan (StripStatus srv parameters.p0).2 = some chan)
    (hgate : ChannelGate srv user chan = none)
    (hbody : parameters.p1 = [])
    (hchain : srv.modules = [] ∨
      ((FirstModResult_OnUserPreMessage srv.modules user
        (MessageTarget.TYPE_CHANNEL chan (StripStatus srv parameters.p0).1)
        { MessageDetailsImpl.new msgtype parameters.p1 parameters.tags with
          exemptions := [user.uid] }).1 ≠ MOD_RES_DENY ∧
      (FirstModResult_OnUserPreMessage srv.modules user
        (MessageTarget.TYPE_CHANNEL chan (StripStatus srv parameters.p0).1)
        { MessageDetailsImpl.new msgtype parameters.p1 parameters.tags with
          exemptions := [user.uid] }).2.text = [])) :
    let o := Handle srv msgtype user parameters idle
    o.events =
      [Event.OnUserPreMessage user.uid
        { MessageDetailsImpl.new msgtype parameters.p1 parameters.tags with
          exemptions := [user.uid] },
       Event.WriteNumeric user.uid ERR_NOTEXTTOSEND ["No text to send".toList]] ∧
    o.result = CMD_FAILURE ∧ o.idle_lastmsg = idle ∧
    ∀ e ∈ o.events, e.isDelivery = false ∧
      (∀ u d, e ≠ Event.OnUserMessage u d) ∧ (∀ u d, e ≠ Event.OnUserPostMessage u d) := by
  intro o
  have hr : ReachesPre srv msgtype user parameters _ _ _ :=
    ReachesPre.channel chan hmask hhash hfind hgate
  have hch : (FirstModResult_OnUserPreMessage srv.modules user
        (MessageTarget.TYPE_CHANNEL chan (StripStatus srv parameters.p0).1)
        { MessageDetailsImpl.new msgtype parameters.p1 parameters.tags with
          exemptions := [user.uid] }).1 ≠ MOD_RES_DENY ∧
      (FirstModResult_OnUserPreMessage srv.modules user
        (MessageTarget.TYPE_CHANNEL chan (StripStatus srv parameters.p0).1)
        { MessageDetailsImpl.new msgtype parameters.p1 parameters.tags with
          exemptions := [user.uid] }).2.text = [] := by
    rcases hchain with hnil | h
    · rw [hnil, FirstModResult_nil]
      exact ⟨(fun h => by cases h), hbody⟩
    · exact h
  have ho : o = Outcome.mk CMD_FAILURE
      [Event.OnUserPreMessage user.uid
        { MessageDetailsImpl.new msgtype parameters.p1 parameters.tags with
          exemptions := [user.uid] },
       Event.WriteNumeric user.uid ERR_NOTEXTTOSEND ["No text to send".toList]] idle := by
    show Handle srv msgtype user parameters idle = _
    rw [Handle_single srv msgtype user parameters idle hsingle,
      HandleTarget_reaches srv msgtype user parameters idle _ _ _ hr,
      FirePreEvents_zapped srv user _ _ hch.1 hch.2]
    rfl
  rw [ho]
  refine ⟨rfl, rfl, rfl, ?_⟩
  intro e he
  simp only [List.mem_cons, List.mem_singleton, List.not_mem_nil, or_false] at he
  rcases he with he | he <;> subst he <;> simp [Event.isDelivery]

/-- Claim C16, witness. Scenario S6: without modules, `PRIVMSG #room :` with an empty
body from `alice` ends with `ERR_NOTEXTTOSEND` after the pre-message hook, and the
dispatch fails. -/
theorem C16_empty_body_channel_witness :
    (Handle (Scenario.server [] (Scenario.room [])) MSG_PRIVMSG Scenario.alice
      ⟨"#room".toList, [], []⟩ Scenario.idle0).events =
      [Event.OnUserPreMessage 1
        { type := MSG_PRIVMSG, text := [], tags_in := [], tags_out := [], exemptions := [1] },
       Event.WriteNumeric 1 ERR_NOTEXTTOSEND ["No text to send".toList]] ∧
    (Handle (Scenario.server [] (Scenario.room [])) MSG_PRIVMSG Scenario.alice
      ⟨"#room".toList, [], []⟩ Scenario.idle0).result = CMD_FAILURE :=
  have h := C16_empty_body_channel (Scenario.server [] (Scenario.room [])) MSG_PRIVMSG
    Scenario.alice ⟨"#room".toList, [], []⟩ Scenario.idle0 (Scenario.room [])
    (by decide) (by decide) (by decide) rfl (by decide) rfl (Or.inl rfl)
  ⟨h.1, h.2.1⟩

/-- A dispatch that reaches the pre-message pass and does not get through it fails
with hooks and numerics only and leaves the idle times alone. -/
theorem HandleTarget_stopped (srv : InspIRCd) (msgtype : MessageType) (user : User)
    (parameters : Params) (idle : UserId → Nat) (t : MessageTarget) (d0 : MessageDetails)
    (written : List Event) (h : ReachesPre srv msgtype user parameters t d0 written)
    (hstop : (FirstModResult_OnUserPreMessage srv.modules user t d0).1 = MOD_RES_DENY ∨
      (FirstModResult_OnUserPreMessage srv.modules user t d0).2.text = []) :
    (HandleTarget srv msgtype user parameters idle).result = CMD_FAILURE ∧
    (HandleTarget srv msgtype user parameters idle).idle_lastmsg = idle ∧
    ∀ e ∈ (HandleTarget srv msgtype user parameters idle).events,
      e.isDelivery = false ∧ ∀ u d, e ≠ Event.OnUserPostMessage u d := by
  have hw := ReachesPre_written srv msgtype user parameters t d0 written h
  rw [HandleTarget_reaches srv msgtype user parameters idle t d0 written h]
  have hpre : (FirePreEvents srv user t d0).1 = false ∧
      ∀ e ∈ (FirePreEvents srv user t d0).2.2,
        e.isDelivery = false ∧ ∀ u d, e ≠ Event.OnUserPostMessage u d := by
    by_cases hd : (FirstModResult_OnUserPreMessage srv.modules user t d0).1 = MOD_RES_DENY
    · rw [FirePreEvents_deny srv user t d0 hd]
      refine ⟨rfl, ?_⟩
      intro e he
      simp only [List.mem_cons, List.mem_singleton, List.not_mem_nil, or_false] at he
      rcases he with he | he <;> subst he <;> simp [Event.isDelivery]
    · rw [FirePreEvents_zapped srv user t d0 hd (hstop.resolve_left hd)]
      refine ⟨rfl, ?_⟩
      intro e he
      simp only [List.mem_cons, List.mem_singleton, List.not_mem_nil, or_false] at he
      rcases he with he | he <;> subst he <;> simp [Event.isDelivery]
  rw [if_pos hpre.1]
  refine ⟨rfl, rfl, ?_⟩
  intro e he
  rcases List.mem_append.mp he with he | he
  · have hn := hw e he
    refine ⟨(Event.numeric_not_hook e hn).2, ?_⟩
    intro u d hcon
    subst hcon
    exact absurd hn (by simp [Event.isNumeric])
  · exact hpre.2 e he

/-- Claim C20. Failure implies no effect on recipients. In a one-target dispatch that
returns failure nothing has been sent to a user or written to a channel, the
post-message hook has not fired, and every idle time is as before. Conversely
every delivery belongs to a dispatch that reached the pre-message pass, whose
modules did not deny and left a non-empty text; it comes after the pre-message
and message hooks, the post-message hook is the last event after it, and the
dispatch returns success. -/
theorem C20_failure_no_effect (srv : InspIRCd) (msgtype : MessageType) (user : User)
    (parameters : Params) (idle : UserId → Nat) (hsingle : ',' ∉ parameters.p0) :
    let o := Handle srv msgtype user parameters idle
    (o.result = CMD_FAILURE →
      (∀ e ∈ o.events, e.isDelivery = false ∧ ∀ u d, e ≠ Event.OnUserPostMessage u d) ∧
      o.idle_lastmsg = idle) ∧
    (∀ e ∈ o.events, e.isDelivery = true →
      ∃ t d0 written, ReachesPre srv msgtype user parameters t d0 written ∧
        (FirstModResult_OnUserPreMessage srv.modules user t d0).1 ≠ MOD_RES_DENY ∧
        (FirstModResult_OnUserPreMessage srv.modules user t d0).2.text ≠ [] ∧
        o.result = CMD_SUCCESS ∧
        ∃ before after, o.events = before ++ e :: after ∧
          Event.OnUserPreMessage user.uid d0 ∈ before ∧
          Event.OnUserMessage user.uid
            (FirstModResult_OnUserPreMessage srv.modules user t d0).2 ∈ before ∧
          after.getLast? = some (Event.OnUserPostMessage user.uid
            (FirstModResult_OnUserPreMessage srv.modules user t d0).2)) := by
  intro o
  have ho : o = HandleTarget srv msgtype user parameters idle :=
    Handle_single srv msgtype user parameters idle hsingle
  rcases HandleTarget_cases srv msgtype user parameters idle with h | h | h
  · -- the silent return of a mass message without the privilege
    rw [ho, h.2.2]
    refine ⟨fun hf => absurd hf (by simp), ?_⟩
    intro e he
    simp at he
  · obtain ⟨t, d0, written, hr⟩ := h
    by_cases hstop : (FirstModResult_OnUserPreMessage srv.modules user t d0).1 = MOD_RES_DENY ∨
        (FirstModResult_OnUserPreMessage srv.modules user t d0).2.text = []
    · have hs := HandleTarget_stopped srv msgtype user parameters idle t d0 written hr hstop
      rw [← ho] at hs
      refine ⟨fun _ => ⟨hs.2.2, hs.2.1⟩, ?_⟩
      intro e he hd
      rw [(hs.2.2 e he).1] at hd
      exact absurd hd (by simp)
    · have hcont : (FirstModResult_OnUserPreMessage srv.modules user t d0).1 ≠ MOD_RES_DENY :=
        fun hc => hstop (Or.inl hc)
      have htext : (FirstModResult_OnUserPreMessage srv.modules user t d0).2.text ≠ [] :=
        fun hc => hstop (Or.inr hc)
      have hdel := HandleTarget_delivered srv msgtype user parameters idle t d0 written hr
        hcont htext
      rw [← ho] at hdel
      refine ⟨fun hf => absurd hf (by rw [hdel.2]; simp), ?_⟩
      intro e he hd
      have hfan := (HandleTarget_reaches_delivery srv msgtype user parameters idle t d0 written
        hr e (ho ▸ he) hd).2
      rw [FirePreEvents_details] at hfan
      obtain ⟨f1, f2, hf⟩ := List.append_of_mem hfan
      refine ⟨t, d0, written, hr, hcont, htext, hdel.2, ?_⟩
      refine ⟨written ++ [Event.OnUserPreMessage user.uid d0,
          Event.OnUserMessage user.uid
            (FirstModResult_OnUserPreMessage srv.modules user t d0).2] ++ f1,
        f2 ++ [Event.OnUserPostMessage user.uid
          (FirstModResult_OnUserPreMessage srv.modules user t d0).2], ?_, ?_, ?_, ?_⟩
      · rw [hdel.1, hf]
        simp
      · simp
      · simp
      · rw [List.getLast?_append, List.getLast?_singleton]
        rfl
  · obtain ⟨numerics, hn, hnum⟩ := h
    rw [ho, hn]
    refine ⟨fun _ => ⟨?_, rfl⟩, ?_⟩
    · intro e he
      refine ⟨(Event.numeric_not_hook e (hnum e he)).2, ?_⟩
      intro u d hcon
      subst hcon
      exact absurd (hnum _ he) (by simp [Event.isNumeric])
    · intro e he hd
      rw [(Event.numeric_not_hook e (hnum e he)).2] at hd
      exact absurd hd (by simp)

/-- Claim C20, witness. Scenario S1 once more: the dispatch of `alice` to the moderated
`#room` fails, so it holds no delivery and no post-message hook, and the idle
times are unchanged. -/
theorem C20_failure_no_effect_witness :
    (∀ e ∈ (Handle (Scenario.server [] (Scenario.room ["moderated".toList])) MSG_PRIVMSG
        Scenario.alice ⟨"#room".toList, "hello".toList, []⟩ Scenario.idle0).events,
      e.isDelivery = false ∧ ∀ u d, e ≠ Event.OnUserPostMessage u d) ∧
    (Handle (Scenario.server [] (Scenario.room ["moderated".toList])) MSG_PRIVMSG
      Scenario.alice ⟨"#room".toList, "hello".toList, []⟩ Scenario.idle0).idle_lastmsg
      = Scenario.idle0 :=
  (C20_failure_no_effect (Scenario.server [] (Scenario.room ["moderated".toList])) MSG_PRIVMSG
    Scenario.alice ⟨"#room".toList, "hello".toList, []⟩ Scenario.idle0 (by decide)).1
    (by decide)

/-- A string without NUL is its own C string. -/
theorem c_str_eq_self (s : Str) (h : NUL ∉ s) : c_str s = s := by
  unfold c_str
  rw [List.takeWhile_eq_self_iff]
  intro x hx
  simp only [bne_iff_ne, ne_eq]
  rintro rfl
  exact h hx

/-- The call `strchr` on `nick @ server` finds the `@` right after a nick without one. -/
theorem strchr_at (nick server : Str) (h : '@' ∉ nick) :
    strchr (nick ++ '@' :: server) '@' = some nick.length := by
  unfold strchr
  simp [findIdx_skip nick server '@' h]

/-- The look-up of a target `nick @ server` from a local sender: by nick only, then
the comparison of the server names. -/
theorem FindDest_at (srv : InspIRCd) (user : User) (nick server : Str)
    (hlocal : user.is_local = true) (hat : '@' ∉ nick) (hnul : NUL ∉ nick ++ '@' :: server) :
    FindDest srv user (nick ++ '@' :: server) =
      match srv.FindNickOnly nick with
      | some dest =>
        if (c_str dest.server).map Char.toLower ≠ server.map Char.toLower then none
        else some (some dest)
      | none => some none := by
  unfold FindDest
  simp only [hlocal, if_true, c_str_eq_self _ hnul, strchr_at nick server hat,
    List.take_left', List.take_left]
  have hd : List.drop (nick.length + 1) (nick ++ '@' :: server) = server := by
    have e : nick ++ '@' :: server = (nick ++ ['@']) ++ server := by simp
    rw [e]
    exact List.drop_left' (by simp)
  rw [hd]
  cases srv.FindNickOnly nick with
  | none => rfl
  | some dest =>
    simp only [strcasecmp, bne_iff_ne, ne_eq, ite_not]

/-- The dispatch to a user target that names the wrong server, resolves to nobody,
or resolves to a user that is not fully registered ends with `ERR_NOSUCHNICK` for
the target as given. -/
theorem HandleTarget_user_nosuch (srv : InspIRCd) (msgtype : MessageType) (user : User)
    (parameters : Params) (idle : UserId → Nat)
    (hmask : parameters.p0[0]? ≠ some '$')
    (hhash : deref (StripStatus srv parameters.p0).2 ≠ '#')
    (h : FindDest srv user parameters.p0 = none ∨ FindDest srv user parameters.p0 = some none ∨
      ∃ dest, FindDest srv user parameters.p0 = some (some dest) ∧
        dest.registered ≠ srv.REG_ALL) :
    HandleTarget srv msgtype user parameters idle =
      Outcome.mk CMD_FAILURE
        [Event.WriteNumeric user.uid ERR_NOSUCHNICK [parameters.p0]] idle := by
  unfold HandleTarget
  rcases h with h | h | ⟨dest, h, hreg⟩
  · simp only [hmask, if_false, hhash, h]
    rfl
  · simp only [hmask, if_false, hhash, h]
    rfl
  · simp only [hmask, if_false, hhash, h, hreg]
    rfl

/-- A dispatch that reaches the pre-message pass writes no numeric other than
`RPL_AWAY` and `ERR_NOTEXTTOSEND`. -/
theorem HandleTarget_reaches_codes (srv : InspIRCd) (msgtype : MessageType)
    (user : User) (parameters : Params) (idle : UserId → Nat) (t : MessageTarget)
    (d0 : MessageDetails) (written : List Event)
    (h : ReachesPre srv msgtype user parameters t d0 written) (code : NumericCode)
    (haway : code ≠ RPL_AWAY) (htext : code ≠ ERR_NOTEXTTOSEND) :
    ∀ e ∈ (HandleTarget srv msgtype user parameters idle).events,
      e.isNumericOf code = false := by
  have hw : ∀ e ∈ written, e.isNumericOf code = false := by
    cases h with
    | server_mask _ _ => simp
    | channel _ _ _ _ _ => simp
    | user dest _ _ _ _ _ =>
      intro e he
      split at he
      · simp only [List.mem_singleton] at he
        subst he
        cases code <;> simp_all [Event.isNumericOf]
      · simp at he
  have hp := FirePreEvents_numeric_code srv user t d0 code htext
  intro e he
  rw [HandleTarget_reaches srv msgtype user parameters idle t d0 written h] at he
  split at he
  · rcases List.mem_append.mp he with he | he
    · exact hw e he
    · exact hp e he
  · rcases List.mem_append.mp he with he | he
    · rcases List.mem_append.mp he with he | he
      · rcases List.mem_append.mp he with he | he
        · exact hw e he
        · exact hp e he
      · exact FanOut_not_numeric srv msgtype user _ t code e he
    · simp only [FirePostEvent, List.mem_singleton] at he
      subst he; rfl

/-- Claim C13. Server-qualified nick resolution. For a local sender and a user target
`nick@server`, split at the first `@`, the user is looked up by `nick` alone. When
nobody is found, when the server name of the user found differs from `server`
after lower-casing both, or when the user found is not fully registered, the
dispatch fails with the one numeric `ERR_NOSUCHNICK` carrying the target as
given, so no hook fires and nothing is delivered. When the names are equal after
lower-casing and the user found is fully registered, the dispatch is the one to
that user: it writes no `ERR_NOSUCHNICK`; with a non-empty body it goes on, after
the away numeric, to the pre-message hook, and when the modules let the message
through it is sent to that user if local, the post-message hook fires and the
dispatch succeeds. -/
theorem C13_server_qualified_nick (srv : InspIRCd) (msgtype : MessageType) (user : User)
    (parameters : Params) (idle : UserId → Nat) (nick server : Str)
    (hsingle : ',' ∉ parameters.p0)
    (hmask : parameters.p0[0]? ≠ some '$')
    (hhash : deref (StripStatus srv parameters.p0).2 ≠ '#')
    (hlocal : user.is_local = true)
    (hp0 : parameters.p0 = nick ++ '@' :: server)
    (hat : '@' ∉ nick) (hnul : NUL ∉ parameters.p0) :
    let o := Handle srv msgtype user parameters idle
    let nosuch := Outcome.mk CMD_FAILURE
      [Event.WriteNumeric user.uid ERR_NOSUCHNICK [parameters.p0]] idle
    (srv.FindNickOnly nick = none → o = nosuch) ∧
    (∀ dest, srv.FindNickOnly nick = some dest →
      ((c_str dest.server).map Char.toLower ≠ server.map Char.toLower → o = nosuch) ∧
      ((c_str dest.server).map Char.toLower = server.map Char.toLower →
        FindDest srv user parameters.p0 = some (some dest) ∧
        (dest.registered ≠ srv.REG_ALL → o = nosuch) ∧
        (dest.registered = srv.REG_ALL →
          let away := if dest.away = true ∧ msgtype = MSG_PRIVMSG then
            [Event.WriteNumeric user.uid RPL_AWAY [dest.nick, dest.awaymsg]] else []
          let pass := FirstModResult_OnUserPreMessage srv.modules user
            (MessageTarget.TYPE_USER dest)
            (MessageDetailsImpl.new msgtype parameters.p1 parameters.tags)
          (∀ e ∈ o.events, e.isNumericOf ERR_NOSUCHNICK = false) ∧
          (parameters.p1 = [] → o = Outcome.mk CMD_FAILURE
            [Event.WriteNumeric user.uid ERR_NOTEXTTOSEND ["No text to send".toList]] idle) ∧
          (parameters.p1 ≠ [] →
            ReachesPre srv msgtype user parameters (MessageTarget.TYPE_USER dest)
              (MessageDetailsImpl.new msgtype parameters.p1 parameters.tags) away ∧
            ∃ rest, o.events = away ++ Event.OnUserPreMessage user.uid
              (MessageDetailsImpl.new msgtype parameters.p1 parameters.tags) :: rest) ∧
          (parameters.p1 ≠ [] → pass.1 ≠ MOD_RES_DENY → pass.2.text ≠ [] →
            o.result = CMD_SUCCESS ∧
            o.events = away ++
              [Event.OnUserPreMessage user.uid
                (MessageDetailsImpl.new msgtype parameters.p1 parameters.tags),
               Event.OnUserMessage user.uid pass.2] ++
              (if dest.is_local = true then
                [Event.Send dest.uid
                  { source := user.uid, target := dest.nick, text := pass.2.text,
                    type := msgtype, status := NUL, tags := pass.2.tags_out }]
               else []) ++
              [Event.OnUserPostMessage user.uid pass.2])))) := by
  intro o nosuch
  have ho : o = HandleTarget srv msgtype user parameters idle :=
    Handle_single srv msgtype user parameters idle hsingle
  have hfd := FindDest_at srv user nick server hlocal hat (hp0 ▸ hnul)
  rw [← hp0] at hfd
  refine ⟨?_, ?_⟩
  · intro hnone
    rw [hnone] at hfd
    rw [ho]
    exact HandleTarget_user_nosuch srv msgtype user parameters idle hmask hhash
      (Or.inr (Or.inl hfd))
  · intro dest hsome
    rw [hsome] at hfd
    refine ⟨?_, ?_⟩
    · intro hne
      simp only [hne, ne_eq, not_false_eq_true, if_true] at hfd
      rw [ho]
      exact HandleTarget_user_nosuch srv msgtype user parameters idle hmask hhash (Or.inl hfd)
    · intro heq
      simp only [heq, ne_eq, not_true_eq_false, if_false] at hfd
      refine ⟨hfd, ?_, ?_⟩
      · intro hreg
        rw [ho]
        exact HandleTarget_user_nosuch srv msgtype user parameters idle hmask hhash
          (Or.inr (Or.inr ⟨dest, hfd, hreg⟩))
      · intro hreg away pass
        have hempty : parameters.p1 = [] → o = Outcome.mk CMD_FAILURE
            [Event.WriteNumeric user.uid ERR_NOTEXTTOSEND ["No text to send".toList]] idle := by
          intro hbody
          rw [ho]
          exact HandleTarget_user_empty srv msgtype user parameters idle dest hmask hhash hfd
            hreg hbody
        refine ⟨?_, hempty, ?_, ?_⟩
        · by_cases hbody : parameters.p1 = []
          · rw [hempty hbody]
            intro e he
            simp only [List.mem_singleton] at he
            subst he; rfl
          · rw [ho]
            exact HandleTarget_reaches_codes srv msgtype user parameters idle _ _ _
              (ReachesPre.user dest hmask hhash hfd hreg hbody) ERR_NOSUCHNICK (by decide)
              (by decide)
        · intro hbody
          have hr : ReachesPre srv msgtype user parameters (MessageTarget.TYPE_USER dest)
              (MessageDetailsImpl.new msgtype parameters.p1 parameters.tags) away :=
            ReachesPre.user dest hmask hhash hfd hreg hbody
          obtain ⟨tail, htail, -⟩ :=
            HandleTarget_reaches_events srv msgtype user parameters idle _ _ _ hr
          exact ⟨hr, tail, by rw [ho]; exact htail⟩
        · intro hbody hcont htext
          have hr : ReachesPre srv msgtype user parameters (MessageTarget.TYPE_USER dest)
              (MessageDetailsImpl.new msgtype parameters.p1 parameters.tags) away :=
            ReachesPre.user dest hmask hhash hfd hreg hbody
          have hd := HandleTarget_delivered srv msgtype user parameters idle _ _ _ hr hcont htext
          rw [ho]
          exact ⟨hd.2, hd.1⟩

/-- Claim C13, witness. Scenario S5: `alice` sends `PRIVMSG bob@other.net :hi` while the
`bob` found is on `irc.example.org`; the dispatch fails with `ERR_NOSUCHNICK` for
`bob@other.net`. Sent to `bob@IRC.Example.ORG` instead, the message reaches `bob`
after the away numeric and the dispatch succeeds. -/
theorem C13_server_qualified_nick_witness :
    (Handle (Scenario.server [] (Scenario.room [])) MSG_PRIVMSG Scenario.alice
      ⟨"bob@other.net".toList, "hi".toList, []⟩ Scenario.idle0).events =
      [Event.WriteNumeric 1 ERR_NOSUCHNICK ["bob@other.net".toList]] ∧
    (Handle (Scenario.server [] (Scenario.room [])) MSG_PRIVMSG Scenario.alice
      ⟨"bob@IRC.Example.ORG".toList, "hi".toList, []⟩ Scenario.idle0).result = CMD_SUCCESS ∧
    (Handle (Scenario.server [] (Scenario.room [])) MSG_PRIVMSG Scenario.alice
      ⟨"bob@IRC.Example.ORG".toList, "hi".toList, []⟩ Scenario.idle0).events =
      [Event.WriteNumeric 1 RPL_AWAY ["bob".toList, "gone fishing".toList],
       Event.OnUserPreMessage 1
        { type := MSG_PRIVMSG, text := "hi".toList, tags_in := [], tags_out := [],
          exemptions := [] },
       Event.OnUserMessage 1
        { type := MSG_PRIVMSG, text := "hi".toList, tags_in := [], tags_out := [],
          exemptions := [] },
       Event.Send 2
        { source := 1, target := "bob".toList, text := "hi".toList, type := MSG_PRIVMSG,
          status := NUL, tags := [] },
       Event.OnUserPostMessage 1
        { type := MSG_PRIVMSG, text := "hi".toList, tags_in := [], tags_out := [],
          exemptions := [] }] :=
  have hs := ((((C13_server_qualified_nick (Scenario.server [] (Scenario.room [])) MSG_PRIVMSG
    Scenario.alice ⟨"bob@IRC.Example.ORG".toList, "hi".toList, []⟩ Scenario.idle0
    "bob".toList "IRC.Example.ORG".toList (by decide) (by decide) (by decide) rfl rfl
    (by decide) (by decide)).2 Scenario.bob rfl).2 (by decide)).2.2 rfl).2.2.2
    (by decide) (by decide) (by decide)
  ⟨congrArg Outcome.events
      (((C13_server_qualified_nick (Scenario.server [] (Scenario.room [])) MSG_PRIVMSG
        Scenario.alice ⟨"bob@other.net".toList, "hi".toList, []⟩ Scenario.idle0
        "bob".toList "other.net".toList (by decide) (by decide) (by decide) rfl rfl
        (by decide) (by decide)).2 Scenario.bob rfl).1 (by decide)),
    hs.1, hs.2⟩

/-- The status character and the channel name of a target `c # rest` whose first byte
is a registered prefix. -/
theorem StripStatus_prefixed (srv : InspIRCd) (c : Char) (rest : Str) (r : Nat)
    (hc : c ≠ NUL) (hnul : NUL ∉ rest) (hp : srv.FindPrefix c = some r) :
    StripStatus srv (c :: '#' :: rest) = (c, '#' :: rest) := by
  have h : NUL ∉ c :: '#' :: rest := by
    simp only [List.mem_cons, not_or]
    exact ⟨fun e => hc e.symm, by decide, hnul⟩
  unfold StripStatus
  simp only [c_str_eq_self _ h, deref, List.headD_cons, hp, Option.isSome_some, if_true,
    List.tail_cons]

/-- The status character and the channel name of a target `# rest` when `#` is no
registered prefix. -/
theorem StripStatus_plain (srv : InspIRCd) (rest : Str) (hnul : NUL ∉ rest)
    (hp : srv.FindPrefix '#' = none) :
    StripStatus srv ('#' :: rest) = (NUL, '#' :: rest) := by
  have h : NUL ∉ '#' :: rest := by
    simp only [List.mem_cons, not_or]
    exact ⟨by decide, hnul⟩
  unfold StripStatus
  simp only [c_str_eq_self _ h, deref, List.headD_cons, hp, Option.isSome_none,
    Bool.false_eq_true, if_false]

/-- The dispatch to a channel name that is not found ends with `ERR_NOSUCHCHANNEL`
for the target as given. -/
theorem HandleTarget_nochan (srv : InspIRCd) (msgtype : MessageType) (user : User)
    (parameters : Params) (idle : UserId → Nat)
    (hmask : parameters.p0[0]? ≠ some '$')
    (hhash : deref (StripStatus srv parameters.p0).2 = '#')
    (hfind : srv.FindChan (StripStatus srv parameters.p0).2 = none) :
    HandleTarget srv msgtype user parameters idle =
      Outcome.mk CMD_FAILURE
        [Event.WriteNumeric user.uid ERR_NOSUCHCHANNEL [parameters.p0]] idle := by
  unfold HandleTarget
  simp only [hmask, if_false, hhash, if_true, hfind]
  rfl

/-- The one delivery of a channel dispatch that gets through the permission checks
and the pre-message pass: the write to the channel found, with the status
character of the target and the exemptions and text the modules left. -/
theorem HandleTarget_channel_delivery (srv : InspIRCd) (msgtype : MessageType) (user : User)
    (parameters : Params) (idle : UserId → Nat) (chan : Channel)
    (hmask : parameters.p0[0]? ≠ some '$')
    (hhash : deref (StripStatus srv parameters.p0).2 = '#')
    (hfind : srv.FindChan (StripStatus srv parameters.p0).2 = some chan)
    (hgate : ChannelGate srv user chan = none)
    (hcont : (FirstModResult_OnUserPreMessage srv.modules user
      (MessageTarget.TYPE_CHANNEL chan (StripStatus srv parameters.p0).1)
      { MessageDetailsImpl.new msgtype parameters.p1 parameters.tags with
        exemptions := [user.uid] }).1 ≠ MOD_RES_DENY)
    (htext : (FirstModResult_OnUserPreMessage srv.modules user
      (MessageTarget.TYPE_CHANNEL chan (StripStatus srv parameters.p0).1)
      { MessageDetailsImpl.new msgtype parameters.p1 parameters.tags with
        exemptions := [user.uid] }).2.text ≠ []) :
    (∀ e ∈ (HandleTarget srv msgtype user parameters idle).events, e.isDelivery = true →
      e = Event.ChannelWrite chan.name
        { source := user.uid, target := chan.name,
          text := (FirstModResult_OnUserPreMessage srv.modules user
            (MessageTarget.TYPE_CHANNEL chan (StripStatus srv parameters.p0).1)
            { MessageDetailsImpl.new msgtype parameters.p1 parameters.tags with
              exemptions := [user.uid] }).2.text,
          type := msgtype, status := (StripStatus srv parameters.p0).1,
          tags := (FirstModResult_OnUserPreMessage srv.modules user
            (MessageTarget.TYPE_CHANNEL chan (StripStatus srv parameters.p0).1)
            { MessageDetailsImpl.new msgtype parameters.p1 parameters.tags with
              exemptions := [user.uid] }).2.tags_out }
        (StripStatus srv parameters.p0).1
        (FirstModResult_OnUserPreMessage srv.modules user
          (MessageTarget.TYPE_CHANNEL chan (StripStatus srv parameters.p0).1)
          { MessageDetailsImpl.new msgtype parameters.p1 parameters.tags with
            exemptions := [user.uid] }).2.exemptions) ∧
    Event.ChannelWrite chan.name
        { source := user.uid, target := chan.name,
          text := (FirstModResult_OnUserPreMessage srv.modules user
            (MessageTarget.TYPE_CHANNEL chan (StripStatus srv parameters.p0).1)
            { MessageDetailsImpl.new msgtype parameters.p1 parameters.tags with
              exemptions := [user.uid] }).2.text,
          type := msgtype, status := (StripStatus srv parameters.p0).1,
          tags := (FirstModResult_OnUserPreMessage srv.modules user
            (MessageTarget.TYPE_CHANNEL chan (StripStatus srv parameters.p0).1)
            { MessageDetailsImpl.new msgtype parameters.p1 parameters.tags with
              exemptions := [user.uid] }).2.tags_out }
        (StripStatus srv parameters.p0).1
        (FirstModResult_OnUserPreMessage srv.modules user
          (MessageTarget.TYPE_CHANNEL chan (StripStatus srv parameters.p0).1)
          { MessageDetailsImpl.new msgtype parameters.p1 parameters.tags with
            exemptions := [user.uid] }).2.exemptions ∈
      (HandleTarget srv msgtype user parameters idle).events := by
  have hr : ReachesPre srv msgtype user parameters _ _ _ :=
    ReachesPre.channel chan hmask hhash hfind hgate
  have hty : (FirstModResult_OnUserPreMessage srv.modules user
      (MessageTarget.TYPE_CHANNEL chan (StripStatus srv parameters.p0).1)
      { MessageDetailsImpl.new msgtype parameters.p1 parameters.tags with
        exemptions := [user.uid] }).2.type = msgtype := by
    rw [FirstModResult_type]
    rfl
  refine ⟨?_, ?_⟩
  · intro e he hd
    have hfan := (HandleTarget_reaches_delivery srv msgtype user parameters idle _ _ _ hr
      e he hd).2
    rw [FirePreEvents_details] at hfan
    simp only [FanOut, List.mem_singleton, hty] at hfan
    exact hfan
  · rw [(HandleTarget_delivered srv msgtype user parameters idle _ _ _ hr hcont htext).1]
    apply List.mem_append_left
    apply List.mem_append_right
    simp only [FanOut, List.mem_singleton, hty]

/-- A one-target dispatch whose target splits into the status character `status` and
a channel name `name`: the channel is looked up under `name`, and the one
delivery is the write to the channel found, with `status`. -/
theorem Handle_channel_status (srv : InspIRCd) (msgtype : MessageType) (user : User)
    (parameters : Params) (idle : UserId → Nat) (status : Char) (name : Str)
    (hsingle : ',' ∉ parameters.p0)
    (hmask : parameters.p0[0]? ≠ some '$')
    (hst : StripStatus srv parameters.p0 = (status, name))
    (hhash : deref name = '#') :
    (srv.FindChan name = none →
      (Handle srv msgtype user parameters idle).events =
        [Event.WriteNumeric user.uid ERR_NOSUCHCHANNEL [parameters.p0]]) ∧
    (∀ chan, srv.FindChan name = some chan → ChannelGate srv user chan = none →
      (FirstModResult_OnUserPreMessage srv.modules user (MessageTarget.TYPE_CHANNEL chan status)
        { MessageDetailsImpl.new msgtype parameters.p1 parameters.tags with
          exemptions := [user.uid] }).1 ≠ MOD_RES_DENY →
      (FirstModResult_OnUserPreMessage srv.modules user (MessageTarget.TYPE_CHANNEL chan status)
        { MessageDetailsImpl.new msgtype parameters.p1 parameters.tags with
          exemptions := [user.uid] }).2.text ≠ [] →
      (∀ e ∈ (Handle srv msgtype user parameters idle).events, e.isDelivery = true →
        e = Event.ChannelWrite chan.name
          { source := user.uid, target := chan.name,
            text := (FirstModResult_OnUserPreMessage srv.modules user
              (MessageTarget.TYPE_CHANNEL chan status)
              { MessageDetailsImpl.new msgtype parameters.p1 parameters.tags with
                exemptions := [user.uid] }).2.text,
            type := msgtype, status := status,
            tags := (FirstModResult_OnUserPreMessage srv.modules user
              (MessageTarget.TYPE_CHANNEL chan status)
              { MessageDetailsImpl.new msgtype parameters.p1 parameters.tags with
                exemptions := [user.uid] }).2.tags_out }
          status
          (FirstModResult_OnUserPreMessage srv.modules user
            (MessageTarget.TYPE_CHANNEL chan status)
            { MessageDetailsImpl.new msgtype parameters.p1 parameters.tags with
              exemptions := [user.uid] }).2.exemptions) ∧
      Event.ChannelWrite chan.name
          { source := user.uid, target := chan.name,
            text := (FirstModResult_OnUserPreMessage srv.modules user
              (MessageTarget.TYPE_CHANNEL chan status)
              { MessageDetailsImpl.new msgtype parameters.p1 parameters.tags with
                exemptions := [user.uid] }).2.text,
            type := msgtype, status := status,
            tags := (FirstModResult_OnUserPreMessage srv.modules user
              (MessageTarget.TYPE_CHANNEL chan status)
              { MessageDetailsImpl.new msgtype parameters.p1 parameters.tags with
                exemptions := [user.uid] }).2.tags_out }
          status
          (FirstModResult_OnUserPreMessage srv.modules user
            (MessageTarget.TYPE_CHANNEL chan status)
            { MessageDetailsImpl.new msgtype parameters.p1 parameters.tags with
              exemptions := [user.uid] }).2.exemptions ∈
        (Handle srv msgtype user parameters idle).events) := by
  have h1 : status = (StripStatus srv parameters.p0).1 := by rw [hst]
  have h2 : name = (StripStatus srv parameters.p0).2 := by rw [hst]
  subst h1 h2
  rw [Handle_single srv msgtype user parameters idle hsingle]
  refine ⟨?_, ?_⟩
  · intro hfind
    rw [HandleTarget_nochan srv msgtype user parameters idle hmask hhash hfind]
  · intro chan hfind hgate hcont htext
    exact HandleTarget_channel_delivery srv msgtype user parameters idle chan hmask hhash hfind
      hgate hcont htext

/-- Claim C11, counterexample. On a server where `$` is registered as a status prefix,
the privileged `dave` sends `PRIVMSG $#room :hello`. The first byte is a registered
prefix, the next byte is `#`, and `#room` exists, yet the dispatch is that of a
server mask: the hooks fire and nothing is written to the channel. -/
theorem C11_status_targeting_counterexample :
    Scenario.dollarServer.FindPrefix '$' = some 5 ∧
    (Scenario.dollarServer.FindChan "#room".toList).isSome = true ∧
    (Handle Scenario.dollarServer MSG_PRIVMSG Scenario.dave
      ⟨"$#room".toList, "hello".toList, []⟩ Scenario.idle0).events
      = [Event.OnUserPreMessage 4
          { type := MSG_PRIVMSG, text := "hello".toList, tags_in := [], tags_out := [],
            exemptions := [] },
         Event.OnUserMessage 4
          { type := MSG_PRIVMSG, text := "hello".toList, tags_in := [], tags_out := [],
            exemptions := [] },
         Event.OnUserPostMessage 4
          { type := MSG_PRIVMSG, text := "hello".toList, tags_in := [], tags_out := [],
            exemptions := [] }] ∧
    ∀ e ∈ (Handle Scenario.dollarServer MSG_PRIVMSG Scenario.dave
      ⟨"$#room".toList, "hello".toList, []⟩ Scenario.idle0).events, e.isDelivery = false := by
  decide

/-- Claim C11, amended. Status-prefix targeting. For a target `c#rest` whose first byte
`c` is a registered status prefix other than `$`, the channel is looked up under
`#rest`, and the one delivery is the write to that channel with `c` as the status
and the exemptions the modules left; under the spec's fan-out primitive it
reaches exactly the members that are not exempt and whose rank is at least the
rank of `c`. For a target `#rest`, `#` being no registered prefix, the status is
none and the write reaches all members that are not exempt. -/
theorem C11_status_targeting (srv : InspIRCd) (msgtype : MessageType) (user : User)
    (p1 : Str) (tags : TagMap) (idle : UserId → Nat) (rest : Str)
    (hnul : NUL ∉ rest) (hcomma : ',' ∉ rest) :
    (∀ c r, c ≠ '$' → c ≠ ',' → c ≠ NUL → srv.FindPrefix c = some r →
      let o := Handle srv msgtype user ⟨c :: '#' :: rest, p1, tags⟩ idle
      (srv.FindChan ('#' :: rest) = none →
        o.events = [Event.WriteNumeric user.uid ERR_NOSUCHCHANNEL [c :: '#' :: rest]]) ∧
      (∀ chan, srv.FindChan ('#' :: rest) = some chan → ChannelGate srv user chan = none →
        let pass := FirstModResult_OnUserPreMessage srv.modules user
          (MessageTarget.TYPE_CHANNEL chan c)
          { MessageDetailsImpl.new msgtype p1 tags with exemptions := [user.uid] }
        pass.1 ≠ MOD_RES_DENY → pass.2.text ≠ [] →
        (∀ e ∈ o.events, e.isDelivery = true → e = ChannelWriteOf user chan c pass.2) ∧
        ChannelWriteOf user chan c pass.2 ∈ o.events ∧
        ∀ u, WriteToMembers srv chan c pass.2.exemptions u = true ↔
          (chan.HasUser u = true ∧ u ∉ pass.2.exemptions ∧ r ≤ chan.GetPrefixValue u))) ∧
    (srv.FindPrefix '#' = none →
      let o := Handle srv msgtype user ⟨'#' :: rest, p1, tags⟩ idle
      (srv.FindChan ('#' :: rest) = none →
        o.events = [Event.WriteNumeric user.uid ERR_NOSUCHCHANNEL ['#' :: rest]]) ∧
      (∀ chan, srv.FindChan ('#' :: rest) = some chan → ChannelGate srv user chan = none →
        let pass := FirstModResult_OnUserPreMessage srv.modules user
          (MessageTarget.TYPE_CHANNEL chan NUL)
          { MessageDetailsImpl.new msgtype p1 tags with exemptions := [user.uid] }
        pass.1 ≠ MOD_RES_DENY → pass.2.text ≠ [] →
        (∀ e ∈ o.events, e.isDelivery = true → e = ChannelWriteOf user chan NUL pass.2) ∧
        ChannelWriteOf user chan NUL pass.2 ∈ o.events ∧
        ∀ u, WriteToMembers srv chan NUL pass.2.exemptions u = true ↔
          (chan.HasUser u = true ∧ u ∉ pass.2.exemptions))) := by
  refine ⟨?_, ?_⟩
  · intro c r hdollar hc hcnul hp o
    have hsingle : ',' ∉ (Params.mk (c :: '#' :: rest) p1 tags).p0 := by
      simp only [List.mem_cons, not_or]
      exact ⟨fun e => hc e.symm, by decide, hcomma⟩
    have hmask : (Params.mk (c :: '#' :: rest) p1 tags).p0[0]? ≠ some '$' := by
      simp only [List.getElem?_cons_zero, ne_eq, Option.some.injEq]
      exact hdollar
    have hcore := Handle_channel_status srv msgtype user ⟨c :: '#' :: rest, p1, tags⟩ idle c
      ('#' :: rest) hsingle hmask (StripStatus_prefixed srv c rest r hcnul hnul hp) rfl
    refine ⟨hcore.1, ?_⟩
    intro chan hfind hgate pass hcont htext
    have hty : pass.2.type = msgtype := FirstModResult_type srv.modules user _ _
    have hw := hcore.2 chan hfind hgate hcont htext
    refine ⟨?_, ?_, ?_⟩
    · intro e he hd
      rw [hw.1 e he hd]
      simp only [ChannelWriteOf, hty]
    · have := hw.2
      simp only [ChannelWriteOf, hty]
      exact this
    · intro u
      simp only [WriteToMembers, hcnul, if_false, hp, Option.getD_some, Bool.and_eq_true,
        Bool.not_eq_true', decide_eq_true_eq, and_assoc]
      constructor
      · rintro ⟨h1, h2, h3⟩
        exact ⟨h1, by simpa using h2, h3⟩
      · rintro ⟨h1, h2, h3⟩
        exact ⟨h1, by simpa using h2, h3⟩
  · intro hp o
    have hsingle : ',' ∉ (Params.mk ('#' :: rest) p1 tags).p0 := by
      simp only [List.mem_cons, not_or]
      exact ⟨by decide, hcomma⟩
    have hmask : (Params.mk ('#' :: rest) p1 tags).p0[0]? ≠ some '$' := by
      simp only [List.getElem?_cons_zero, ne_eq, Option.some.injEq]
      decide
    have hcore := Handle_channel_status srv msgtype user ⟨'#' :: rest, p1, tags⟩ idle NUL
      ('#' :: rest) hsingle hmask (StripStatus_plain srv rest hnul hp) rfl
    refine ⟨hcore.1, ?_⟩
    intro chan hfind hgate pass hcont htext
    have hty : pass.2.type = msgtype := FirstModResult_type srv.modules user _ _
    have hw := hcore.2 chan hfind hgate hcont htext
    refine ⟨?_, ?_, ?_⟩
    · intro e he hd
      rw [hw.1 e he hd]
      simp only [ChannelWriteOf, hty]
    · have := hw.2
      simp only [ChannelWriteOf, hty]
      exact this
    · intro u
      simp only [WriteToMembers, if_true, Nat.zero_le, decide_True, Bool.and_true,
        Bool.and_eq_true, Bool.not_eq_true']
      constructor
      · rintro ⟨h1, h2⟩
        exact ⟨h1, by simpa using h2⟩
      · rintro ⟨h1, h2⟩
        exact ⟨h1, by simpa using h2⟩

/-- Claim C11, witness. Scenario S2: the operator `alice` sends `PRIVMSG @#room :ops
only`; the write to `#room` carries the status `@` and `alice` as exempt, so under
the spec's fan-out primitive the voiced `bob` does not receive it and the
operator `dave` does. -/
theorem C11_status_targeting_witness :
    ChannelWriteOf Scenario.alice Scenario.opsroom '@'
        { type := MSG_PRIVMSG, text := "ops only".toList, tags_in := [], tags_out := [],
          exemptions := [1] } ∈
      (Handle (Scenario.server [] Scenario.opsroom) MSG_PRIVMSG Scenario.alice
        ⟨"@#room".toList, "ops only".toList, []⟩ Scenario.idle0).events ∧
    ¬ WriteToMembers (Scenario.server [] Scenario.opsroom) Scenario.opsroom '@' [1]
        Scenario.bob.uid = true ∧
    WriteToMembers (Scenario.server [] Scenario.opsroom) Scenario.opsroom '@' [1]
      Scenario.dave.uid = true :=
  have h := ((C11_status_targeting (Scenario.server [] Scenario.opsroom) MSG_PRIVMSG
    Scenario.alice "ops only".toList [] Scenario.idle0 "room".toList (by decide)
    (by decide)).1 '@' 30000 (by decide) (by decide) (by decide) rfl).2
    Scenario.opsroom rfl (by decide) (by decide) (by decide)
  ⟨h.2.1, fun hb => absurd ((h.2.2 2).mp hb).2.2 (by decide),
    (h.2.2 4).mpr ⟨rfl, by decide, by decide⟩⟩

/-- The name-only decoder on an accepted text without a space at a position `≥ 2`. -/
theorem IsCTCP_name_nospace (text name : Str) (hlen : text.length < 2 ^ 64)
    (hc : IsCTCP text = true) (hns : find text ' ' 2 = none) :
    IsCTCP_name text name =
      some (true, slice text 1 (text.length - (if text.getLast? = some SOH then 1 else 0))) := by
  have h2 : 2 ≤ text.length := ((IsCTCP_iff text).mp hc).1
  unfold IsCTCP_name
  simp only [hc, hns, Bool.not_true, Bool.false_eq_true, if_false]
  have hs : size_t_sub (size_t_sub text.length 1) (if text.getLast? = some SOH then 1 else 0)
      = text.length - 1 - (if text.getLast? = some SOH then 1 else 0) := by
    rw [size_t_sub_eq text.length 1 (by omega) hlen]
    apply size_t_sub_eq
    · split <;> omega
    · omega
  rw [hs, assign_eq_slice text 1 _ (by omega)]
  have e : 1 + (text.length - 1 - (if text.getLast? = some SOH then 1 else 0))
      = text.length - (if text.getLast? = some SOH then 1 else 0) := by
    split <;> omega
  rw [e]

/-- The name-only decoder on an accepted text whose first space at a position `≥ 2`
is at `p`. -/
theorem IsCTCP_name_space (text name : Str) (hlen : text.length < 2 ^ 64)
    (hc : IsCTCP text = true) (p : Nat) (hp : find text ' ' 2 = some p) :
    IsCTCP_name text name = some (true, slice text 1 p) := by
  have hp2 := (find_eq_some text ' ' 2 p).mp hp
  have hpl : p < text.length := (List.getElem?_eq_some_iff.mp hp2.2.1).1
  unfold IsCTCP_name
  simp only [hc, hp, Bool.not_true, Bool.false_eq_true, if_false]
  rw [size_t_sub_eq p 1 (by omega) (by omega), assign_eq_slice text 1 _ (by omega)]
  have e : 1 + (p - 1) = p := by omega
  rw [e]

/-- Claim C18. The two CTCP decoders agree: on every text the name-only overload and
the full overload both return (neither throws), the boolean either returns is
the value of `IsCTCP()`, and they leave the same value in `name`. -/
theorem C18_decoders_agree (text name body : Str) (hlen : text.length < 2 ^ 64) :
    ∃ name1 body1, IsCTCP_name text name = some (IsCTCP text, name1) ∧
      IsCTCP_name_body text name body = some (IsCTCP text, name1, body1) := by
  cases hc : IsCTCP text with
  | false =>
    refine ⟨name, body, ?_, ?_⟩
    · unfold IsCTCP_name
      simp [hc]
    · unfold IsCTCP_name_body
      simp [hc]
  | true =>
    cases hp : find text ' ' 2 with
    | none =>
      exact ⟨_, _, IsCTCP_name_nospace text name hlen hc hp,
        IsCTCP_name_body_nospace text name body hlen hc hp⟩
    | some p =>
      cases hs : find_first_not_of text ' ' (p + 1) with
      | none =>
        exact ⟨_, _, IsCTCP_name_space text name hlen hc p hp,
          IsCTCP_name_body_nobody text name body hlen hc p hp hs⟩
      | some s =>
        exact ⟨_, _, IsCTCP_name_space text name hlen hc p hp,
          IsCTCP_name_body_full text name body hlen hc p s hp hs⟩

/-- Claim C18, witness. Both decoders on `SOH PING 12345` return true with the name
`PING`, and both on `SOH SOH` return false and leave the name `n` alone. -/
theorem C18_decoders_agree_witness :
    (∃ name1 body1, IsCTCP_name "\x01PING 12345".toList "n".toList
        = some (IsCTCP "\x01PING 12345".toList, name1) ∧
      IsCTCP_name_body "\x01PING 12345".toList "n".toList "b".toList
        = some (IsCTCP "\x01PING 12345".toList, name1, body1)) ∧
    IsCTCP_name "\x01PING 12345".toList "n".toList = some (true, "PING".toList) ∧
    IsCTCP_name "\x01\x01".toList "n".toList = some (false, "n".toList) :=
  ⟨C18_decoders_agree "\x01PING 12345".toList "n".toList "b".toList (by decide),
    by decide, by decide⟩

/-- The byte at index `k` of a substring `text[i .. j)`. -/
theorem slice_getElem? (text : Str) (i j k : Nat) :
    (slice text i j)[k]? = if i + k < j then text[i + k]? else none := by
  unfold slice
  rw [List.getElem?_drop, List.getElem?_take]

/-- A byte of the substring `text[i .. j)` is a byte of `text` at an index in range. -/
theorem slice_mem (text : Str) (i j : Nat) (x : Char) (h : x ∈ slice text i j) :
    ∃ k, i ≤ k ∧ k < j ∧ text[k]? = some x := by
  obtain ⟨n, hn⟩ := List.mem_iff_getElem?.mp h
  rw [slice_getElem?] at hn
  split at hn
  · exact ⟨i + n, by omega, by omega, hn⟩
  · exact absurd hn (by simp)

/-- The substring `text[i .. j)` is not empty when `i < j ≤ len`. -/
theorem slice_ne_nil (text : Str) (i j : Nat) (hij : i < j) (hj : j ≤ text.length) :
    slice text i j ≠ [] := by
  intro h
  have h0 := slice_getElem? text i j 0
  rw [h, if_pos (by omega)] at h0
  have hi : i < text.length := by omega
  rw [Nat.add_zero, List.getElem?_eq_getElem hi] at h0
  exact absurd h0 (by simp)

/-- The first byte of the substring `text[i .. j)`, if it has one, is `text[i]`. -/
theorem slice_head? (text : Str) (i j : Nat) (c : Char) (h : (slice text i j).head? = some c) :
    text[i]? = some c := by
  rw [List.head?_eq_getElem?, slice_getElem?] at h
  split at h
  · simpa using h
  · exact absurd h (by simp)

/-- The length of a substring `text[i .. j)` that ends within the text. -/
theorem slice_length (text : Str) (i j : Nat) (hj : j ≤ text.length) :
    (slice text i j).length = j - i := by
  unfold slice
  rw [List.length_drop, List.length_take, Nat.min_eq_left hj]

/-- Claim C19. Shape of every decoded CTCP. On a text that `IsCTCP()` accepts the
decoder returns without throwing; the name it returns is not empty and holds no
space; the body it returns is empty or begins with a byte other than a space.
The substrings it returns have the lengths of the unsigned subtractions taken as
differences of integers, which therefore do not go below zero, and lie within
the text: with `e` the trailing trim, a name that runs to the end has length
`len - 1 - e`; with a first space at `p` the name has length `p - 1` and is
`text[1 .. p)`; and a body starting at `s` has length `len - s - e` and is the
substring of that length at `s`, which ends at or before the end of the text. -/
theorem C19_decoded_shape (text name body : Str) (hlen : text.length < 2 ^ 64)
    (hc : IsCTCP text = true) :
    ∃ name1 body1, IsCTCP_name_body text name body = some (true, name1, body1) ∧
      name1 ≠ [] ∧ ' ' ∉ name1 ∧ body1.head? ≠ some ' ' ∧
      name1 = slice text 1 (1 + name1.length) ∧ 1 + name1.length ≤ text.length ∧
      (find text ' ' 2 = none →
        name1.length + 1 + (if text.getLast? = some SOH then 1 else 0) = text.length ∧
        body1 = []) ∧
      (∀ p, find text ' ' 2 = some p →
        name1.length + 1 = p ∧
        (find_first_not_of text ' ' (p + 1) = none → body1 = []) ∧
        (∀ s, find_first_not_of text ' ' (p + 1) = some s →
          body1.length + s + (if text.getLast? = some SOH then 1 else 0) = text.length ∧
          body1 = slice text s (s + body1.length) ∧ s + body1.length ≤ text.length)) := by
  have hi := (IsCTCP_iff text).mp hc
  have h2 : 2 ≤ text.length := hi.1
  -- a trailing SOH is not the byte at index 1
  have htrim : (if text.getLast? = some SOH then 1 else 0) + 2 ≤ text.length := by
    split
    · rename_i hl
      rw [List.getLast?_eq_getElem?] at hl
      by_contra hcon
      have : text.length - 1 = 1 := by omega
      rw [this] at hl
      exact hi.2.2.1 hl
    · omega
  have he1 : (if text.getLast? = some SOH then 1 else 0) ≤ 1 := by split <;> omega
  cases hp : find text ' ' 2 with
  | none =>
    have hnl : (slice text 1 (text.length - (if text.getLast? = some SOH then 1 else 0))).length
        = text.length - (if text.getLast? = some SOH then 1 else 0) - 1 :=
      slice_length text 1 _ (by omega)
    refine ⟨_, _, IsCTCP_name_body_nospace text name body hlen hc hp, ?_, ?_, by simp, ?_, ?_,
      ?_, ?_⟩
    · exact slice_ne_nil text 1 _ (by omega) (by omega)
    · intro hmem
      obtain ⟨k, hk1, -, hk⟩ := slice_mem text 1 _ ' ' hmem
      by_cases hk2 : k = 1
      · rw [hk2] at hk; exact hi.2.2.2 hk
      · exact (find_eq_none text ' ' 2).mp hp k (by omega) hk
    · rw [hnl]
      congr 1
      omega
    · rw [hnl]; omega
    · intro _
      exact ⟨by rw [hnl]; omega, rfl⟩
    · intro p hcon
      exact absurd hcon (by simp)
  | some p =>
    have hp2 := (find_eq_some text ' ' 2 p).mp hp
    have hpl : p < text.length := (List.getElem?_eq_some_iff.mp hp2.2.1).1
    have hnl : (slice text 1 p).length = p - 1 := slice_length text 1 p (by omega)
    have hname : slice text 1 p ≠ [] ∧ ' ' ∉ slice text 1 p := by
      refine ⟨slice_ne_nil text 1 p (by omega) (by omega), ?_⟩
      intro hmem
      obtain ⟨k, hk1, hkp, hk⟩ := slice_mem text 1 p ' ' hmem
      by_cases hk2 : k = 1
      · rw [hk2] at hk; exact hi.2.2.2 hk
      · exact hp2.2.2 k (by omega) hkp hk
    have hself : slice text 1 p = slice text 1 (1 + (slice text 1 p).length) := by
      rw [hnl]
      congr 1
      omega
    cases hs : find_first_not_of text ' ' (p + 1) with
    | none =>
      refine ⟨_, _, IsCTCP_name_body_nobody text name body hlen hc p hp hs, hname.1, hname.2,
        by simp, hself, by rw [hnl]; omega, ?_, ?_⟩
      · intro hcon
        exact absurd hcon (by simp)
      · intro q hq
        have hqp : p = q := by simpa using hq
        subst hqp
        refine ⟨by rw [hnl]; omega, fun _ => rfl, ?_⟩
        intro s hcon
        rw [hs] at hcon
        exact absurd hcon (by simp)
    | some s =>
      have hs2 := (find_first_not_of_eq_some text ' ' (p + 1) s).mp hs
      have hsl : s < text.length := hs2.2.1
      have hbl : (slice text s (text.length - (if text.getLast? = some SOH then 1 else 0))).length
          = text.length - (if text.getLast? = some SOH then 1 else 0) - s :=
        slice_length text s _ (by omega)
      refine ⟨_, _, IsCTCP_name_body_full text name body hlen hc p s hp hs, hname.1, hname.2,
        ?_, hself, by rw [hnl]; omega, ?_, ?_⟩
      · intro hh
        exact hs2.2.2.1 (slice_head? text s _ ' ' hh)
      · intro hcon
        exact absurd hcon (by simp)
      · intro q hq
        have hqp : p = q := by simpa using hq
        subst hqp
        refine ⟨by rw [hnl]; omega, ?_, ?_⟩
        · intro hcon
          rw [hs] at hcon
          exact absurd hcon (by simp)
        · intro s1 hs1
          rw [hs] at hs1
          have hss : s = s1 := by simpa using hs1
          subst hss
          refine ⟨by rw [hbl]; omega, ?_, by rw [hbl]; omega⟩
          rw [hbl]
          congr 1
          omega

/-- Claim C19, witness. On `SOH A SP SOH`, where the body starts at the trailing SOH,
the decoder returns the name `A` and a body of length `4 - 3 - 1 = 0`. -/
theorem C19_decoded_shape_witness :
    (∃ name1 body1, IsCTCP_name_body "\x01A \x01".toList [] [] = some (true, name1, body1) ∧
      name1 ≠ [] ∧ ' ' ∉ name1 ∧ body1.head? ≠ some ' ' ∧
      name1 = slice "\x01A \x01".toList 1 (1 + name1.length) ∧
      1 + name1.length ≤ "\x01A \x01".toList.length ∧
      (find "\x01A \x01".toList ' ' 2 = none →
        name1.length + 1 + (if "\x01A \x01".toList.getLast? = some SOH then 1 else 0)
          = "\x01A \x01".toList.length ∧
        body1 = []) ∧
      (∀ p, find "\x01A \x01".toList ' ' 2 = some p →
        name1.length + 1 = p ∧
        (find_first_not_of "\x01A \x01".toList ' ' (p + 1) = none → body1 = []) ∧
        (∀ s, find_first_not_of "\x01A \x01".toList ' ' (p + 1) = some s →
          body1.length + s + (if "\x01A \x01".toList.getLast? = some SOH then 1 else 0)
            = "\x01A \x01".toList.length ∧
          body1 = slice "\x01A \x01".toList s (s + body1.length) ∧
          s + body1.length ≤ "\x01A \x01".toList.length))) ∧
    IsCTCP_name_body "\x01A \x01".toList [] [] = some (true, "A".toList, []) ∧
    find "\x01A \x01".toList ' ' 2 = some 2 ∧
    find_first_not_of "\x01A \x01".toList ' ' 3 = some 3 :=
  ⟨C19_decoded_shape "\x01A \x01".toList [] [] (by decide) (by decide), by decide, by decide,
    by decide⟩

end CoreMessage
